import Mathlib

/-!
AMReX-Hydro: redistribution driver and 2D Godunov edge-state predictor.

A shallow embedding of

* `src/Redistribution/hydro_redistribution.cpp` (`Redistribution::Apply`), and
* `src/Godunov/hydro_godunov_edge_state_2D.cpp` (`Godunov::ComputeEdgeState`),

for `AMREX_SPACEDIM == 2` and without `PELEC_USE_PLASMA`.

Conventions of the embedding:

* `amrex::Real` is modelled by `ℚ` (exact arithmetic, executable);
* an `Array4<T>` is a total function of the four indices `(i,j,k,n)`; the
  three-index access `a(i,j,k)` is `a i j k 0`;
* `amrex::ParallelFor(bx, ncomp, body)` whose body writes the element
  `(i,j,k,n)` of one array is a guarded pointwise update of that array;
* kernels whose bodies live in other translation units are fields of a
  record that the driver takes as a parameter;
* `amrex::Error` is `Except.error`.
-/

/-! ## Index space -/

/-- Two-dimensional integer index vector (`amrex::IntVect`, also `amrex::Dim3` with `z = 0`). -/
structure IntVect where
  x : Int
  y : Int
deriving DecidableEq, Repr

/-- Rectangular index region (`amrex::Box`) given by its small and big ends. -/
structure Box where
  smallend : IntVect
  bigend : IntVect
deriving DecidableEq, Repr

namespace Box

/-- Membership `Box::contains(IntVect)`; a 2D box only holds the plane `k = 0`. -/
def contains (b : Box) (i j k : Int) : Prop :=
  b.smallend.x ≤ i ∧ i ≤ b.bigend.x ∧ b.smallend.y ≤ j ∧ j ≤ b.bigend.y ∧ k = 0

instance (b : Box) (i j k : Int) : Decidable (b.contains i j k) := by
  unfold contains
  infer_instance

/-- Inclusion `Box::contains(Box)`: both ends of `c` lie within `b`. -/
def containsBox (b c : Box) : Prop :=
  b.smallend.x ≤ c.smallend.x ∧ b.smallend.y ≤ c.smallend.y ∧
    c.bigend.x ≤ b.bigend.x ∧ c.bigend.y ≤ b.bigend.y

instance (b c : Box) : Decidable (b.containsBox c) := by
  unfold containsBox
  infer_instance

/-- Validity `Box::ok()`: the box is not empty. -/
def ok (b : Box) : Prop :=
  b.smallend.x ≤ b.bigend.x ∧ b.smallend.y ≤ b.bigend.y

instance (b : Box) : Decidable b.ok := by
  unfold ok
  infer_instance

/-- The call `amrex::grow(b, n)`: grow by `n` cells on every side. -/
def grow (b : Box) (n : Int) : Box :=
  ⟨⟨b.smallend.x - n, b.smallend.y - n⟩, ⟨b.bigend.x + n, b.bigend.y + n⟩⟩

/-- The call `amrex::grow(b, dir, n)` / `Box::grow(dir, n)`: grow in one direction only. -/
def growDir (b : Box) (dir : Int) (n : Int) : Box :=
  if dir = 0 then ⟨⟨b.smallend.x - n, b.smallend.y⟩, ⟨b.bigend.x + n, b.bigend.y⟩⟩
  else if dir = 1 then ⟨⟨b.smallend.x, b.smallend.y - n⟩, ⟨b.bigend.x, b.bigend.y + n⟩⟩
  else b

/-- The call `amrex::surroundingNodes(b, dir)`: the faces of `b` normal to `dir`. -/
def surroundingNodes (b : Box) (dir : Int) : Box :=
  if dir = 0 then ⟨b.smallend, ⟨b.bigend.x + 1, b.bigend.y⟩⟩
  else if dir = 1 then ⟨b.smallend, ⟨b.bigend.x, b.bigend.y + 1⟩⟩
  else b

end Box

/-- Data of an `amrex::Array4<T>` as a function of `(i,j,k,n)`. -/
abbrev Array4 (α : Type) : Type := Int → Int → Int → Int → α

/-- The loop `amrex::ParallelFor(bx, ncomp, body)` for a body that assigns
`a(i,j,k,n) = body i j k n`: elements outside `bx × [0,ncomp)` keep their value. -/
def ParallelFor {α : Type} (bx : Box) (ncomp : Int) (body : Int → Int → Int → Int → α)
    (a : Array4 α) : Array4 α :=
  fun i j k n => if bx.contains i j k ∧ 0 ≤ n ∧ n < ncomp then body i j k n else a i j k n

/-- Boundary policies of `amrex::BCType` (mathematical boundary types). -/
inductive BCType where
  | bogus
  | reflect_odd
  | int_dir
  | reflect_even
  | foextrap
  | ext_dir
  | hoextrap
  | hoextrapcc
  | ext_dir_cc
  | direction_dependent
deriving DecidableEq, Repr

/-- Per-component boundary record `amrex::BCRec`: low and high policy per direction. -/
structure BCRec where
  lo : Int → BCType
  hi : Int → BCType

/-- The part of `amrex::Geometry` the two translation units read. -/
structure Geometry where
  Domain : Box
  CellSize : Int → ℚ
  isPeriodic : Int → Bool

/-- Cell classification word `amrex::EBCellFlag` (a packed 32-bit flag). -/
structure EBCellFlag where
  flag : Nat
deriving DecidableEq, Repr

namespace Redistribution

/-- Kernels called by the driver whose bodies are in other translation units.
Each takes the arrays it may write (with their current content) and returns
their new content. -/
structure Kernels where
  /-- The call `apply_flux_redistribution(bx, dUdt_out, dUdt_in, scratch, icomp, ncomp, flag, vfrac, geom)`;
  returns the new `dUdt_out` and `scratch`. -/
  apply_flux_redistribution : Box → Array4 ℚ → Array4 ℚ → Array4 ℚ → Int → Int →
    Array4 EBCellFlag → Array4 ℚ → Geometry → Array4 ℚ × Array4 ℚ
  /-- The call `MakeITracker(bx, apx, apy, vfrac, itr, geom, target_volfrac)`; returns the new `itr`. -/
  MakeITracker : Box → Array4 ℚ → Array4 ℚ → Array4 ℚ → Array4 Int → Geometry → ℚ → Array4 Int
  /-- The call `MakeStateRedistUtils(bx, flag, vfrac, ccc, itr, nrs, nbhd_vol, cent_hat, geom)`;
  returns the new `nrs`, `nbhd_vol`, `cent_hat`. -/
  MakeStateRedistUtils : Box → Array4 EBCellFlag → Array4 ℚ → Array4 ℚ → Array4 Int →
    Array4 ℚ → Array4 ℚ → Array4 ℚ → Geometry → Array4 ℚ × Array4 ℚ × Array4 ℚ
  /-- The call `StateRedistribute(bx, ncomp, U_out, U_in, flag, vfrac, fcx, fcy, ccc, bcrec,
  itr, nrs, nbhd_vol, cent_hat, geom)`; returns the new `U_out`. -/
  StateRedistribute : Box → Int → Array4 ℚ → Array4 ℚ → Array4 EBCellFlag → Array4 ℚ →
    Array4 ℚ → Array4 ℚ → Array4 ℚ → (Int → BCRec) → Array4 Int → Array4 ℚ → Array4 ℚ →
    Array4 ℚ → Geometry → Array4 ℚ
  /-- The call `MakeNewStateRedistUtils(bx, flag, vfrac, ccc, itr, nrs, alpha, nbhd_vol, cent_hat,
  geom, target_volfrac)`; returns the new `nrs`, `alpha`, `nbhd_vol`, `cent_hat`. -/
  MakeNewStateRedistUtils : Box → Array4 EBCellFlag → Array4 ℚ → Array4 ℚ → Array4 Int →
    Array4 ℚ → Array4 ℚ → Array4 ℚ → Array4 ℚ → Geometry → ℚ →
    Array4 ℚ × Array4 ℚ × Array4 ℚ × Array4 ℚ
  /-- The call `NewStateRedistribute(bx, ncomp, U_out, U_in, flag, vfrac, fcx, fcy, ccc, bcrec,
  itr, nrs, alpha, nbhd_vol, cent_hat, geom)`; returns the new `U_out`. -/
  NewStateRedistribute : Box → Int → Array4 ℚ → Array4 ℚ → Array4 EBCellFlag → Array4 ℚ →
    Array4 ℚ → Array4 ℚ → Array4 ℚ → (Int → BCRec) → Array4 Int → Array4 ℚ → Array4 ℚ →
    Array4 ℚ → Array4 ℚ → Geometry → Array4 ℚ

/-- Read-only arguments of `Redistribution::Apply`. -/
structure Inputs where
  bx : Box
  ncomp : Int
  U_in : Array4 ℚ
  /-- The region `Box(scratch)` on which the scratch array is defined. -/
  scratch_box : Box
  flag : Array4 EBCellFlag
  apx : Array4 ℚ
  apy : Array4 ℚ
  vfrac : Array4 ℚ
  fcx : Array4 ℚ
  fcy : Array4 ℚ
  ccc : Array4 ℚ
  d_bcrec_ptr : Int → BCRec
  lev_geom : Geometry
  dt : ℚ
  redistribution_type : String
  target_volfrac : ℚ

/-- Initial (unspecified) content of the function-local arrays of `Apply`. -/
structure Locals where
  itracker : Array4 Int
  nrs_fab : Array4 ℚ
  alpha_fab : Array4 ℚ
  nbhd_vol_fab : Array4 ℚ
  cent_hat_fab : Array4 ℚ

/-- The arrays `Redistribution::Apply` writes through its arguments. -/
structure State where
  dUdt_out : Array4 ℚ
  dUdt_in : Array4 ℚ
  scratch : Array4 ℚ

/-- The box `domain_per_grown`: the domain grown by one cell in each periodic direction. -/
def domain_per_grown (lev_geom : Geometry) : Box :=
  let d0 := lev_geom.Domain
  let d1 := if lev_geom.isPeriodic 0 then d0.growDir 0 1 else d0
  if lev_geom.isPeriodic 1 then d1.growDir 1 1 else d1

/-- The array `dUdt_in` after the ghost-cell loop of lines 126-132. -/
def zeroFill (a : Inputs) (dUdt_in : Array4 ℚ) : Array4 ℚ :=
  if ¬ (domain_per_grown a.lev_geom).containsBox (a.bx.grow 1) then
    ParallelFor (a.bx.grow 1) a.ncomp
      (fun i j k n =>
        if ¬ (domain_per_grown a.lev_geom).contains i j k then 0 else dUdt_in i j k n)
      dUdt_in
  else dUdt_in

/-- The array `scratch` after the loop of lines 134-161 (provisional state). -/
def provisional (a : Inputs) (dUdt_in scratch : Array4 ℚ) : Array4 ℚ :=
  ParallelFor a.scratch_box a.ncomp
    (fun i j k n => a.U_in i j k n + a.dt * zeroFill a dUdt_in i j k n) scratch

/-- The array `itr` after `MakeITracker` (line 163). -/
def tracker (K : Kernels) (a : Inputs) (l : Locals) : Array4 Int :=
  K.MakeITracker a.bx a.apx a.apy a.vfrac l.itracker a.lev_geom a.target_volfrac

/-- The array `nrs` after the weight computation of the selected policy (lines 165-175). -/
def nrsOf (K : Kernels) (a : Inputs) (l : Locals) : Array4 ℚ :=
  if a.redistribution_type = "StateRedist" then
    (K.MakeStateRedistUtils a.bx a.flag a.vfrac a.ccc (tracker K a l)
      l.nrs_fab l.nbhd_vol_fab l.cent_hat_fab a.lev_geom).1
  else
    (K.MakeNewStateRedistUtils a.bx a.flag a.vfrac a.ccc (tracker K a l)
      l.nrs_fab l.alpha_fab l.nbhd_vol_fab l.cent_hat_fab a.lev_geom a.target_volfrac).1

/-- The array `dUdt_out` right after the redistribution kernel of the selected
policy returned (lines 165-180), before the conversion to a rate of change. -/
def redistributed (K : Kernels) (a : Inputs) (l : Locals) (s : State) : Array4 ℚ :=
  let out0 := ParallelFor a.bx a.ncomp (fun _ _ _ _ => (0 : ℚ)) s.dUdt_out
  let scratch1 := provisional a s.dUdt_in s.scratch
  let itr := tracker K a l
  if a.redistribution_type = "StateRedist" then
    let w := K.MakeStateRedistUtils a.bx a.flag a.vfrac a.ccc itr
      l.nrs_fab l.nbhd_vol_fab l.cent_hat_fab a.lev_geom
    K.StateRedistribute a.bx a.ncomp out0 scratch1 a.flag a.vfrac a.fcx a.fcy a.ccc
      a.d_bcrec_ptr itr w.1 w.2.1 w.2.2 a.lev_geom
  else
    let w := K.MakeNewStateRedistUtils a.bx a.flag a.vfrac a.ccc itr
      l.nrs_fab l.alpha_fab l.nbhd_vol_fab l.cent_hat_fab a.lev_geom a.target_volfrac
    K.NewStateRedistribute a.bx a.ncomp out0 scratch1 a.flag a.vfrac a.fcx a.fcy a.ccc
      a.d_bcrec_ptr itr w.1 w.2.1 w.2.2.1 w.2.2.2 a.lev_geom

/-- The function `Redistribution::Apply` (hydro_redistribution.cpp, lines 13-229). -/
def Apply (K : Kernels) (a : Inputs) (l : Locals) (s : State) : Except String State :=
  let out0 := ParallelFor a.bx a.ncomp (fun _ _ _ _ => (0 : ℚ)) s.dUdt_out
  if a.redistribution_type = "FluxRedist" then
    let icomp : Int := 0
    let r := K.apply_flux_redistribution a.bx out0 s.dUdt_in s.scratch icomp a.ncomp
      a.flag a.vfrac a.lev_geom
    .ok { dUdt_out := r.1, dUdt_in := s.dUdt_in, scratch := r.2 }
  else if a.redistribution_type = "StateRedist" ∨ a.redistribution_type = "NewStateRedist" then
    let dUdt_in1 := zeroFill a s.dUdt_in
    let scratch1 := provisional a s.dUdt_in s.scratch
    let itr := tracker K a l
    let nrs := nrsOf K a l
    let out1 := redistributed K a l s
    let out2 := ParallelFor a.bx a.ncomp
      (fun i j k n =>
        if itr i j k 0 > 0 ∨ nrs i j k 0 > 1 then (out1 i j k n - a.U_in i j k n) / a.dt
        else dUdt_in1 i j k n) out1
    .ok { dUdt_out := out2, dUdt_in := dUdt_in1, scratch := scratch1 }
  else if a.redistribution_type = "NoRedist" then
    let out1 := ParallelFor a.bx a.ncomp (fun i j k n => s.dUdt_in i j k n) out0
    .ok { dUdt_out := out1, dUdt_in := s.dUdt_in, scratch := s.scratch }
  else
    .error "Not a legit redist_type"

/-- Every cell is regular: volume fraction `1` and no cut face (area fractions `1`). -/
def Regular (a : Inputs) : Prop :=
  ∀ i j k : Int, a.vfrac i j k 0 = 1 ∧ a.apx i j k 0 = 1 ∧ a.apy i j k 0 = 1

/-- Modelled from the spec: the bodies of `MakeITracker`, `MakeStateRedistUtils` and
`MakeNewStateRedistUtils` are not part of the sources. Section 4.2: "Regular cells
(volume fraction = 1) get an empty/self-only neighborhood"; section 4.3: `nrs` is
"the number of neighborhoods a cell participates in as a member". Hence on a
region of regular cells every tracker count is `0` and every `nrs` is `1`. -/
def RegularUntouched (K : Kernels) : Prop :=
  ∀ (a : Inputs) (l : Locals), Regular a →
    ∀ i j k : Int, tracker K a l i j k 0 = 0 ∧ nrsOf K a l i j k 0 = 1

/-- Modelled from the spec: the body of the flux-redistribution kernel is not part
of the sources. Section 8: "if all cells in a region are regular (volume
fraction = 1, no cut faces), ... `FluxRedistribute` must return the input
unchanged", for the components `icomp ≤ n < icomp + ncomp` on the cells of `bx`. -/
def FluxRegularPassThrough (K : Kernels) : Prop :=
  ∀ (bx : Box) (dUdt_out dUdt_in scratch : Array4 ℚ) (icomp ncomp : Int)
    (flag : Array4 EBCellFlag) (vfrac : Array4 ℚ) (geom : Geometry),
    (∀ i j k : Int, vfrac i j k 0 = 1) →
    ∀ i j k n : Int, bx.contains i j k → icomp ≤ n → n < icomp + ncomp →
      (K.apply_flux_redistribution bx dUdt_out dUdt_in scratch icomp ncomp flag vfrac
        geom).1 i j k n = dUdt_in i j k n

/-- Modelled from the spec: the layout of the neighbour tracker is fixed by
`MakeITracker`, whose body is not part of the sources. Section 3: the tracker holds
"for each cell, the set of neighbor offsets forming its merging neighborhood, and
neighborhood size"; `Apply` (lines 63-65) uses "the first component of this for the
number of neighbors". The merging neighbourhood recorded for the cell `(i,j,k)` is
the cell itself together with the cells at the offsets `map c` of the codes `c`
stored in components `1 .. itr(i,j,k,0)`; `map` is the table from codes to offsets. -/
def nbhd (map : Int → Int × Int) (itr : Array4 Int) (i j k : Int) : List (Int × Int × Int) :=
  (i, j, k) :: (List.range (itr i j k 0).toNat).map
    (fun m => (i + (map (itr i j k (m + 1))).1, j + (map (itr i j k (m + 1))).2, k))

/-- Volume-fraction-weighted sum of component `n` of `f` over the cells of `N`. -/
def wsum (vfrac f : Array4 ℚ) (N : List (Int × Int × Int)) (n : Int) : ℚ :=
  (N.map (fun c => vfrac c.1 c.2.1 c.2.2 0 * f c.1 c.2.1 c.2.2 n)).sum

/-- The test of lines 210: the cell has a neighbour or lies in another neighbourhood. -/
def touched (K : Kernels) (a : Inputs) (l : Locals) (c : Int × Int × Int) : Prop :=
  tracker K a l c.1 c.2.1 c.2.2 0 > 0 ∨ nrsOf K a l c.1 c.2.1 c.2.2 0 > 1

instance (K : Kernels) (a : Inputs) (l : Locals) (c : Int × Int × Int) :
    Decidable (touched K a l c) := by
  unfold touched
  infer_instance

end Redistribution

/-! ## Godunov edge-state predictor (2D) -/

namespace Godunov

/-- Constants and device functions that `ComputeEdgeState` takes from headers
(`hydro_constants.H`, `hydro_godunov_ppm.H`, `hydro_godunov_plm.H`,
`hydro_godunov_K.H`, `hydro_bcs_K.H`). A function with reference arguments
returns their new values as a pair. -/
structure Primitives where
  small_vel : ℚ
  XVEL : Int
  YVEL : Int
  /-- The call `PPM::PredictStateOnXFace(i,j,k,n,dt,dx,Im,Ip,q,umac,bc,dlo,dhi)`; returns `(Im, Ip)`. -/
  PPM_PredictStateOnXFace : Int → Int → Int → Int → ℚ → ℚ → Array4 ℚ → Array4 ℚ → BCRec →
    Int → Int → ℚ × ℚ
  /-- The call `PPM::PredictStateOnYFace(i,j,k,n,dt,dy,Im,Ip,q,vmac,bc,dlo,dhi)`; returns `(Im, Ip)`. -/
  PPM_PredictStateOnYFace : Int → Int → Int → Int → ℚ → ℚ → Array4 ℚ → Array4 ℚ → BCRec →
    Int → Int → ℚ × ℚ
  /-- The call `PLM::PredictStateOnXFace(i,j,k,n,dt,dx,Im,Ip,q,umac_ijk,bc,dlo,dhi,is_velocity)`;
  returns `(Im, Ip)`. -/
  PLM_PredictStateOnXFace : Int → Int → Int → Int → ℚ → ℚ → Array4 ℚ → ℚ → BCRec →
    Int → Int → Bool → ℚ × ℚ
  /-- The call `PLM::PredictStateOnYFace(i,j,k,n,dt,dy,Im,Ip,q,vmac_ijk,bc,dlo,dhi,is_velocity)`;
  returns `(Im, Ip)`. -/
  PLM_PredictStateOnYFace : Int → Int → Int → Int → ℚ → ℚ → Array4 ℚ → ℚ → BCRec →
    Int → Int → Bool → ℚ × ℚ
  /-- The call `GodunovTransBC::SetTransTermXBCs(i,j,k,n,q,lo,hi,bclo,bchi,dlo,dhi,is_velocity)`;
  returns `(lo, hi)`. -/
  SetTransTermXBCs : Int → Int → Int → Int → Array4 ℚ → ℚ → ℚ → BCType → BCType →
    Int → Int → Bool → ℚ × ℚ
  /-- The call `GodunovTransBC::SetTransTermYBCs(i,j,k,n,q,lo,hi,bclo,bchi,dlo,dhi,is_velocity)`;
  returns `(lo, hi)`. -/
  SetTransTermYBCs : Int → Int → Int → Int → Array4 ℚ → ℚ → ℚ → BCType → BCType →
    Int → Int → Bool → ℚ × ℚ
  /-- The call `HydroBC::SetXEdgeBCs(i,j,k,n,q,lo,hi,bclo,dlo,bchi,dhi,is_velocity)`; returns `(lo, hi)`. -/
  SetXEdgeBCs : Int → Int → Int → Int → Array4 ℚ → ℚ → ℚ → BCType → Int → BCType →
    Int → Bool → ℚ × ℚ
  /-- The call `HydroBC::SetYEdgeBCs(i,j,k,n,q,lo,hi,bclo,dlo,bchi,dhi,is_velocity)`; returns `(lo, hi)`. -/
  SetYEdgeBCs : Int → Int → Int → Int → Array4 ℚ → ℚ → ℚ → BCType → Int → BCType →
    Int → Bool → ℚ × ℚ

/-- Read-only arguments of `Godunov::ComputeEdgeState`; `fq = none` is the null array. -/
structure Inputs where
  bx : Box
  ncomp : Int
  q : Array4 ℚ
  umac : Array4 ℚ
  vmac : Array4 ℚ
  divu : Array4 ℚ
  fq : Option (Array4 ℚ)
  geom : Geometry
  l_dt : ℚ
  pbc : Int → BCRec
  iconserv : Int → Int
  use_ppm : Bool
  use_forces_in_trans : Bool
  is_velocity : Bool

/-- Initial (unspecified) content of the scratch arrays carved out of `tmpfab`;
`yzlo` and `xzlo` are the two views of the storage of `xyzlo`. -/
structure Scratch where
  Imx : Array4 ℚ
  Ipx : Array4 ℚ
  Imy : Array4 ℚ
  Ipy : Array4 ℚ
  xlo : Array4 ℚ
  xhi : Array4 ℚ
  ylo : Array4 ℚ
  yhi : Array4 ℚ
  yzlo : Array4 ℚ
  xzlo : Array4 ℚ

/-- Line 33: `xbx = surroundingNodes(bx,0)`. -/
def xbx (a : Inputs) : Box := a.bx.surroundingNodes 0

/-- Line 34: `ybx = surroundingNodes(bx,1)`. -/
def ybx (a : Inputs) : Box := a.bx.surroundingNodes 1

/-- Line 36: `bxg1 = grow(bx,1)`. -/
def bxg1 (a : Inputs) : Box := a.bx.grow 1

/-- Line 42: `xebox = Box(xbx).grow(1,1)`. -/
def xebox (a : Inputs) : Box := (xbx a).growDir 1 1

/-- Line 43: `yebox = Box(ybx).grow(0,1)`. -/
def yebox (a : Inputs) : Box := (ybx a).growDir 0 1

/-- Line 45: `dx = geom.CellSize(0)`. -/
def dx (a : Inputs) : ℚ := a.geom.CellSize 0

/-- Line 46: `dy = geom.CellSize(1)`. -/
def dy (a : Inputs) : ℚ := a.geom.CellSize 1

/-- Line 48: `dtdx = l_dt/dx`. -/
def dtdx (a : Inputs) : ℚ := a.l_dt / dx a

/-- Line 49: `dtdy = l_dt/dy`. -/
def dtdy (a : Inputs) : ℚ := a.l_dt / dy a

/-- Line 52: `dlo = lbound(domain)`. -/
def dlo (a : Inputs) : IntVect := a.geom.Domain.smallend

/-- Line 53: `dhi = ubound(domain)`. -/
def dhi (a : Inputs) : IntVect := a.geom.Domain.bigend

/-- The array `Imx` after the reconstruction stage (lines 77-105). -/
def Imx1 (P : Primitives) (a : Inputs) (t : Scratch) : Array4 ℚ :=
  if a.use_ppm then
    ParallelFor (bxg1 a) a.ncomp (fun i j k n =>
      (P.PPM_PredictStateOnXFace i j k n a.l_dt (dx a) a.q a.umac (a.pbc n)
        (dlo a).x (dhi a).x).1) t.Imx
  else
    ParallelFor (xebox a) a.ncomp (fun i j k n =>
      (P.PLM_PredictStateOnXFace i j k n a.l_dt (dx a) a.q (a.umac i j k 0) (a.pbc n)
        (dlo a).x (dhi a).x a.is_velocity).1) t.Imx

/-- The array `Ipx` after the reconstruction stage; the linear branch writes
`Ipx(i-1,j,k,n)` from the face `(i,j,k)` of `xebox`. -/
def Ipx1 (P : Primitives) (a : Inputs) (t : Scratch) : Array4 ℚ :=
  if a.use_ppm then
    ParallelFor (bxg1 a) a.ncomp (fun i j k n =>
      (P.PPM_PredictStateOnXFace i j k n a.l_dt (dx a) a.q a.umac (a.pbc n)
        (dlo a).x (dhi a).x).2) t.Ipx
  else
    fun i j k n =>
      if (xebox a).contains (i + 1) j k ∧ 0 ≤ n ∧ n < a.ncomp then
        (P.PLM_PredictStateOnXFace (i + 1) j k n a.l_dt (dx a) a.q (a.umac (i + 1) j k 0)
          (a.pbc n) (dlo a).x (dhi a).x a.is_velocity).2
      else t.Ipx i j k n

/-- The array `Imy` after the reconstruction stage (lines 77-105). -/
def Imy1 (P : Primitives) (a : Inputs) (t : Scratch) : Array4 ℚ :=
  if a.use_ppm then
    ParallelFor (bxg1 a) a.ncomp (fun i j k n =>
      (P.PPM_PredictStateOnYFace i j k n a.l_dt (dy a) a.q a.vmac (a.pbc n)
        (dlo a).y (dhi a).y).1) t.Imy
  else
    ParallelFor (yebox a) a.ncomp (fun i j k n =>
      (P.PLM_PredictStateOnYFace i j k n a.l_dt (dy a) a.q (a.vmac i j k 0) (a.pbc n)
        (dlo a).y (dhi a).y a.is_velocity).1) t.Imy

/-- The array `Ipy` after the reconstruction stage; the linear branch writes
`Ipy(i,j-1,k,n)` from the face `(i,j,k)` of `yebox`. -/
def Ipy1 (P : Primitives) (a : Inputs) (t : Scratch) : Array4 ℚ :=
  if a.use_ppm then
    ParallelFor (bxg1 a) a.ncomp (fun i j k n =>
      (P.PPM_PredictStateOnYFace i j k n a.l_dt (dy a) a.q a.vmac (a.pbc n)
        (dlo a).y (dhi a).y).2) t.Ipy
  else
    fun i j k n =>
      if (yebox a).contains i (j + 1) k ∧ 0 ≤ n ∧ n < a.ncomp then
        (P.PLM_PredictStateOnYFace i (j + 1) k n a.l_dt (dy a) a.q (a.vmac i (j + 1) k 0)
          (a.pbc n) (dlo a).y (dhi a).y a.is_velocity).2
      else t.Ipy i j k n

/-- The expression `fu*st + (1 - fu)*0.5*(hi + lo)` of the transverse passes, with
`st = (vel >= 0) ? lo : hi` and `fu = (abs(vel) < small_vel) ? 0 : 1`
(lines 112-113 and 128-129, 135-136 and 152-153, 176-178, 248-250). -/
def transUpwind (small_vel vel lo hi : ℚ) : ℚ :=
  let st := if vel ≥ 0 then lo else hi
  let fu : ℚ := if |vel| < small_vel then 0 else 1
  fu * st + (1 - fu) * 0.5 * (hi + lo)

/-- The pair `(lo, hi)` of the x transverse pass at a face, after the forcing
term and `SetTransTermXBCs` (lines 114-125). -/
def xTrans (P : Primitives) (a : Inputs) (t : Scratch) (i j k n : Int) : ℚ × ℚ :=
  let lo := Ipx1 P a t (i - 1) j k n
  let hi := Imx1 P a t i j k n
  let lohi : ℚ × ℚ :=
    match a.fq with
    | some fq =>
      if a.use_forces_in_trans then
        (lo + 0.5 * a.l_dt * fq (i - 1) j k n, hi + 0.5 * a.l_dt * fq i j k n)
      else (lo, hi)
    | none => (lo, hi)
  P.SetTransTermXBCs i j k n a.q lohi.1 lohi.2 ((a.pbc n).lo 0) ((a.pbc n).hi 0)
    (dlo a).x (dhi a).x a.is_velocity

/-- The pair `(lo, hi)` of the y transverse pass at a face, after the forcing
term and `SetTransTermYBCs` (lines 137-148). -/
def yTrans (P : Primitives) (a : Inputs) (t : Scratch) (i j k n : Int) : ℚ × ℚ :=
  let lo := Ipy1 P a t i (j - 1) k n
  let hi := Imy1 P a t i j k n
  let lohi : ℚ × ℚ :=
    match a.fq with
    | some fq =>
      if a.use_forces_in_trans then
        (lo + 0.5 * a.l_dt * fq i (j - 1) k n, hi + 0.5 * a.l_dt * fq i j k n)
      else (lo, hi)
    | none => (lo, hi)
  P.SetTransTermYBCs i j k n a.q lohi.1 lohi.2 ((a.pbc n).lo 1) ((a.pbc n).hi 1)
    (dlo a).y (dhi a).y a.is_velocity

/-- The array `xlo` after the transverse pass (line 126). -/
def xlo (P : Primitives) (a : Inputs) (t : Scratch) : Array4 ℚ :=
  ParallelFor (xebox a) a.ncomp (fun i j k n => (xTrans P a t i j k n).1) t.xlo

/-- The array `xhi` after the transverse pass (line 127). -/
def xhi (P : Primitives) (a : Inputs) (t : Scratch) : Array4 ℚ :=
  ParallelFor (xebox a) a.ncomp (fun i j k n => (xTrans P a t i j k n).2) t.xhi

/-- The array `ylo` after the transverse pass (line 150). -/
def ylo (P : Primitives) (a : Inputs) (t : Scratch) : Array4 ℚ :=
  ParallelFor (yebox a) a.ncomp (fun i j k n => (yTrans P a t i j k n).1) t.ylo

/-- The array `yhi` after the transverse pass (line 151). -/
def yhi (P : Primitives) (a : Inputs) (t : Scratch) : Array4 ℚ :=
  ParallelFor (yebox a) a.ncomp (fun i j k n => (yTrans P a t i j k n).2) t.yhi

/-- The array `Imx` after the transverse pass (line 129). -/
def Imx2 (P : Primitives) (a : Inputs) (t : Scratch) : Array4 ℚ :=
  ParallelFor (xebox a) a.ncomp (fun i j k n =>
    transUpwind P.small_vel (a.umac i j k 0) (xTrans P a t i j k n).1 (xTrans P a t i j k n).2)
    (Imx1 P a t)

/-- The array `Imy` after the transverse pass (line 153). -/
def Imy2 (P : Primitives) (a : Inputs) (t : Scratch) : Array4 ℚ :=
  ParallelFor (yebox a) a.ncomp (fun i j k n =>
    transUpwind P.small_vel (a.vmac i j k 0) (yTrans P a t i j k n).1 (yTrans P a t i j k n).2)
    (Imy1 P a t)

/-- Lines 162-163: `Box(yzlo) = surroundingNodes(grow(bx,0,1),1)`. -/
def yzloBox (a : Inputs) : Box := (a.bx.growDir 0 1).surroundingNodes 1

/-- Lines 233-234: `Box(xzlo) = surroundingNodes(grow(bx,1,1),0)`. -/
def xzloBox (a : Inputs) : Box := (a.bx.growDir 1 1).surroundingNodes 0

/-- The array `yzlo` after the loop of lines 164-179. -/
def yzlo (P : Primitives) (a : Inputs) (t : Scratch) : Array4 ℚ :=
  ParallelFor (yzloBox a) a.ncomp (fun i j k n =>
    let l := P.SetTransTermYBCs i j k n a.q (ylo P a t i j k n) (yhi P a t i j k n)
      ((a.pbc n).lo 1) ((a.pbc n).hi 1) (dlo a).y (dhi a).y a.is_velocity
    transUpwind P.small_vel (a.vmac i j k 0) l.1 l.2) t.yzlo

/-- The array `xzlo` after the loop of lines 235-251. -/
def xzlo (P : Primitives) (a : Inputs) (t : Scratch) : Array4 ℚ :=
  ParallelFor (xzloBox a) a.ncomp (fun i j k n =>
    let l := P.SetTransTermXBCs i j k n a.q (xlo P a t i j k n) (xhi P a t i j k n)
      ((a.pbc n).lo 0) ((a.pbc n).hi 0) (dlo a).x (dhi a).x a.is_velocity
    transUpwind P.small_vel (a.umac i j k 0) l.1 l.2) t.xzlo

/-- The pair `(stl, sth)` of the x normal pass at a face before `SetXEdgeBCs`
(lines 191-209): transverse, conservative and forcing corrections. -/
def xPre (P : Primitives) (a : Inputs) (t : Scratch) (i j k n : Int) : ℚ × ℚ :=
  let stl := xlo P a t i j k n
    - (0.5 * dtdy a) * (yzlo P a t (i - 1) (j + 1) k n * a.vmac (i - 1) (j + 1) k 0
                        - yzlo P a t (i - 1) j k n * a.vmac (i - 1) j k 0)
    + (0.5 * dtdy a) * a.q (i - 1) j k n * (a.vmac (i - 1) (j + 1) k 0 - a.vmac (i - 1) j k 0)
  let sth := xhi P a t i j k n
    - (0.5 * dtdy a) * (yzlo P a t i (j + 1) k n * a.vmac i (j + 1) k 0
                        - yzlo P a t i j k n * a.vmac i j k 0)
    + (0.5 * dtdy a) * a.q i j k n * (a.vmac i (j + 1) k 0 - a.vmac i j k 0)
  let stl := stl + (if a.iconserv n ≠ 0 then -0.5 * a.l_dt * a.q (i - 1) j k n * a.divu (i - 1) j k 0
    else 0)
  let sth := sth + (if a.iconserv n ≠ 0 then -0.5 * a.l_dt * a.q i j k n * a.divu i j k 0
    else 0)
  match a.fq with
  | some fq =>
    if ¬ a.use_forces_in_trans then
      (stl + 0.5 * a.l_dt * fq (i - 1) j k n, sth + 0.5 * a.l_dt * fq i j k n)
    else (stl, sth)
  | none => (stl, sth)

/-- The pair `(stl, sth)` of the y normal pass at a face before `SetYEdgeBCs`
(lines 263-281). -/
def yPre (P : Primitives) (a : Inputs) (t : Scratch) (i j k n : Int) : ℚ × ℚ :=
  let stl := ylo P a t i j k n
    - (0.5 * dtdx a) * (xzlo P a t (i + 1) (j - 1) k n * a.umac (i + 1) (j - 1) k 0
                        - xzlo P a t i (j - 1) k n * a.umac i (j - 1) k 0)
    + (0.5 * dtdx a) * a.q i (j - 1) k n * (a.umac (i + 1) (j - 1) k 0 - a.umac i (j - 1) k 0)
  let sth := yhi P a t i j k n
    - (0.5 * dtdx a) * (xzlo P a t (i + 1) j k n * a.umac (i + 1) j k 0
                        - xzlo P a t i j k n * a.umac i j k 0)
    + (0.5 * dtdx a) * a.q i j k n * (a.umac (i + 1) j k 0 - a.umac i j k 0)
  let stl := stl + (if a.iconserv n ≠ 0 then -0.5 * a.l_dt * a.q i (j - 1) k n * a.divu i (j - 1) k 0
    else 0)
  let sth := sth + (if a.iconserv n ≠ 0 then -0.5 * a.l_dt * a.q i j k n * a.divu i j k 0
    else 0)
  match a.fq with
  | some fq =>
    if ¬ a.use_forces_in_trans then
      (stl + 0.5 * a.l_dt * fq i (j - 1) k n, sth + 0.5 * a.l_dt * fq i j k n)
    else (stl, sth)
  | none => (stl, sth)

/-- The pair `(stl, sth)` returned by `HydroBC::SetXEdgeBCs` (line 212). -/
def xBC (P : Primitives) (a : Inputs) (t : Scratch) (i j k n : Int) : ℚ × ℚ :=
  P.SetXEdgeBCs i j k n a.q (xPre P a t i j k n).1 (xPre P a t i j k n).2
    ((a.pbc n).lo 0) (dlo a).x ((a.pbc n).hi 0) (dhi a).x a.is_velocity

/-- The pair `(stl, sth)` returned by `HydroBC::SetYEdgeBCs` (line 284). -/
def yBC (P : Primitives) (a : Inputs) (t : Scratch) (i j k n : Int) : ℚ × ℚ :=
  P.SetYEdgeBCs i j k n a.q (yPre P a t i j k n).1 (yPre P a t i j k n).2
    ((a.pbc n).lo 1) (dlo a).y ((a.pbc n).hi 1) (dhi a).y a.is_velocity

/-- The two `if` blocks of lines 214-223 (and 286-295): `atLo`/`atHi` are the block
conditions (boundary face with `foextrap` or `hoextrap` policy), `dirvel` is
`n == XVEL && is_velocity` (resp. `YVEL`), `vel` the normal face velocity. -/
def extrapBlocks (atLo atHi dirvel : Bool) (vel : ℚ) (st : ℚ × ℚ) : ℚ × ℚ :=
  let s1 : ℚ × ℚ :=
    if atLo then
      let sth := if vel ≥ 0 ∧ dirvel then min st.2 0 else st.2
      (sth, sth)
    else st
  if atHi then
    let stl := if vel ≤ 0 ∧ dirvel then max s1.1 0 else s1.1
    (stl, stl)
  else s1

/-- The pair `(stl, sth)` of an x-face as it stands at line 225. -/
def xFinal (P : Primitives) (a : Inputs) (t : Scratch) (i j k n : Int) : ℚ × ℚ :=
  extrapBlocks
    (decide (i = (dlo a).x ∧
      ((a.pbc n).lo 0 = BCType.foextrap ∨ (a.pbc n).lo 0 = BCType.hoextrap)))
    (decide (i = (dhi a).x + 1 ∧
      ((a.pbc n).hi 0 = BCType.foextrap ∨ (a.pbc n).hi 0 = BCType.hoextrap)))
    (decide (n = P.XVEL) && a.is_velocity)
    (a.umac i j k 0) (xBC P a t i j k n)

/-- The pair `(stl, sth)` of a y-face as it stands at line 297. -/
def yFinal (P : Primitives) (a : Inputs) (t : Scratch) (i j k n : Int) : ℚ × ℚ :=
  extrapBlocks
    (decide (j = (dlo a).y ∧
      ((a.pbc n).lo 1 = BCType.foextrap ∨ (a.pbc n).lo 1 = BCType.hoextrap)))
    (decide (j = (dhi a).y + 1 ∧
      ((a.pbc n).hi 1 = BCType.foextrap ∨ (a.pbc n).hi 1 = BCType.hoextrap)))
    (decide (n = P.YVEL) && a.is_velocity)
    (a.vmac i j k 0) (yBC P a t i j k n)

/-- Lines 225-226 (and 297-298): `temp = (vel >= 0) ? stl : sth`, then
`temp = (abs(vel) < small_vel) ? 0.5*(stl + sth) : temp`. -/
def edgeUpwind (small_vel vel stl sth : ℚ) : ℚ :=
  let temp := if vel ≥ 0 then stl else sth
  if |vel| < small_vel then 0.5 * (stl + sth) else temp

/-- Arrays `Godunov::ComputeEdgeState` writes through its arguments. -/
structure Edges where
  xedge : Array4 ℚ
  yedge : Array4 ℚ

/-- The function `Godunov::ComputeEdgeState` (hydro_godunov_edge_state_2D.cpp, lines 17-302):
`e` holds the caller's `xedge` and `yedge` on entry, the result holds them on return. -/
def ComputeEdgeState (P : Primitives) (a : Inputs) (t : Scratch) (e : Edges) : Edges where
  xedge := ParallelFor (xbx a) a.ncomp (fun i j k n =>
    edgeUpwind P.small_vel (a.umac i j k 0) (xFinal P a t i j k n).1 (xFinal P a t i j k n).2)
    e.xedge
  yedge := ParallelFor (ybx a) a.ncomp (fun i j k n =>
    edgeUpwind P.small_vel (a.vmac i j k 0) (yFinal P a t i j k n).1 (yFinal P a t i j k n).2)
    e.yedge

end Godunov

namespace Redistribution

/-- Read-only arguments of `Redistribution::ApplyToInitialData`. -/
structure InitInputs where
  bx : Box
  ncomp : Int
  flag : Array4 EBCellFlag
  apx : Array4 ℚ
  apy : Array4 ℚ
  vfrac : Array4 ℚ
  fcx : Array4 ℚ
  fcy : Array4 ℚ
  ccc : Array4 ℚ
  d_bcrec_ptr : Int → BCRec
  lev_geom : Geometry
  redistribution_type : String
  target_volfrac : ℚ

/-- The arrays `Redistribution::ApplyToInitialData` receives by (non-const) handle. -/
structure InitState where
  U_out : Array4 ℚ
  U_in : Array4 ℚ

/-- The array `itr` after `MakeITracker` in `ApplyToInitialData` (line 298). -/
def initTracker (K : Kernels) (a : InitInputs) (l : Locals) : Array4 Int :=
  K.MakeITracker a.bx a.apx a.apy a.vfrac l.itracker a.lev_geom a.target_volfrac

/-- The function `Redistribution::ApplyToInitialData` (hydro_redistribution.cpp, lines 231-321). -/
def ApplyToInitialData (K : Kernels) (a : InitInputs) (l : Locals) (s : InitState) :
    Except String InitState :=
  let out0 := ParallelFor a.bx a.ncomp (fun _ _ _ _ => (0 : ℚ)) s.U_out
  if a.redistribution_type = "StateRedist" ∨ a.redistribution_type = "NewStateRedist" then
    let itr := initTracker K a l
    if a.redistribution_type = "StateRedist" then
      let w := K.MakeStateRedistUtils a.bx a.flag a.vfrac a.ccc itr
        l.nrs_fab l.nbhd_vol_fab l.cent_hat_fab a.lev_geom
      .ok { U_out := K.StateRedistribute a.bx a.ncomp out0 s.U_in a.flag a.vfrac a.fcx a.fcy
              a.ccc a.d_bcrec_ptr itr w.1 w.2.1 w.2.2 a.lev_geom
            U_in := s.U_in }
    else
      let w := K.MakeNewStateRedistUtils a.bx a.flag a.vfrac a.ccc itr
        l.nrs_fab l.alpha_fab l.nbhd_vol_fab l.cent_hat_fab a.lev_geom a.target_volfrac
      .ok { U_out := K.NewStateRedistribute a.bx a.ncomp out0 s.U_in a.flag a.vfrac a.fcx a.fcy
              a.ccc a.d_bcrec_ptr itr w.1 w.2.1 w.2.2.1 w.2.2.2 a.lev_geom
            U_in := s.U_in }
  else
    .error "Redistribution::ApplyToInitialData: Shouldn't be here with this redist type"

/-- The arguments `Apply` and `ApplyToInitialData` have in common. -/
def Inputs.toInit (a : Inputs) : InitInputs where
  bx := a.bx
  ncomp := a.ncomp
  flag := a.flag
  apx := a.apx
  apy := a.apy
  vfrac := a.vfrac
  fcx := a.fcx
  fcy := a.fcy
  ccc := a.ccc
  d_bcrec_ptr := a.d_bcrec_ptr
  lev_geom := a.lev_geom
  redistribution_type := a.redistribution_type
  target_volfrac := a.target_volfrac

end Redistribution

namespace Godunov

/-- The pair `(l_yzlo, l_yzhi)` of lines 171-174: `ylo`, `yhi` of the face after
`SetTransTermYBCs`. -/
def yzStates (P : Primitives) (a : Inputs) (t : Scratch) (i j k n : Int) : ℚ × ℚ :=
  P.SetTransTermYBCs i j k n a.q (ylo P a t i j k n) (yhi P a t i j k n)
    ((a.pbc n).lo 1) ((a.pbc n).hi 1) (dlo a).y (dhi a).y a.is_velocity

/-- The pair `(l_xzlo, l_xzhi)` of lines 242-246: `xlo`, `xhi` of the face after
`SetTransTermXBCs`. -/
def xzStates (P : Primitives) (a : Inputs) (t : Scratch) (i j k n : Int) : ℚ × ℚ :=
  P.SetTransTermXBCs i j k n a.q (xlo P a t i j k n) (xhi P a t i j k n)
    ((a.pbc n).lo 0) ((a.pbc n).hi 0) (dlo a).x (dhi a).x a.is_velocity

/-- The pair `(stl, sth)` of an x-face after the assignments of lines 191-197
(transverse terms only). -/
def xAdv (P : Primitives) (a : Inputs) (t : Scratch) (i j k n : Int) : ℚ × ℚ :=
  (xlo P a t i j k n
    - (0.5 * dtdy a) * (yzlo P a t (i - 1) (j + 1) k n * a.vmac (i - 1) (j + 1) k 0
                        - yzlo P a t (i - 1) j k n * a.vmac (i - 1) j k 0)
    + (0.5 * dtdy a) * a.q (i - 1) j k n * (a.vmac (i - 1) (j + 1) k 0 - a.vmac (i - 1) j k 0),
   xhi P a t i j k n
    - (0.5 * dtdy a) * (yzlo P a t i (j + 1) k n * a.vmac i (j + 1) k 0
                        - yzlo P a t i j k n * a.vmac i j k 0)
    + (0.5 * dtdy a) * a.q i j k n * (a.vmac i (j + 1) k 0 - a.vmac i j k 0))

/-- The pair `(stl, sth)` of a y-face after the assignments of lines 263-269
(transverse terms only). -/
def yAdv (P : Primitives) (a : Inputs) (t : Scratch) (i j k n : Int) : ℚ × ℚ :=
  (ylo P a t i j k n
    - (0.5 * dtdx a) * (xzlo P a t (i + 1) (j - 1) k n * a.umac (i + 1) (j - 1) k 0
                        - xzlo P a t i (j - 1) k n * a.umac i (j - 1) k 0)
    + (0.5 * dtdx a) * a.q i (j - 1) k n * (a.umac (i + 1) (j - 1) k 0 - a.umac i (j - 1) k 0),
   yhi P a t i j k n
    - (0.5 * dtdx a) * (xzlo P a t (i + 1) j k n * a.umac (i + 1) j k 0
                        - xzlo P a t i j k n * a.umac i j k 0)
    + (0.5 * dtdx a) * a.q i j k n * (a.umac (i + 1) j k 0 - a.umac i j k 0))

/-- The pair `(stl, sth)` of an x-face after lines 202-203 (conservative term). -/
def xCons (P : Primitives) (a : Inputs) (t : Scratch) (i j k n : Int) : ℚ × ℚ :=
  ((xAdv P a t i j k n).1 +
      (if a.iconserv n ≠ 0 then -0.5 * a.l_dt * a.q (i - 1) j k n * a.divu (i - 1) j k 0 else 0),
   (xAdv P a t i j k n).2 +
      (if a.iconserv n ≠ 0 then -0.5 * a.l_dt * a.q i j k n * a.divu i j k 0 else 0))

/-- The pair `(stl, sth)` of a y-face after lines 274-275 (conservative term). -/
def yCons (P : Primitives) (a : Inputs) (t : Scratch) (i j k n : Int) : ℚ × ℚ :=
  ((yAdv P a t i j k n).1 +
      (if a.iconserv n ≠ 0 then -0.5 * a.l_dt * a.q i (j - 1) k n * a.divu i (j - 1) k 0 else 0),
   (yAdv P a t i j k n).2 +
      (if a.iconserv n ≠ 0 then -0.5 * a.l_dt * a.q i j k n * a.divu i j k 0 else 0))


/-- The box with the roles of x and y exchanged. -/
def transposeBox (b : Box) : Box :=
  ⟨⟨b.smallend.y, b.smallend.x⟩, ⟨b.bigend.y, b.bigend.x⟩⟩

/-- The boundary record with the policies of directions `0` and `1` exchanged. -/
def transposeBC (bc : BCRec) : BCRec :=
  ⟨fun d => bc.lo (1 - d), fun d => bc.hi (1 - d)⟩

/-- The geometry with the roles of x and y exchanged. -/
def transposeGeom (g : Geometry) : Geometry where
  Domain := transposeBox g.Domain
  CellSize := fun d => g.CellSize (1 - d)
  isPeriodic := fun d => g.isPeriodic (1 - d)

/-- The cell field `f'(i,j,k,n) = f(j,i,k,σ n)`; `σ` relabels the components. -/
def transposeArr (σ : Int → Int) (f : Array4 ℚ) : Array4 ℚ :=
  fun i j k n => f j i k (σ n)

/-- The single-component field `f'(i,j,k,n) = f(j,i,k,n)` (face velocity, `divu`). -/
def transposeVel (f : Array4 ℚ) : Array4 ℚ :=
  fun i j k n => f j i k n

/-- The transposed problem: box and domain bounds transposed, `q`, `divu`, `fq`
transposed, `umac` and `vmac` exchanged and transposed, cell sizes and boundary
policies of the two directions exchanged, components relabelled by `σ`. -/
def transposeInputs (σ : Int → Int) (a : Inputs) : Inputs where
  bx := transposeBox a.bx
  ncomp := a.ncomp
  q := transposeArr σ a.q
  umac := transposeVel a.vmac
  vmac := transposeVel a.umac
  divu := transposeVel a.divu
  fq := a.fq.map (transposeArr σ)
  geom := transposeGeom a.geom
  l_dt := a.l_dt
  pbc := fun n => transposeBC (a.pbc (σ n))
  iconserv := fun n => a.iconserv (σ n)
  use_ppm := a.use_ppm
  use_forces_in_trans := a.use_forces_in_trans
  is_velocity := a.is_velocity

/-- The primitives `P'` of the transposed problem are the transposes of the
primitives `P`: each x-direction function of `P'` on transposed data returns what
the y-direction function of `P` returns on the original data at the transposed
index and relabelled component, and conversely. -/
structure Transposed (σ : Int → Int) (P P' : Primitives) : Prop where
  small_vel : P'.small_vel = P.small_vel
  ppm_x : ∀ i j k n dt d q u bc lo hi,
    P'.PPM_PredictStateOnXFace i j k n dt d (transposeArr σ q) (transposeVel u)
      (transposeBC bc) lo hi = P.PPM_PredictStateOnYFace j i k (σ n) dt d q u bc lo hi
  ppm_y : ∀ i j k n dt d q u bc lo hi,
    P'.PPM_PredictStateOnYFace i j k n dt d (transposeArr σ q) (transposeVel u)
      (transposeBC bc) lo hi = P.PPM_PredictStateOnXFace j i k (σ n) dt d q u bc lo hi
  plm_x : ∀ i j k n dt d q u bc lo hi v,
    P'.PLM_PredictStateOnXFace i j k n dt d (transposeArr σ q) u (transposeBC bc) lo hi v =
      P.PLM_PredictStateOnYFace j i k (σ n) dt d q u bc lo hi v
  plm_y : ∀ i j k n dt d q u bc lo hi v,
    P'.PLM_PredictStateOnYFace i j k n dt d (transposeArr σ q) u (transposeBC bc) lo hi v =
      P.PLM_PredictStateOnXFace j i k (σ n) dt d q u bc lo hi v
  trans_x : ∀ i j k n q lo hi bl bh dl dh v,
    P'.SetTransTermXBCs i j k n (transposeArr σ q) lo hi bl bh dl dh v =
      P.SetTransTermYBCs j i k (σ n) q lo hi bl bh dl dh v
  trans_y : ∀ i j k n q lo hi bl bh dl dh v,
    P'.SetTransTermYBCs i j k n (transposeArr σ q) lo hi bl bh dl dh v =
      P.SetTransTermXBCs j i k (σ n) q lo hi bl bh dl dh v
  edge_x : ∀ i j k n q lo hi bl dl bh dh v,
    P'.SetXEdgeBCs i j k n (transposeArr σ q) lo hi bl dl bh dh v =
      P.SetYEdgeBCs j i k (σ n) q lo hi bl dl bh dh v
  edge_y : ∀ i j k n q lo hi bl dl bh dh v,
    P'.SetYEdgeBCs i j k n (transposeArr σ q) lo hi bl dl bh dh v =
      P.SetXEdgeBCs j i k (σ n) q lo hi bl dl bh dh v

end Godunov

namespace Redistribution

/-- The caller's arrays as they stand when control leaves `Redistribution::Apply`:
the returned arrays, or, when the call stops at `amrex::Error` (line 227), the
arrays after the only statement that has run, the zero-fill of `dUdt_out` of
lines 44-48. -/
def ApplyArrays (K : Kernels) (a : Inputs) (l : Locals) (s : State) : State :=
  match Apply K a l s with
  | .ok r => r
  | .error _ =>
    { dUdt_out := ParallelFor a.bx a.ncomp (fun _ _ _ _ => (0 : ℚ)) s.dUdt_out
      dUdt_in := s.dUdt_in
      scratch := s.scratch }


end Redistribution

/-- The value `Box::numPts()` in two dimensions: the product of the side lengths. -/
def Box.numPts (b : Box) : Int :=
  (b.bigend.x - b.smallend.x + 1) * (b.bigend.y - b.smallend.y + 1)

namespace Godunov

/-- The value `Array4::size()` of an array made by `makeArray4(p, box, ncomp)`. -/
def arraySize (box : Box) (ncomp : Int) : Int := box.numPts * ncomp

/-- Number of elements of `tmpfab` (line 38):
`FArrayBox tmpfab(grow(bx,1), (4*AMREX_SPACEDIM + 2)*ncomp)` with `AMREX_SPACEDIM = 2`. -/
def tmpfabSize (a : Inputs) : Int := (a.bx.grow 1).numPts * ((4 * 2 + 2) * a.ncomp)

/-- Boxes of the ten arrays `Imx, Ipx, Imy, Ipy, xlo, xhi, ylo, yhi, xyzlo, xyzhi`
in the order lines 55-74 carve them out of `tmpfab`. -/
def carvedBoxes (a : Inputs) : List Box :=
  [bxg1 a, bxg1 a, bxg1 a, bxg1 a, xebox a, xebox a, yebox a, yebox a, bxg1 a, bxg1 a]

/-- Size of the `m`-th carved array (`0` past the tenth). -/
def carvedSize (a : Inputs) (m : Nat) : Int :=
  ((carvedBoxes a).map (fun b => arraySize b a.ncomp)).getD m 0

/-- The offset `p - tmpfab.dataPtr()` at which the `m`-th array starts: each
`p += size()` of lines 56-74 adds the size of the array carved just before. -/
def carvedOffset (a : Inputs) (m : Nat) : Int :=
  (((carvedBoxes a).take m).map (fun b => arraySize b a.ncomp)).sum


/-- Content of a scratch array under checked access: `none` marks an element that no
stage has written. -/
abbrev Checked : Type := Array4 (Option ℚ)

/-- A scratch array right after `makeArray4`: nothing has been written. -/
def unwritten : Checked := fun _ _ _ _ => none

/-- The read `arr(i,j,k,n)` of an array made by `makeArray4(p, box, ncomp)`: `none`
outside `box`, outside `0 ≤ n < ncomp`, and where nothing has been written. -/
def readAt (box : Box) (ncomp : Int) (arr : Checked) (i j k n : Int) : Option ℚ :=
  if box.contains i j k ∧ 0 ≤ n ∧ n < ncomp then arr i j k n else none

/-- The array `Imx` after the reconstruction stage (lines 77-105), checked;
`Box(Imx) = bxg1`. -/
def ImxC (P : Primitives) (a : Inputs) : Checked :=
  if a.use_ppm then
    ParallelFor (bxg1 a) a.ncomp (fun i j k n =>
      some (P.PPM_PredictStateOnXFace i j k n a.l_dt (dx a) a.q a.umac (a.pbc n)
        (dlo a).x (dhi a).x).1) unwritten
  else
    ParallelFor (xebox a) a.ncomp (fun i j k n =>
      some (P.PLM_PredictStateOnXFace i j k n a.l_dt (dx a) a.q (a.umac i j k 0) (a.pbc n)
        (dlo a).x (dhi a).x a.is_velocity).1) unwritten

/-- The array `Ipx` after the reconstruction stage, checked; the linear branch writes
`Ipx(i-1,j,k,n)` from the face `(i,j,k)` of `xebox`. -/
def IpxC (P : Primitives) (a : Inputs) : Checked :=
  if a.use_ppm then
    ParallelFor (bxg1 a) a.ncomp (fun i j k n =>
      some (P.PPM_PredictStateOnXFace i j k n a.l_dt (dx a) a.q a.umac (a.pbc n)
        (dlo a).x (dhi a).x).2) unwritten
  else
    fun i j k n =>
      if (xebox a).contains (i + 1) j k ∧ 0 ≤ n ∧ n < a.ncomp then
        some (P.PLM_PredictStateOnXFace (i + 1) j k n a.l_dt (dx a) a.q (a.umac (i + 1) j k 0)
          (a.pbc n) (dlo a).x (dhi a).x a.is_velocity).2
      else none

/-- The array `Imy` after the reconstruction stage, checked. -/
def ImyC (P : Primitives) (a : Inputs) : Checked :=
  if a.use_ppm then
    ParallelFor (bxg1 a) a.ncomp (fun i j k n =>
      some (P.PPM_PredictStateOnYFace i j k n a.l_dt (dy a) a.q a.vmac (a.pbc n)
        (dlo a).y (dhi a).y).1) unwritten
  else
    ParallelFor (yebox a) a.ncomp (fun i j k n =>
      some (P.PLM_PredictStateOnYFace i j k n a.l_dt (dy a) a.q (a.vmac i j k 0) (a.pbc n)
        (dlo a).y (dhi a).y a.is_velocity).1) unwritten

/-- The array `Ipy` after the reconstruction stage, checked; the linear branch writes
`Ipy(i,j-1,k,n)` from the face `(i,j,k)` of `yebox`. -/
def IpyC (P : Primitives) (a : Inputs) : Checked :=
  if a.use_ppm then
    ParallelFor (bxg1 a) a.ncomp (fun i j k n =>
      some (P.PPM_PredictStateOnYFace i j k n a.l_dt (dy a) a.q a.vmac (a.pbc n)
        (dlo a).y (dhi a).y).2) unwritten
  else
    fun i j k n =>
      if (yebox a).contains i (j + 1) k ∧ 0 ≤ n ∧ n < a.ncomp then
        some (P.PLM_PredictStateOnYFace i (j + 1) k n a.l_dt (dy a) a.q (a.vmac i (j + 1) k 0)
          (a.pbc n) (dlo a).y (dhi a).y a.is_velocity).2
      else none

/-- The pair `(lo, hi)` of lines 110-125 from the two values read at lines 110-111. -/
def xTransOf (P : Primitives) (a : Inputs) (lo hi : ℚ) (i j k n : Int) : ℚ × ℚ :=
  let lohi : ℚ × ℚ :=
    match a.fq with
    | some fq =>
      if a.use_forces_in_trans then
        (lo + 0.5 * a.l_dt * fq (i - 1) j k n, hi + 0.5 * a.l_dt * fq i j k n)
      else (lo, hi)
    | none => (lo, hi)
  P.SetTransTermXBCs i j k n a.q lohi.1 lohi.2 ((a.pbc n).lo 0) ((a.pbc n).hi 0)
    (dlo a).x (dhi a).x a.is_velocity

/-- The pair `(lo, hi)` of lines 133-148 from the two values read at lines 133-134. -/
def yTransOf (P : Primitives) (a : Inputs) (lo hi : ℚ) (i j k n : Int) : ℚ × ℚ :=
  let lohi : ℚ × ℚ :=
    match a.fq with
    | some fq =>
      if a.use_forces_in_trans then
        (lo + 0.5 * a.l_dt * fq i (j - 1) k n, hi + 0.5 * a.l_dt * fq i j k n)
      else (lo, hi)
    | none => (lo, hi)
  P.SetTransTermYBCs i j k n a.q lohi.1 lohi.2 ((a.pbc n).lo 1) ((a.pbc n).hi 1)
    (dlo a).y (dhi a).y a.is_velocity

/-- The x transverse pass at a face, with the reads `Ipx(i-1,j,k,n)` and
`Imx(i,j,k,n)` checked. -/
def xTransC (P : Primitives) (a : Inputs) (i j k n : Int) : Option (ℚ × ℚ) :=
  (readAt (bxg1 a) a.ncomp (IpxC P a) (i - 1) j k n).bind fun lo =>
  (readAt (bxg1 a) a.ncomp (ImxC P a) i j k n).bind fun hi =>
  some (xTransOf P a lo hi i j k n)

/-- The y transverse pass at a face, with the reads `Ipy(i,j-1,k,n)` and
`Imy(i,j,k,n)` checked. -/
def yTransC (P : Primitives) (a : Inputs) (i j k n : Int) : Option (ℚ × ℚ) :=
  (readAt (bxg1 a) a.ncomp (IpyC P a) i (j - 1) k n).bind fun lo =>
  (readAt (bxg1 a) a.ncomp (ImyC P a) i j k n).bind fun hi =>
  some (yTransOf P a lo hi i j k n)

/-- The array `xlo` after the transverse pass, checked; `Box(xlo) = xebox`. -/
def xloC (P : Primitives) (a : Inputs) : Checked :=
  ParallelFor (xebox a) a.ncomp (fun i j k n => (xTransC P a i j k n).map Prod.fst) unwritten

/-- The array `xhi` after the transverse pass, checked; `Box(xhi) = xebox`. -/
def xhiC (P : Primitives) (a : Inputs) : Checked :=
  ParallelFor (xebox a) a.ncomp (fun i j k n => (xTransC P a i j k n).map Prod.snd) unwritten

/-- The array `ylo` after the transverse pass, checked; `Box(ylo) = yebox`. -/
def yloC (P : Primitives) (a : Inputs) : Checked :=
  ParallelFor (yebox a) a.ncomp (fun i j k n => (yTransC P a i j k n).map Prod.fst) unwritten

/-- The array `yhi` after the transverse pass, checked; `Box(yhi) = yebox`. -/
def yhiC (P : Primitives) (a : Inputs) : Checked :=
  ParallelFor (yebox a) a.ncomp (fun i j k n => (yTransC P a i j k n).map Prod.snd) unwritten

/-- The array `yzlo` after the loop of lines 164-179, with the reads of `ylo` and
`yhi` checked. -/
def yzloC (P : Primitives) (a : Inputs) : Checked :=
  ParallelFor (yzloBox a) a.ncomp (fun i j k n =>
    (readAt (yebox a) a.ncomp (yloC P a) i j k n).bind fun lo =>
    (readAt (yebox a) a.ncomp (yhiC P a) i j k n).bind fun hi =>
    let l := P.SetTransTermYBCs i j k n a.q lo hi
      ((a.pbc n).lo 1) ((a.pbc n).hi 1) (dlo a).y (dhi a).y a.is_velocity
    some (transUpwind P.small_vel (a.vmac i j k 0) l.1 l.2)) unwritten

/-- The array `xzlo` after the loop of lines 235-251, with the reads of `xlo` and
`xhi` checked. -/
def xzloC (P : Primitives) (a : Inputs) : Checked :=
  ParallelFor (xzloBox a) a.ncomp (fun i j k n =>
    (readAt (xebox a) a.ncomp (xloC P a) i j k n).bind fun lo =>
    (readAt (xebox a) a.ncomp (xhiC P a) i j k n).bind fun hi =>
    let l := P.SetTransTermXBCs i j k n a.q lo hi
      ((a.pbc n).lo 0) ((a.pbc n).hi 0) (dlo a).x (dhi a).x a.is_velocity
    some (transUpwind P.small_vel (a.umac i j k 0) l.1 l.2)) unwritten


/-- The pair `(stl, sth)` of lines 191-209 from the values read: `xl`, `xh` are
`xlo`, `xhi` at `(i,j)` and `zl1`, `zl0`, `zh1`, `zh0` are `yzlo` at `(i-1,j+1)`,
`(i-1,j)`, `(i,j+1)`, `(i,j)`. -/
def xPreOf (a : Inputs) (xl xh zl1 zl0 zh1 zh0 : ℚ) (i j k n : Int) : ℚ × ℚ :=
  let stl := xl
    - (0.5 * dtdy a) * (zl1 * a.vmac (i - 1) (j + 1) k 0 - zl0 * a.vmac (i - 1) j k 0)
    + (0.5 * dtdy a) * a.q (i - 1) j k n * (a.vmac (i - 1) (j + 1) k 0 - a.vmac (i - 1) j k 0)
  let sth := xh
    - (0.5 * dtdy a) * (zh1 * a.vmac i (j + 1) k 0 - zh0 * a.vmac i j k 0)
    + (0.5 * dtdy a) * a.q i j k n * (a.vmac i (j + 1) k 0 - a.vmac i j k 0)
  let stl := stl + (if a.iconserv n ≠ 0 then -0.5 * a.l_dt * a.q (i - 1) j k n * a.divu (i - 1) j k 0
    else 0)
  let sth := sth + (if a.iconserv n ≠ 0 then -0.5 * a.l_dt * a.q i j k n * a.divu i j k 0
    else 0)
  match a.fq with
  | some fq =>
    if ¬ a.use_forces_in_trans then
      (stl + 0.5 * a.l_dt * fq (i - 1) j k n, sth + 0.5 * a.l_dt * fq i j k n)
    else (stl, sth)
  | none => (stl, sth)

/-- The pair `(stl, sth)` of lines 263-281 from the values read: `yl`, `yh` are
`ylo`, `yhi` at `(i,j)` and `zl1`, `zl0`, `zh1`, `zh0` are `xzlo` at `(i+1,j-1)`,
`(i,j-1)`, `(i+1,j)`, `(i,j)`. -/
def yPreOf (a : Inputs) (yl yh zl1 zl0 zh1 zh0 : ℚ) (i j k n : Int) : ℚ × ℚ :=
  let stl := yl
    - (0.5 * dtdx a) * (zl1 * a.umac (i + 1) (j - 1) k 0 - zl0 * a.umac i (j - 1) k 0)
    + (0.5 * dtdx a) * a.q i (j - 1) k n * (a.umac (i + 1) (j - 1) k 0 - a.umac i (j - 1) k 0)
  let sth := yh
    - (0.5 * dtdx a) * (zh1 * a.umac (i + 1) j k 0 - zh0 * a.umac i j k 0)
    + (0.5 * dtdx a) * a.q i j k n * (a.umac (i + 1) j k 0 - a.umac i j k 0)
  let stl := stl + (if a.iconserv n ≠ 0 then -0.5 * a.l_dt * a.q i (j - 1) k n * a.divu i (j - 1) k 0
    else 0)
  let sth := sth + (if a.iconserv n ≠ 0 then -0.5 * a.l_dt * a.q i j k n * a.divu i j k 0
    else 0)
  match a.fq with
  | some fq =>
    if ¬ a.use_forces_in_trans then
      (stl + 0.5 * a.l_dt * fq i (j - 1) k n, sth + 0.5 * a.l_dt * fq i j k n)
    else (stl, sth)
  | none => (stl, sth)

/-- The states of an x-face before `SetXEdgeBCs`, with the six reads of `xlo`, `xhi`
and `yzlo` checked. -/
def xPreC (P : Primitives) (a : Inputs) (i j k n : Int) : Option (ℚ × ℚ) :=
  (readAt (xebox a) a.ncomp (xloC P a) i j k n).bind fun xl =>
  (readAt (xebox a) a.ncomp (xhiC P a) i j k n).bind fun xh =>
  (readAt (yzloBox a) a.ncomp (yzloC P a) (i - 1) (j + 1) k n).bind fun zl1 =>
  (readAt (yzloBox a) a.ncomp (yzloC P a) (i - 1) j k n).bind fun zl0 =>
  (readAt (yzloBox a) a.ncomp (yzloC P a) i (j + 1) k n).bind fun zh1 =>
  (readAt (yzloBox a) a.ncomp (yzloC P a) i j k n).bind fun zh0 =>
  some (xPreOf a xl xh zl1 zl0 zh1 zh0 i j k n)

/-- The states of a y-face before `SetYEdgeBCs`, with the six reads of `ylo`, `yhi`
and `xzlo` checked. -/
def yPreC (P : Primitives) (a : Inputs) (i j k n : Int) : Option (ℚ × ℚ) :=
  (readAt (yebox a) a.ncomp (yloC P a) i j k n).bind fun yl =>
  (readAt (yebox a) a.ncomp (yhiC P a) i j k n).bind fun yh =>
  (readAt (xzloBox a) a.ncomp (xzloC P a) (i + 1) (j - 1) k n).bind fun zl1 =>
  (readAt (xzloBox a) a.ncomp (xzloC P a) i (j - 1) k n).bind fun zl0 =>
  (readAt (xzloBox a) a.ncomp (xzloC P a) (i + 1) j k n).bind fun zh1 =>
  (readAt (xzloBox a) a.ncomp (xzloC P a) i j k n).bind fun zh0 =>
  some (yPreOf a yl yh zl1 zl0 zh1 zh0 i j k n)

/-- The value stored to `xedge(i,j,k,n)` (lines 211-227) from the states before
`SetXEdgeBCs`. -/
def xEdgeOf (P : Primitives) (a : Inputs) (st : ℚ × ℚ) (i j k n : Int) : ℚ :=
  let f := extrapBlocks
    (decide (i = (dlo a).x ∧
      ((a.pbc n).lo 0 = BCType.foextrap ∨ (a.pbc n).lo 0 = BCType.hoextrap)))
    (decide (i = (dhi a).x + 1 ∧
      ((a.pbc n).hi 0 = BCType.foextrap ∨ (a.pbc n).hi 0 = BCType.hoextrap)))
    (decide (n = P.XVEL) && a.is_velocity)
    (a.umac i j k 0)
    (P.SetXEdgeBCs i j k n a.q st.1 st.2 ((a.pbc n).lo 0) (dlo a).x ((a.pbc n).hi 0) (dhi a).x
      a.is_velocity)
  edgeUpwind P.small_vel (a.umac i j k 0) f.1 f.2

/-- The value stored to `yedge(i,j,k,n)` (lines 283-299) from the states before
`SetYEdgeBCs`. -/
def yEdgeOf (P : Primitives) (a : Inputs) (st : ℚ × ℚ) (i j k n : Int) : ℚ :=
  let f := extrapBlocks
    (decide (j = (dlo a).y ∧
      ((a.pbc n).lo 1 = BCType.foextrap ∨ (a.pbc n).lo 1 = BCType.hoextrap)))
    (decide (j = (dhi a).y + 1 ∧
      ((a.pbc n).hi 1 = BCType.foextrap ∨ (a.pbc n).hi 1 = BCType.hoextrap)))
    (decide (n = P.YVEL) && a.is_velocity)
    (a.vmac i j k 0)
    (P.SetYEdgeBCs i j k n a.q st.1 st.2 ((a.pbc n).lo 1) (dlo a).y ((a.pbc n).hi 1) (dhi a).y
      a.is_velocity)
  edgeUpwind P.small_vel (a.vmac i j k 0) f.1 f.2

/-- What `Godunov::ComputeEdgeState` stores to `xedge` on `xbx` when every read of a
scratch array is checked: `none` if a read failed. -/
def xedgeC (P : Primitives) (a : Inputs) : Checked :=
  ParallelFor (xbx a) a.ncomp
    (fun i j k n => (xPreC P a i j k n).map fun st => xEdgeOf P a st i j k n) unwritten

/-- What `Godunov::ComputeEdgeState` stores to `yedge` on `ybx` when every read of a
scratch array is checked: `none` if a read failed. -/
def yedgeC (P : Primitives) (a : Inputs) : Checked :=
  ParallelFor (ybx a) a.ncomp
    (fun i j k n => (yPreC P a i j k n).map fun st => yEdgeOf P a st i j k n) unwritten

end Godunov

/-! ## Concrete inputs used to exercise the driver -/

namespace Redistribution

/-- Kernels that ignore their inputs: empty tracker, unit counts, state `5`. -/
def demoKernels : Kernels where
  apply_flux_redistribution := fun _ _ dUdt_in scratch _ _ _ _ _ => (dUdt_in, scratch)
  MakeITracker := fun _ _ _ _ _ _ _ => fun _ _ _ _ => 0
  MakeStateRedistUtils := fun _ _ _ _ _ _ nbhd_vol cent_hat _ =>
    (fun _ _ _ _ => 1, nbhd_vol, cent_hat)
  StateRedistribute := fun _ _ _ _ _ _ _ _ _ _ _ _ _ _ _ => fun _ _ _ _ => 5
  MakeNewStateRedistUtils := fun _ _ _ _ _ _ alpha nbhd_vol cent_hat _ _ =>
    (fun _ _ _ _ => 1, alpha, nbhd_vol, cent_hat)
  NewStateRedistribute := fun _ _ _ _ _ _ _ _ _ _ _ _ _ _ _ _ => fun _ _ _ _ => 5

/-- A non-periodic geometry on the domain `[0,3] x [0,3]` with unit cells. -/
def demoGeom : Geometry where
  Domain := ⟨⟨0, 0⟩, ⟨3, 3⟩⟩
  CellSize := fun _ => 1
  isPeriodic := fun _ => false

/-- Inputs on the box `[1,2] x [1,2]` with one component, `U_in = 3`, `dt = 2`. -/
def demoInputs (redistribution_type : String) : Inputs where
  bx := ⟨⟨1, 1⟩, ⟨2, 2⟩⟩
  ncomp := 1
  U_in := fun _ _ _ _ => 3
  scratch_box := ⟨⟨-1, -1⟩, ⟨4, 4⟩⟩
  flag := fun _ _ _ _ => ⟨0⟩
  apx := fun _ _ _ _ => 1
  apy := fun _ _ _ _ => 1
  vfrac := fun _ _ _ _ => 1
  fcx := fun _ _ _ _ => 0
  fcy := fun _ _ _ _ => 0
  ccc := fun _ _ _ _ => 0
  d_bcrec_ptr := fun _ => ⟨fun _ => BCType.int_dir, fun _ => BCType.int_dir⟩
  lev_geom := demoGeom
  dt := 2
  redistribution_type := redistribution_type
  target_volfrac := 1 / 2

/-- Local arrays holding zeros. -/
def demoLocals : Locals where
  itracker := fun _ _ _ _ => 0
  nrs_fab := fun _ _ _ _ => 0
  alpha_fab := fun _ _ _ _ => 0
  nbhd_vol_fab := fun _ _ _ _ => 0
  cent_hat_fab := fun _ _ _ _ => 0

/-- Caller arrays: `dUdt_out = 9`, `dUdt_in = 7`, `scratch = 0`. -/
def demoState : State where
  dUdt_out := fun _ _ _ _ => 9
  dUdt_in := fun _ _ _ _ => 7
  scratch := fun _ _ _ _ => 0

/-- Kernels as `demoKernels`, except that every cell has one tracked neighbour. -/
def demoKernelsTouched : Kernels :=
  { demoKernels with MakeITracker := fun _ _ _ _ _ _ _ => fun _ _ _ _ => 1 }

end Redistribution

namespace Godunov

/-- Primitives with `small_vel = 1e-8`, `XVEL = 0`, `YVEL = 1`, reconstructions
`(q - 1, q + 1)` of the donor cells and boundary functions that change nothing. -/
def demoPrimitives : Primitives where
  small_vel := 1 / 100000000
  XVEL := 0
  YVEL := 1
  PPM_PredictStateOnXFace := fun i j k n _ _ q _ _ _ _ => (q i j k n - 1, q i j k n + 1)
  PPM_PredictStateOnYFace := fun i j k n _ _ q _ _ _ _ => (q i j k n - 1, q i j k n + 1)
  PLM_PredictStateOnXFace := fun i j k n _ _ q _ _ _ _ _ => (q i j k n - 1, q (i - 1) j k n + 1)
  PLM_PredictStateOnYFace := fun i j k n _ _ q _ _ _ _ _ => (q i j k n - 1, q i (j - 1) k n + 1)
  SetTransTermXBCs := fun _ _ _ _ _ lo hi _ _ _ _ _ => (lo, hi)
  SetTransTermYBCs := fun _ _ _ _ _ lo hi _ _ _ _ _ => (lo, hi)
  SetXEdgeBCs := fun _ _ _ _ _ lo hi _ _ _ _ _ => (lo, hi)
  SetYEdgeBCs := fun _ _ _ _ _ lo hi _ _ _ _ _ => (lo, hi)

/-- Inputs on the box `[0,1] x [0,1]` of the domain `[0,1] x [0,1]`, two
components, `q(i,j,k,n) = i + 2 j + n`, uniform face velocities `u` and `v`,
unit cells and time step, boundary policy `bc` on every side. -/
def demoEdgeInputs (u v : ℚ) (bc : BCType) : Inputs where
  bx := ⟨⟨0, 0⟩, ⟨1, 1⟩⟩
  ncomp := 2
  q := fun i j _ n => (i + 2 * j + n : Int)
  umac := fun _ _ _ _ => u
  vmac := fun _ _ _ _ => v
  divu := fun _ _ _ _ => 0
  fq := none
  geom := { Domain := ⟨⟨0, 0⟩, ⟨1, 1⟩⟩, CellSize := fun _ => 1, isPeriodic := fun _ => false }
  l_dt := 1
  pbc := fun _ => ⟨fun _ => bc, fun _ => bc⟩
  iconserv := fun _ => 0
  use_ppm := true
  use_forces_in_trans := false
  is_velocity := true

/-- Scratch arrays holding zeros. -/
def demoScratch : Scratch where
  Imx := fun _ _ _ _ => 0
  Ipx := fun _ _ _ _ => 0
  Imy := fun _ _ _ _ => 0
  Ipy := fun _ _ _ _ => 0
  xlo := fun _ _ _ _ => 0
  xhi := fun _ _ _ _ => 0
  ylo := fun _ _ _ _ => 0
  yhi := fun _ _ _ _ => 0
  yzlo := fun _ _ _ _ => 0
  xzlo := fun _ _ _ _ => 0

/-- Caller edge arrays holding zeros. -/
def demoEdges : Edges where
  xedge := fun _ _ _ _ => 0
  yedge := fun _ _ _ _ => 0

end Godunov

namespace Redistribution

/-- Kernels for the row of section 8 (volume fractions `[1, 0.1, 1, 1, 1]`): the cut
cell `(1,0)` lists one neighbour with code `5`, the cell `(2,0)` lies in two
neighbourhoods, and the state kernel writes on `bx` the merged value
`hat = (vf1 S1 + vf2 S2 / 2) / (vf1 + vf2 / 2)` at cell `1`, `(hat + S2) / 2` at
cell `2` and the scratch state elsewhere. -/
def rowKernels : Kernels :=
  { demoKernels with
    MakeITracker := fun _ _ _ _ _ _ _ => fun i j k n =>
      if i = 1 ∧ j = 0 ∧ k = 0 then (if n = 0 then 1 else if n = 1 then 5 else 0) else 0
    MakeStateRedistUtils := fun _ _ _ _ _ _ nbhd_vol cent_hat _ =>
      (fun i j k _ => if i = 2 ∧ j = 0 ∧ k = 0 then 2 else 1, nbhd_vol, cent_hat)
    StateRedistribute := fun bx ncomp U_out U_in _ vfrac _ _ _ _ _ _ _ _ _ =>
      ParallelFor bx ncomp (fun i j k n =>
        if i = 1 then
          (vfrac 1 0 0 0 * U_in 1 0 0 n + vfrac 2 0 0 0 * U_in 2 0 0 n / 2) /
            (vfrac 1 0 0 0 + vfrac 2 0 0 0 / 2)
        else if i = 2 then
          ((vfrac 1 0 0 0 * U_in 1 0 0 n + vfrac 2 0 0 0 * U_in 2 0 0 n / 2) /
            (vfrac 1 0 0 0 + vfrac 2 0 0 0 / 2) + U_in 2 0 0 n) / 2
        else U_in i j k n) U_out }

/-- Offset table of the row: code `5` is the neighbour at `(+1, 0)`. -/
def rowMap (c : Int) : Int × Int := if c = 5 then (1, 0) else (0, 0)

/-- Inputs for the row of five cells `(0,0) .. (4,0)` on the box `bx`: volume
fractions `[1, 0.1, 1, 1, 1]`, `U_in(i) = i`, `dt = 2`, policy `"StateRedist"`. -/
def rowInputs (bx : Box) : Inputs :=
  { demoInputs "StateRedist" with
    bx := bx
    U_in := fun i _ _ _ => (i : ℚ)
    scratch_box := ⟨⟨-4, -4⟩, ⟨8, 4⟩⟩
    vfrac := fun i _ _ _ => if i = 1 then 1 / 10 else 1
    lev_geom :=
      { Domain := ⟨⟨0, 0⟩, ⟨4, 0⟩⟩, CellSize := fun _ => 1, isPeriodic := fun _ => false } }

/-- Caller arrays for the row: `dUdt_out = 9`, `dUdt_in(i) = 10 i + 1`, `scratch = 0`. -/
def rowState : State where
  dUdt_out := fun _ _ _ _ => 9
  dUdt_in := fun i _ _ _ => 10 * (i : ℚ) + 1
  scratch := fun _ _ _ _ => 0

end Redistribution

namespace Godunov

/-- Primitives as `demoPrimitives` with a piecewise-constant reconstruction: both
half-states of a cell are its cell value. -/
def flatPrimitives : Primitives :=
  { demoPrimitives with
    PPM_PredictStateOnXFace := fun i j k n _ _ q _ _ _ _ => (q i j k n, q i j k n)
    PPM_PredictStateOnYFace := fun i j k n _ _ q _ _ _ _ => (q i j k n, q i j k n)
    PLM_PredictStateOnXFace := fun i j k n _ _ q _ _ _ _ _ => (q i j k n, q (i - 1) j k n)
    PLM_PredictStateOnYFace := fun i j k n _ _ q _ _ _ _ _ => (q i j k n, q i (j - 1) k n) }

/-- Inputs as `demoEdgeInputs` with the constant field `q = 3`, the non-uniform,
non-solenoidal face velocities `umac = i - 2 j`, `vmac = 1 + i j`, `dt = 1/2`,
`dx = 1/3`, `dy = 1/5` and interior (`int_dir`) boundary policy. -/
def freeStreamInputs (use_ppm : Bool) : Inputs :=
  { demoEdgeInputs 0 0 BCType.int_dir with
    q := fun _ _ _ _ => 3
    umac := fun i j _ _ => (i : ℚ) - 2 * j
    vmac := fun i j _ _ => 1 + (i : ℚ) * j
    geom := { Domain := ⟨⟨0, 0⟩, ⟨1, 1⟩⟩, CellSize := fun d => if d = 0 then 1 / 3 else 1 / 5,
              isPeriodic := fun _ => false }
    l_dt := 1 / 2
    use_ppm := use_ppm }

end Godunov

namespace Redistribution

end Redistribution

/-! ## Redistribution driver: theorems -/

namespace Redistribution

/-- Value of `Apply` on the branch of line 218. -/
lemma Apply_NoRedist (K : Kernels) (a : Inputs) (l : Locals) (s : State)
    (hrt : a.redistribution_type = "NoRedist") :
    Apply K a l s = .ok
      { dUdt_out := ParallelFor a.bx a.ncomp (fun i j k n => s.dUdt_in i j k n)
          (ParallelFor a.bx a.ncomp (fun _ _ _ _ => (0 : ℚ)) s.dUdt_out)
        dUdt_in := s.dUdt_in
        scratch := s.scratch } := by
  simp [Apply, hrt]

/-- C1: with `redistribution_type = "NoRedist"` the driver returns normally and
`dUdt_out(i,j,k,n) = dUdt_in(i,j,k,n)` at every cell of `bx` and every component
`0 ≤ n < ncomp`, whatever `dUdt_out` held before; a second run with any other
kernels, geometry fields, `U_in`, scratch, local arrays and `dt` (same `bx`,
`ncomp` and `dUdt_in`) gives the same value. -/
theorem apply_noredist_passthrough (K K' : Kernels) (a a' : Inputs) (l l' : Locals)
    (s s' : State) (i j k n : Int)
    (hrt : a.redistribution_type = "NoRedist") (hrt' : a'.redistribution_type = "NoRedist")
    (hbx : a'.bx = a.bx) (hnc : a'.ncomp = a.ncomp) (hin : s'.dUdt_in = s.dUdt_in)
    (hc : a.bx.contains i j k) (hn0 : 0 ≤ n) (hn : n < a.ncomp) :
    ∃ r r', Apply K a l s = .ok r ∧ Apply K' a' l' s' = .ok r' ∧
      r.dUdt_out i j k n = s.dUdt_in i j k n ∧ r'.dUdt_out i j k n = r.dUdt_out i j k n := by
  refine ⟨_, _, Apply_NoRedist K a l s hrt, Apply_NoRedist K' a' l' s' hrt', ?_, ?_⟩
  · simp [ParallelFor, hc, hn0, hn]
  · simp [ParallelFor, hc, hn0, hn, hbx, hnc, hin]

/-- Witness for C1 on the box `[1,2] x [1,2]`, the second run with `dt = 0`,
another state and another geometry. -/
theorem apply_noredist_passthrough_witness :
    ∃ r r', Apply demoKernels (demoInputs "NoRedist") demoLocals demoState = .ok r ∧
      Apply demoKernels
        { demoInputs "NoRedist" with
          dt := 0, U_in := fun _ _ _ _ => 100, vfrac := fun _ _ _ _ => 1 / 4 }
        demoLocals { demoState with dUdt_out := fun _ _ _ _ => -1 } = .ok r' ∧
      r.dUdt_out 1 2 0 0 = 7 ∧ r'.dUdt_out 1 2 0 0 = r.dUdt_out 1 2 0 0 :=
  apply_noredist_passthrough demoKernels demoKernels (demoInputs "NoRedist")
    { demoInputs "NoRedist" with
      dt := 0, U_in := fun _ _ _ _ => 100, vfrac := fun _ _ _ _ => 1 / 4 }
    demoLocals demoLocals demoState { demoState with dUdt_out := fun _ _ _ _ => -1 }
    1 2 0 0 rfl rfl rfl rfl rfl (by decide) (by decide) (by decide)

/-- Value of `Apply` on the branch of line 55. -/
lemma Apply_StateRedist (K : Kernels) (a : Inputs) (l : Locals) (s : State)
    (hrt : a.redistribution_type = "StateRedist" ∨ a.redistribution_type = "NewStateRedist") :
    Apply K a l s = .ok
      { dUdt_out := ParallelFor a.bx a.ncomp
          (fun i j k n =>
            if tracker K a l i j k 0 > 0 ∨ nrsOf K a l i j k 0 > 1 then
              (redistributed K a l s i j k n - a.U_in i j k n) / a.dt
            else zeroFill a s.dUdt_in i j k n) (redistributed K a l s)
        dUdt_in := zeroFill a s.dUdt_in
        scratch := provisional a s.dUdt_in s.scratch } := by
  rcases hrt with hrt | hrt <;> simp [Apply, hrt]

/-- Inside `domain_per_grown` the ghost-cell loop leaves `dUdt_in` alone. -/
lemma zeroFill_inside (a : Inputs) (d : Array4 ℚ) (i j k n : Int)
    (h : (domain_per_grown a.lev_geom).contains i j k) : zeroFill a d i j k n = d i j k n := by
  unfold zeroFill ParallelFor
  by_cases hb : (domain_per_grown a.lev_geom).containsBox (a.bx.grow 1) <;> simp [hb, h]

/-- A cell of `bx` outside `domain_per_grown` is zeroed by the ghost-cell loop. -/
lemma zeroFill_outside (a : Inputs) (d : Array4 ℚ) (i j k n : Int)
    (hc : a.bx.contains i j k) (hn0 : 0 ≤ n) (hn : n < a.ncomp)
    (h : ¬ (domain_per_grown a.lev_geom).contains i j k) : zeroFill a d i j k n = 0 := by
  have hg : (a.bx.grow 1).contains i j k := by
    simp only [Box.contains, Box.grow] at hc ⊢
    omega
  have hnb : ¬ (domain_per_grown a.lev_geom).containsBox (a.bx.grow 1) := by
    intro hb
    apply h
    simp only [Box.contains, Box.containsBox] at hb hg ⊢
    omega
  simp [zeroFill, ParallelFor, hnb, hg, hn0, hn, h]

/-- C2 (as stated, refuted): on the box `[3,4] x [1,2]` of the domain `[0,3] x [0,3]`
the cell `(4,1)` is untouched (tracker count `0`, `nrs = 1`), the caller passed
`dUdt_in(4,1,0,0) = 7`, and `Apply` with policy `"StateRedist"` returns
`dUdt_out(4,1,0,0) = 0`: the cell lies outside the domain, so the ghost-cell
loop zeroed `dUdt_in` there before it was copied. -/
theorem apply_untouched_counterexample :
    ({ demoInputs "StateRedist" with bx := ⟨⟨3, 1⟩, ⟨4, 2⟩⟩ } : Inputs).bx.contains 4 1 0 ∧
    ¬ (tracker demoKernels { demoInputs "StateRedist" with bx := ⟨⟨3, 1⟩, ⟨4, 2⟩⟩ }
          demoLocals 4 1 0 0 > 0 ∨
        nrsOf demoKernels { demoInputs "StateRedist" with bx := ⟨⟨3, 1⟩, ⟨4, 2⟩⟩ }
          demoLocals 4 1 0 0 > 1) ∧
    demoState.dUdt_in 4 1 0 0 = 7 ∧
    ∃ r, Apply demoKernels { demoInputs "StateRedist" with bx := ⟨⟨3, 1⟩, ⟨4, 2⟩⟩ }
        demoLocals demoState = .ok r ∧ r.dUdt_out 4 1 0 0 = 0 ∧
      r.dUdt_out 4 1 0 0 ≠ demoState.dUdt_in 4 1 0 0 := by
  refine ⟨by decide, ?_, rfl, _, Apply_StateRedist _ _ _ _ (Or.inl rfl), ?_, ?_⟩
  · simp [tracker, nrsOf, demoKernels, demoInputs]
  · simp [ParallelFor, zeroFill, domain_per_grown, tracker, nrsOf, demoKernels, demoInputs,
      demoGeom, demoState, Box.contains, Box.containsBox, Box.grow]
  · simp [ParallelFor, zeroFill, domain_per_grown, tracker, nrsOf, demoKernels, demoInputs,
      demoGeom, demoState, Box.contains, Box.containsBox, Box.grow]

/-- C2 (amended): with policy `"StateRedist"` or `"NewStateRedist"`, at an untouched
cell of `bx` (neither `itracker(i,j,k,0) > 0` nor `nrs(i,j,k) > 1`) and a component
`0 ≤ n < ncomp`, the driver returns normally and `dUdt_out(i,j,k,n)` is `dUdt_in(i,j,k,n)`
as it stands after the ghost-cell zero-fill: the value the caller passed when the
cell lies in the domain grown by one cell in the periodic directions, and `0` when it
does not. The same holds when `dt`, `U_in` and the two redistribution kernels are
replaced by any others (`dt = 0` included). -/
theorem apply_untouched_passthrough (K : Kernels) (a : Inputs) (l : Locals) (s : State)
    (i j k n : Int)
    (hrt : a.redistribution_type = "StateRedist" ∨ a.redistribution_type = "NewStateRedist")
    (hc : a.bx.contains i j k) (hn0 : 0 ≤ n) (hn : n < a.ncomp)
    (hu : ¬ (tracker K a l i j k 0 > 0 ∨ nrsOf K a l i j k 0 > 1))
    (dt' : ℚ) (U_in' : Array4 ℚ)
    (SR : Box → Int → Array4 ℚ → Array4 ℚ → Array4 EBCellFlag → Array4 ℚ →
      Array4 ℚ → Array4 ℚ → Array4 ℚ → (Int → BCRec) → Array4 Int → Array4 ℚ → Array4 ℚ →
      Array4 ℚ → Geometry → Array4 ℚ)
    (NSR : Box → Int → Array4 ℚ → Array4 ℚ → Array4 EBCellFlag → Array4 ℚ →
      Array4 ℚ → Array4 ℚ → Array4 ℚ → (Int → BCRec) → Array4 Int → Array4 ℚ → Array4 ℚ →
      Array4 ℚ → Array4 ℚ → Geometry → Array4 ℚ) :
    ∃ r, Apply { K with StateRedistribute := SR, NewStateRedistribute := NSR }
        { a with dt := dt', U_in := U_in' } l s = .ok r ∧
      r.dUdt_out i j k n = zeroFill a s.dUdt_in i j k n ∧
      ((domain_per_grown a.lev_geom).contains i j k →
        r.dUdt_out i j k n = s.dUdt_in i j k n) ∧
      (¬ (domain_per_grown a.lev_geom).contains i j k → r.dUdt_out i j k n = 0) := by
  have key : (ParallelFor a.bx a.ncomp
      (fun i j k n =>
        if tracker K a l i j k 0 > 0 ∨ nrsOf K a l i j k 0 > 1 then
          (redistributed { K with StateRedistribute := SR, NewStateRedistribute := NSR }
            { a with dt := dt', U_in := U_in' } l s i j k n - U_in' i j k n) / dt'
        else zeroFill a s.dUdt_in i j k n)
      (redistributed { K with StateRedistribute := SR, NewStateRedistribute := NSR }
        { a with dt := dt', U_in := U_in' } l s)) i j k n = zeroFill a s.dUdt_in i j k n := by
    simp only [ParallelFor]
    rw [if_pos ⟨hc, hn0, hn⟩, if_neg hu]
  refine ⟨_, Apply_StateRedist _ _ l s hrt, key, ?_, ?_⟩
  · intro hd
    exact key.trans (zeroFill_inside a s.dUdt_in i j k n hd)
  · intro hd
    exact key.trans (zeroFill_outside a s.dUdt_in i j k n hc hn0 hn hd)

/-- Witness for C2 (amended) at the interior cell `(1,2)`, with `dt = 0` in the run. -/
theorem apply_untouched_passthrough_witness :
    ∃ r, Apply { demoKernels with
          StateRedistribute := fun _ _ _ _ _ _ _ _ _ _ _ _ _ _ _ => fun _ _ _ _ => 11,
          NewStateRedistribute := demoKernels.NewStateRedistribute }
        { demoInputs "StateRedist" with dt := 0, U_in := fun _ _ _ _ => 4 }
        demoLocals demoState = .ok r ∧
      r.dUdt_out 1 2 0 0 = zeroFill (demoInputs "StateRedist") demoState.dUdt_in 1 2 0 0 ∧
      ((domain_per_grown (demoInputs "StateRedist").lev_geom).contains 1 2 0 →
        r.dUdt_out 1 2 0 0 = demoState.dUdt_in 1 2 0 0) ∧
      (¬ (domain_per_grown (demoInputs "StateRedist").lev_geom).contains 1 2 0 →
        r.dUdt_out 1 2 0 0 = 0) :=
  apply_untouched_passthrough demoKernels (demoInputs "StateRedist") demoLocals demoState
    1 2 0 0 (Or.inl rfl) (by decide) (by decide) (by decide)
    (by simp [tracker, nrsOf, demoKernels, demoInputs]) 0 (fun _ _ _ _ => 4)
    (fun _ _ _ _ _ _ _ _ _ _ _ _ _ _ _ => fun _ _ _ _ => 11) demoKernels.NewStateRedistribute

/-- C3: with policy `"StateRedist"` or `"NewStateRedist"` and `dt ≠ 0`, at a touched
cell of `bx` (`itracker(i,j,k,0) > 0` or `nrs(i,j,k) > 1`) and a component
`0 ≤ n < ncomp`, the driver returns normally and
`dUdt_out(i,j,k,n) = (R(i,j,k,n) - U_in(i,j,k,n)) / dt`, where `R` is what the
redistribution kernel of the policy wrote from the scratch state; equivalently
`U_in + dt * dUdt_out = R`. -/
theorem apply_touched_rate (K : Kernels) (a : Inputs) (l : Locals) (s : State)
    (i j k n : Int)
    (hrt : a.redistribution_type = "StateRedist" ∨ a.redistribution_type = "NewStateRedist")
    (hdt : a.dt ≠ 0)
    (hc : a.bx.contains i j k) (hn0 : 0 ≤ n) (hn : n < a.ncomp)
    (ht : tracker K a l i j k 0 > 0 ∨ nrsOf K a l i j k 0 > 1) :
    ∃ r, Apply K a l s = .ok r ∧
      r.dUdt_out i j k n = (redistributed K a l s i j k n - a.U_in i j k n) / a.dt ∧
      a.U_in i j k n + a.dt * r.dUdt_out i j k n = redistributed K a l s i j k n := by
  have key : (ParallelFor a.bx a.ncomp
      (fun i j k n =>
        if tracker K a l i j k 0 > 0 ∨ nrsOf K a l i j k 0 > 1 then
          (redistributed K a l s i j k n - a.U_in i j k n) / a.dt
        else zeroFill a s.dUdt_in i j k n)
      (redistributed K a l s)) i j k n
        = (redistributed K a l s i j k n - a.U_in i j k n) / a.dt := by
    simp only [ParallelFor]
    rw [if_pos ⟨hc, hn0, hn⟩, if_pos ht]
  refine ⟨_, Apply_StateRedist K a l s hrt, key, ?_⟩
  dsimp only
  rw [key]
  field_simp

/-- Witness for C3: tracker count `1`, kernel value `5`, `U_in = 3`, `dt = 2`. -/
theorem apply_touched_rate_witness :
    ∃ r, Apply demoKernelsTouched (demoInputs "NewStateRedist") demoLocals demoState = .ok r ∧
      r.dUdt_out 2 1 0 0 =
        (redistributed demoKernelsTouched (demoInputs "NewStateRedist") demoLocals demoState
          2 1 0 0 - (demoInputs "NewStateRedist").U_in 2 1 0 0) /
          (demoInputs "NewStateRedist").dt ∧
      (demoInputs "NewStateRedist").U_in 2 1 0 0 +
          (demoInputs "NewStateRedist").dt * r.dUdt_out 2 1 0 0 =
        redistributed demoKernelsTouched (demoInputs "NewStateRedist") demoLocals demoState
          2 1 0 0 :=
  apply_touched_rate demoKernelsTouched (demoInputs "NewStateRedist") demoLocals demoState
    2 1 0 0 (Or.inr rfl) (by simp [demoInputs]) (by decide) (by decide) (by decide)
    (by simp [tracker, demoKernelsTouched, demoKernels])

/-- C5: the driver ends in the fatal error `"Not a legit redist_type"` exactly when
`redistribution_type` is none of `"NoRedist"`, `"FluxRedist"`, `"StateRedist"`,
`"NewStateRedist"`; for each of these four it returns normally; and for any other
string the outcome is the same error whatever kernels and local arrays are
supplied, so none of them is consulted. -/
theorem apply_error_iff_unknown_policy (K : Kernels) (a : Inputs) (l : Locals) (s : State) :
    (Apply K a l s = .error "Not a legit redist_type" ↔
      (a.redistribution_type ≠ "NoRedist" ∧ a.redistribution_type ≠ "FluxRedist" ∧
        a.redistribution_type ≠ "StateRedist" ∧ a.redistribution_type ≠ "NewStateRedist")) ∧
    ((a.redistribution_type = "NoRedist" ∨ a.redistribution_type = "FluxRedist" ∨
        a.redistribution_type = "StateRedist" ∨ a.redistribution_type = "NewStateRedist") →
      ∃ r, Apply K a l s = .ok r) ∧
    ((a.redistribution_type ≠ "NoRedist" ∧ a.redistribution_type ≠ "FluxRedist" ∧
        a.redistribution_type ≠ "StateRedist" ∧ a.redistribution_type ≠ "NewStateRedist") →
      ∀ (K' : Kernels) (l' : Locals) (s' : State),
        Apply K' a l' s' = .error "Not a legit redist_type") := by
  refine ⟨⟨?_, ?_⟩, ?_, ?_⟩
  · intro h
    by_cases h1 : a.redistribution_type = "FluxRedist"
    · simp [Apply, h1] at h
    by_cases h2 : a.redistribution_type = "StateRedist"
    · simp [Apply, h2] at h
    by_cases h3 : a.redistribution_type = "NewStateRedist"
    · simp [Apply, h3] at h
    by_cases h4 : a.redistribution_type = "NoRedist"
    · simp [Apply, h4] at h
    exact ⟨h4, h1, h2, h3⟩
  · rintro ⟨h4, h1, h2, h3⟩
    simp [Apply, h1, h2, h3, h4]
  · rintro (h | h | h | h) <;> simp [Apply, h]
  · rintro ⟨h4, h1, h2, h3⟩ K' l' s'
    simp [Apply, h1, h2, h3, h4]

/-- Value of `Apply` on the branch of line 50. -/
lemma Apply_FluxRedist (K : Kernels) (a : Inputs) (l : Locals) (s : State)
    (hrt : a.redistribution_type = "FluxRedist") :
    Apply K a l s = .ok
      { dUdt_out := (K.apply_flux_redistribution a.bx
          (ParallelFor a.bx a.ncomp (fun _ _ _ _ => (0 : ℚ)) s.dUdt_out) s.dUdt_in s.scratch
          0 a.ncomp a.flag a.vfrac a.lev_geom).1
        dUdt_in := s.dUdt_in
        scratch := (K.apply_flux_redistribution a.bx
          (ParallelFor a.bx a.ncomp (fun _ _ _ _ => (0 : ℚ)) s.dUdt_out) s.dUdt_in s.scratch
          0 a.ncomp a.flag a.vfrac a.lev_geom).2 } := by
  simp [Apply, hrt]

/-- The demonstration kernels meet the contract for regular regions. -/
lemma demoKernels_regularUntouched : RegularUntouched demoKernels := by
  intro a l _ i j k
  constructor
  · simp [tracker, demoKernels]
  · unfold nrsOf
    split_ifs <;> simp [demoKernels]

/-- The demonstration flux kernel returns its input. -/
lemma demoKernels_fluxRegularPassThrough : FluxRegularPassThrough demoKernels := by
  intro bx o d sc ic nc fl vf g _ i j k n _ _ _
  simp [demoKernels]

/-- C8 (as stated, refuted): a region of regular cells, policy `"NewStateRedist"`, box
`[0,1] x [3,4]` on the domain `[0,3] x [0,3]`: every tracker count is `0` and every
`nrs` is `1`, the caller passed `dUdt_in(0,4,0,0) = 7`, and the driver returns
`dUdt_out(0,4,0,0) = 0`. -/
theorem regular_passthrough_counterexample :
    Regular { demoInputs "NewStateRedist" with bx := ⟨⟨0, 3⟩, ⟨1, 4⟩⟩ } ∧
    RegularUntouched demoKernels ∧ FluxRegularPassThrough demoKernels ∧
    ({ demoInputs "NewStateRedist" with bx := ⟨⟨0, 3⟩, ⟨1, 4⟩⟩ } : Inputs).bx.contains 0 4 0 ∧
    demoState.dUdt_in 0 4 0 0 = 7 ∧
    ∃ r, Apply demoKernels { demoInputs "NewStateRedist" with bx := ⟨⟨0, 3⟩, ⟨1, 4⟩⟩ }
        demoLocals demoState = .ok r ∧ r.dUdt_out 0 4 0 0 = 0 ∧
      r.dUdt_out 0 4 0 0 ≠ demoState.dUdt_in 0 4 0 0 := by
  refine ⟨?_, demoKernels_regularUntouched, demoKernels_fluxRegularPassThrough, by decide, rfl,
    _, Apply_StateRedist _ _ _ _ (Or.inr rfl), ?_, ?_⟩
  · intro i j k
    simp [demoInputs]
  · simp [ParallelFor, zeroFill, domain_per_grown, tracker, nrsOf, demoKernels, demoInputs,
      demoGeom, demoState, Box.contains, Box.containsBox, Box.grow]
  · simp [ParallelFor, zeroFill, domain_per_grown, tracker, nrsOf, demoKernels, demoInputs,
      demoGeom, demoState, Box.contains, Box.containsBox, Box.grow]

/-- C8 (amended): on a region of regular cells (volume fraction `1`, no cut faces, so
every tracker count is `0` and every `nrs` is `1`; flux kernel returning regular
cells unchanged), the driver with policy `"FluxRedist"`, `"StateRedist"` or
`"NewStateRedist"` returns normally and, at every cell of `bx` and component
`0 ≤ n < ncomp`, `dUdt_out` equals `dUdt_in` as it stands after the call. This is
the value the caller passed for `"FluxRedist"` and, for the two state policies, at
every cell inside the domain grown by one cell in the periodic directions; at a
cell of `bx` outside it the two state policies return `0`. -/
theorem regular_passthrough (K : Kernels) (a : Inputs) (l : Locals) (s : State)
    (i j k n : Int) (hK : RegularUntouched K) (hF : FluxRegularPassThrough K)
    (hreg : Regular a)
    (hrt : a.redistribution_type = "FluxRedist" ∨ a.redistribution_type = "StateRedist" ∨
      a.redistribution_type = "NewStateRedist")
    (hc : a.bx.contains i j k) (hn0 : 0 ≤ n) (hn : n < a.ncomp) :
    ∃ r, Apply K a l s = .ok r ∧ r.dUdt_out i j k n = r.dUdt_in i j k n ∧
      (a.redistribution_type = "FluxRedist" ∨ (domain_per_grown a.lev_geom).contains i j k →
        r.dUdt_out i j k n = s.dUdt_in i j k n) ∧
      (a.redistribution_type ≠ "FluxRedist" → ¬ (domain_per_grown a.lev_geom).contains i j k →
        r.dUdt_out i j k n = 0) := by
  rcases hrt with hrt | hrt
  · have key := hF a.bx (ParallelFor a.bx a.ncomp (fun _ _ _ _ => (0 : ℚ)) s.dUdt_out)
      s.dUdt_in s.scratch 0 a.ncomp a.flag a.vfrac a.lev_geom (fun i j k => (hreg i j k).1)
      i j k n hc hn0 (by simpa using hn)
    refine ⟨_, Apply_FluxRedist K a l s hrt, key, fun _ => key, fun h => absurd hrt h⟩
  · have hu : ¬ (tracker K a l i j k 0 > 0 ∨ nrsOf K a l i j k 0 > 1) := by
      rw [(hK a l hreg i j k).1, (hK a l hreg i j k).2]
      norm_num
    have key : (ParallelFor a.bx a.ncomp
        (fun i j k n =>
          if tracker K a l i j k 0 > 0 ∨ nrsOf K a l i j k 0 > 1 then
            (redistributed K a l s i j k n - a.U_in i j k n) / a.dt
          else zeroFill a s.dUdt_in i j k n)
        (redistributed K a l s)) i j k n = zeroFill a s.dUdt_in i j k n := by
      simp only [ParallelFor]
      rw [if_pos ⟨hc, hn0, hn⟩, if_neg hu]
    have hne : a.redistribution_type ≠ "FluxRedist" := by
      rcases hrt with h | h <;> simp [h]
    refine ⟨_, Apply_StateRedist K a l s hrt, key, ?_, ?_⟩
    · rintro (h | hd)
      · exact absurd h hne
      · exact key.trans (zeroFill_inside a s.dUdt_in i j k n hd)
    · intro _ hd
      exact key.trans (zeroFill_outside a s.dUdt_in i j k n hc hn0 hn hd)

/-- Witness for C8 (amended): policy `"FluxRedist"` at the cell `(2,2)`. -/
theorem regular_passthrough_witness :
    ∃ r, Apply demoKernels (demoInputs "FluxRedist") demoLocals demoState = .ok r ∧
      r.dUdt_out 2 2 0 0 = r.dUdt_in 2 2 0 0 ∧
      ((demoInputs "FluxRedist").redistribution_type = "FluxRedist" ∨
          (domain_per_grown (demoInputs "FluxRedist").lev_geom).contains 2 2 0 →
        r.dUdt_out 2 2 0 0 = demoState.dUdt_in 2 2 0 0) ∧
      ((demoInputs "FluxRedist").redistribution_type ≠ "FluxRedist" →
        ¬ (domain_per_grown (demoInputs "FluxRedist").lev_geom).contains 2 2 0 →
        r.dUdt_out 2 2 0 0 = 0) :=
  regular_passthrough demoKernels (demoInputs "FluxRedist") demoLocals demoState 2 2 0 0
    demoKernels_regularUntouched demoKernels_fluxRegularPassThrough
    (by intro i j k; simp [demoInputs]) (Or.inl rfl) (by decide) (by decide) (by decide)

/-- Converting a redistributed state back to a rate of change shifts the weighted
sum of the rate by the weighted state defect of the converted cells over `dt`. -/
lemma wsum_convert (vf out din R S : Array4 ℚ) (dt : ℚ) (hdt : dt ≠ 0)
    (p : Int × Int × Int → Prop) [DecidablePred p] (n : Int) (N : List (Int × Int × Int))
    (ht : ∀ c ∈ N, p c →
      out c.1 c.2.1 c.2.2 n =
        (R c.1 c.2.1 c.2.2 n - (S c.1 c.2.1 c.2.2 n - dt * din c.1 c.2.1 c.2.2 n)) / dt)
    (hu : ∀ c ∈ N, ¬ p c → out c.1 c.2.1 c.2.2 n = din c.1 c.2.1 c.2.2 n) :
    wsum vf out N n = wsum vf din N n +
      (wsum vf R (N.filter (fun c => decide (p c))) n -
        wsum vf S (N.filter (fun c => decide (p c))) n) / dt := by
  induction N with
  | nil => simp [wsum]
  | cons c N ih =>
    have ih' := ih (fun d hd => ht d (List.mem_cons_of_mem c hd))
      (fun d hd => hu d (List.mem_cons_of_mem c hd))
    by_cases hp : p c
    · have hc := ht c (List.mem_cons_self c N) hp
      simp only [wsum, List.map_cons, List.sum_cons, List.filter_cons, hp, decide_True,
        if_true] at ih' ⊢
      rw [ih', hc]
      field_simp
      ring
    · have hc := hu c (List.mem_cons_self c N) hp
      simp only [wsum, List.map_cons, List.sum_cons, List.filter_cons, hp, decide_False] at ih' ⊢
      rw [ih', hc]
      simp
      ring

/-- C4 (as stated, refuted): the row of section 8 split after cell `1`
(`bx = [0,1] x [0,0]`), policy `"StateRedist"`, `dt = 2`. The neighbourhood recorded
for the cut cell `(1,0)` is `{(1,0), (2,0)}`; after `Apply` the weighted sum of
`dUdt_out` over it is `439/40` while that of `dUdt_in` is `221/10`: cell `(2,0)`
is outside `bx` and keeps the caller's `dUdt_out = 9`. -/
theorem apply_conservation_counterexample :
    nbhd rowMap (tracker rowKernels (rowInputs ⟨⟨0, 0⟩, ⟨1, 0⟩⟩) demoLocals) 1 0 0 =
      [(1, 0, 0), (2, 0, 0)] ∧
    ∃ r, Apply rowKernels (rowInputs ⟨⟨0, 0⟩, ⟨1, 0⟩⟩) demoLocals rowState = .ok r ∧
      wsum (rowInputs ⟨⟨0, 0⟩, ⟨1, 0⟩⟩).vfrac r.dUdt_out [(1, 0, 0), (2, 0, 0)] 0 = 439 / 40 ∧
      wsum (rowInputs ⟨⟨0, 0⟩, ⟨1, 0⟩⟩).vfrac r.dUdt_in [(1, 0, 0), (2, 0, 0)] 0 = 221 / 10 ∧
      wsum (rowInputs ⟨⟨0, 0⟩, ⟨1, 0⟩⟩).vfrac rowState.dUdt_in [(1, 0, 0), (2, 0, 0)] 0 =
        221 / 10 ∧
      wsum (rowInputs ⟨⟨0, 0⟩, ⟨1, 0⟩⟩).vfrac r.dUdt_out [(1, 0, 0), (2, 0, 0)] 0 ≠
        wsum (rowInputs ⟨⟨0, 0⟩, ⟨1, 0⟩⟩).vfrac r.dUdt_in [(1, 0, 0), (2, 0, 0)] 0 := by
  have h1 : wsum (rowInputs ⟨⟨0, 0⟩, ⟨1, 0⟩⟩).vfrac
      (ParallelFor (rowInputs ⟨⟨0, 0⟩, ⟨1, 0⟩⟩).bx (rowInputs ⟨⟨0, 0⟩, ⟨1, 0⟩⟩).ncomp
        (fun i j k n =>
          if tracker rowKernels (rowInputs ⟨⟨0, 0⟩, ⟨1, 0⟩⟩) demoLocals i j k 0 > 0 ∨
              nrsOf rowKernels (rowInputs ⟨⟨0, 0⟩, ⟨1, 0⟩⟩) demoLocals i j k 0 > 1 then
            (redistributed rowKernels (rowInputs ⟨⟨0, 0⟩, ⟨1, 0⟩⟩) demoLocals rowState i j k n -
              (rowInputs ⟨⟨0, 0⟩, ⟨1, 0⟩⟩).U_in i j k n) / (rowInputs ⟨⟨0, 0⟩, ⟨1, 0⟩⟩).dt
          else zeroFill (rowInputs ⟨⟨0, 0⟩, ⟨1, 0⟩⟩) rowState.dUdt_in i j k n)
        (redistributed rowKernels (rowInputs ⟨⟨0, 0⟩, ⟨1, 0⟩⟩) demoLocals rowState))
      [(1, 0, 0), (2, 0, 0)] 0 = 439 / 40 := by
    simp [wsum, ParallelFor, redistributed, provisional, zeroFill, domain_per_grown, tracker,
      nrsOf, rowKernels, rowInputs, rowState, demoInputs, demoKernels, Box.contains,
      Box.containsBox, Box.grow]
    norm_num
  have h2 : wsum (rowInputs ⟨⟨0, 0⟩, ⟨1, 0⟩⟩).vfrac
      (zeroFill (rowInputs ⟨⟨0, 0⟩, ⟨1, 0⟩⟩) rowState.dUdt_in) [(1, 0, 0), (2, 0, 0)] 0 =
        221 / 10 := by
    simp [wsum, ParallelFor, zeroFill, domain_per_grown, rowInputs, rowState, demoInputs,
      Box.contains, Box.containsBox, Box.grow]
    norm_num
  refine ⟨?_, _, Apply_StateRedist _ _ _ _ (Or.inl rfl), h1, h2, ?_, ?_⟩
  · simp [nbhd, tracker, rowKernels, rowMap, List.range_succ]
  · simp [wsum, rowInputs, rowState]
    norm_num
  · show wsum _ _ _ _ ≠ wsum _ _ _ _
    rw [h1, h2]
    norm_num

/-- C4 (amended): with policy `"StateRedist"` or `"NewStateRedist"` and `dt ≠ 0`, for
the neighbourhood `N` recorded by the tracker for a cell, all of whose cells lie in
`bx` and in `Box(scratch)`, and a component `0 ≤ n < ncomp`: the driver returns
normally, and the volume-fraction-weighted sum of `dUdt_out` over `N` equals that
of `dUdt_in` (as it stands after the call) exactly when the redistribution kernel
returned, over the touched cells of `N`, the same volume-fraction-weighted sum as
the provisional state `U_in + dt * dUdt_in` formed in scratch has there. -/
theorem apply_conservation (K : Kernels) (a : Inputs) (l : Locals) (s : State)
    (map : Int → Int × Int) (i j k n : Int)
    (hrt : a.redistribution_type = "StateRedist" ∨ a.redistribution_type = "NewStateRedist")
    (hdt : a.dt ≠ 0) (hn0 : 0 ≤ n) (hn : n < a.ncomp)
    (hin : ∀ c ∈ nbhd map (tracker K a l) i j k,
      a.bx.contains c.1 c.2.1 c.2.2 ∧ a.scratch_box.contains c.1 c.2.1 c.2.2) :
    ∃ r, Apply K a l s = .ok r ∧
      (wsum a.vfrac r.dUdt_out (nbhd map (tracker K a l) i j k) n =
          wsum a.vfrac r.dUdt_in (nbhd map (tracker K a l) i j k) n ↔
        wsum a.vfrac (redistributed K a l s)
            ((nbhd map (tracker K a l) i j k).filter (fun c => decide (touched K a l c))) n =
          wsum a.vfrac (provisional a s.dUdt_in s.scratch)
            ((nbhd map (tracker K a l) i j k).filter (fun c => decide (touched K a l c))) n) := by
  refine ⟨_, Apply_StateRedist K a l s hrt, ?_⟩
  dsimp only
  rw [wsum_convert a.vfrac _ (zeroFill a s.dUdt_in) (redistributed K a l s)
    (provisional a s.dUdt_in s.scratch) a.dt hdt (touched K a l) n _ ?_ ?_]
  · constructor
    · intro h
      have h0 : (wsum a.vfrac (redistributed K a l s)
            ((nbhd map (tracker K a l) i j k).filter (fun c => decide (touched K a l c))) n -
          wsum a.vfrac (provisional a s.dUdt_in s.scratch)
            ((nbhd map (tracker K a l) i j k).filter (fun c => decide (touched K a l c))) n) /
            a.dt = 0 := by linarith
      rcases div_eq_zero_iff.mp h0 with h1 | h1
      · linarith
      · exact absurd h1 hdt
    · intro h
      rw [h]
      simp
  · intro c hc ht
    have hb := hin c hc
    have ht' : tracker K a l c.1 c.2.1 c.2.2 0 > 0 ∨ nrsOf K a l c.1 c.2.1 c.2.2 0 > 1 := ht
    simp only [ParallelFor, provisional]
    rw [if_pos ⟨hb.1, hn0, hn⟩, if_pos ht', if_pos ⟨hb.2, hn0, hn⟩]
    congr 1
    ring
  · intro c hc ht
    have hb := hin c hc
    have ht' : ¬ (tracker K a l c.1 c.2.1 c.2.2 0 > 0 ∨ nrsOf K a l c.1 c.2.1 c.2.2 0 > 1) := ht
    simp only [ParallelFor]
    rw [if_pos ⟨hb.1, hn0, hn⟩, if_neg ht']

/-- Witness for C4 (amended): the whole row `bx = [0,4] x [0,0]` of section 8; both
cells of the neighbourhood `{(1,0), (2,0)}` are touched, the kernel conserved the
weighted state, and the weighted sums of `dUdt_out` and `dUdt_in` are both `221/10`. -/
theorem apply_conservation_witness :
    nbhd rowMap (tracker rowKernels (rowInputs ⟨⟨0, 0⟩, ⟨4, 0⟩⟩) demoLocals) 1 0 0 =
      [(1, 0, 0), (2, 0, 0)] ∧
    ∃ r, Apply rowKernels (rowInputs ⟨⟨0, 0⟩, ⟨4, 0⟩⟩) demoLocals rowState = .ok r ∧
      (wsum (rowInputs ⟨⟨0, 0⟩, ⟨4, 0⟩⟩).vfrac r.dUdt_out
          (nbhd rowMap (tracker rowKernels (rowInputs ⟨⟨0, 0⟩, ⟨4, 0⟩⟩) demoLocals) 1 0 0) 0 =
        wsum (rowInputs ⟨⟨0, 0⟩, ⟨4, 0⟩⟩).vfrac r.dUdt_in
          (nbhd rowMap (tracker rowKernels (rowInputs ⟨⟨0, 0⟩, ⟨4, 0⟩⟩) demoLocals) 1 0 0) 0) ∧
      wsum (rowInputs ⟨⟨0, 0⟩, ⟨4, 0⟩⟩).vfrac r.dUdt_in [(1, 0, 0), (2, 0, 0)] 0 = 221 / 10 := by
  have hN : nbhd rowMap (tracker rowKernels (rowInputs ⟨⟨0, 0⟩, ⟨4, 0⟩⟩) demoLocals) 1 0 0 =
      [(1, 0, 0), (2, 0, 0)] := by
    simp [nbhd, tracker, rowKernels, rowMap, List.range_succ]
  obtain ⟨r, hr, hiff⟩ := apply_conservation rowKernels (rowInputs ⟨⟨0, 0⟩, ⟨4, 0⟩⟩) demoLocals
    rowState rowMap 1 0 0 0 (Or.inl rfl) (by norm_num [rowInputs, demoInputs]) (by decide)
    (by decide) (by
      rw [hN]
      intro c hc
      simp only [List.mem_cons, List.mem_singleton, List.not_mem_nil, or_false] at hc
      rcases hc with rfl | rfl <;> decide)
  have hr' := hr
  rw [Apply_StateRedist _ _ _ _ (Or.inl rfl)] at hr'
  have hd : r.dUdt_in = zeroFill (rowInputs ⟨⟨0, 0⟩, ⟨4, 0⟩⟩) rowState.dUdt_in := by
    injection hr' with h
    rw [← h]
  refine ⟨hN, r, hr, hiff.mpr ?_, ?_⟩
  · rw [hN]
    simp [wsum, touched, ParallelFor, redistributed, provisional, zeroFill, domain_per_grown,
      tracker, nrsOf, rowKernels, rowInputs, rowState, demoInputs, demoKernels, Box.contains,
      Box.containsBox, Box.grow, List.filter]
    norm_num
  · rw [hd]
    simp [wsum, ParallelFor, zeroFill, domain_per_grown, rowInputs, rowState, demoInputs,
      Box.contains, Box.containsBox, Box.grow]
    norm_num

/-- Witness for C5: the comparison is case-sensitive, `"noredist"` is not a policy. -/
theorem apply_error_iff_unknown_policy_witness :
    Apply demoKernels (demoInputs "noredist") demoLocals demoState =
      .error "Not a legit redist_type" :=
  (apply_error_iff_unknown_policy demoKernels (demoInputs "noredist") demoLocals demoState).1.mpr
    (by simp [demoInputs])


/-- C11: `ApplyToInitialData` returns normally exactly when `redistribution_type` is
`"StateRedist"` or `"NewStateRedist"`; for every other string, `"NoRedist"` and
`"FluxRedist"` included, it ends in its fatal error. On success `U_in` is left as
passed and `U_out` is exactly what `StateRedistribute` (resp.
`NewStateRedistribute`) returns for `U_out` zero-filled on `bx`, the state `U_in`
itself, the tracker `MakeITracker(bx, apx, apy, vfrac, .., target_volfrac)` and the
weights of the policy: no `dt`, no ghost-cell zero-fill, no selection of touched
cells. -/
theorem applyToInitialData_policy (K : Kernels) (a : InitInputs) (l : Locals) (s : InitState) :
    ((∃ v, ApplyToInitialData K a l s = .ok v) ↔
      (a.redistribution_type = "StateRedist" ∨ a.redistribution_type = "NewStateRedist")) ∧
    (¬ (a.redistribution_type = "StateRedist" ∨ a.redistribution_type = "NewStateRedist") →
      ApplyToInitialData K a l s =
        .error "Redistribution::ApplyToInitialData: Shouldn't be here with this redist type") ∧
    (a.redistribution_type = "NoRedist" ∨ a.redistribution_type = "FluxRedist" →
      ApplyToInitialData K a l s =
        .error "Redistribution::ApplyToInitialData: Shouldn't be here with this redist type") ∧
    (a.redistribution_type = "StateRedist" →
      ApplyToInitialData K a l s = .ok
        { U_out := K.StateRedistribute a.bx a.ncomp
            (ParallelFor a.bx a.ncomp (fun _ _ _ _ => (0 : ℚ)) s.U_out) s.U_in a.flag a.vfrac
            a.fcx a.fcy a.ccc a.d_bcrec_ptr
            (K.MakeITracker a.bx a.apx a.apy a.vfrac l.itracker a.lev_geom a.target_volfrac)
            (K.MakeStateRedistUtils a.bx a.flag a.vfrac a.ccc
              (K.MakeITracker a.bx a.apx a.apy a.vfrac l.itracker a.lev_geom a.target_volfrac)
              l.nrs_fab l.nbhd_vol_fab l.cent_hat_fab a.lev_geom).1
            (K.MakeStateRedistUtils a.bx a.flag a.vfrac a.ccc
              (K.MakeITracker a.bx a.apx a.apy a.vfrac l.itracker a.lev_geom a.target_volfrac)
              l.nrs_fab l.nbhd_vol_fab l.cent_hat_fab a.lev_geom).2.1
            (K.MakeStateRedistUtils a.bx a.flag a.vfrac a.ccc
              (K.MakeITracker a.bx a.apx a.apy a.vfrac l.itracker a.lev_geom a.target_volfrac)
              l.nrs_fab l.nbhd_vol_fab l.cent_hat_fab a.lev_geom).2.2
            a.lev_geom
          U_in := s.U_in }) ∧
    (a.redistribution_type = "NewStateRedist" →
      ApplyToInitialData K a l s = .ok
        { U_out := K.NewStateRedistribute a.bx a.ncomp
            (ParallelFor a.bx a.ncomp (fun _ _ _ _ => (0 : ℚ)) s.U_out) s.U_in a.flag a.vfrac
            a.fcx a.fcy a.ccc a.d_bcrec_ptr
            (K.MakeITracker a.bx a.apx a.apy a.vfrac l.itracker a.lev_geom a.target_volfrac)
            (K.MakeNewStateRedistUtils a.bx a.flag a.vfrac a.ccc
              (K.MakeITracker a.bx a.apx a.apy a.vfrac l.itracker a.lev_geom a.target_volfrac)
              l.nrs_fab l.alpha_fab l.nbhd_vol_fab l.cent_hat_fab a.lev_geom
              a.target_volfrac).1
            (K.MakeNewStateRedistUtils a.bx a.flag a.vfrac a.ccc
              (K.MakeITracker a.bx a.apx a.apy a.vfrac l.itracker a.lev_geom a.target_volfrac)
              l.nrs_fab l.alpha_fab l.nbhd_vol_fab l.cent_hat_fab a.lev_geom
              a.target_volfrac).2.1
            (K.MakeNewStateRedistUtils a.bx a.flag a.vfrac a.ccc
              (K.MakeITracker a.bx a.apx a.apy a.vfrac l.itracker a.lev_geom a.target_volfrac)
              l.nrs_fab l.alpha_fab l.nbhd_vol_fab l.cent_hat_fab a.lev_geom
              a.target_volfrac).2.2.1
            (K.MakeNewStateRedistUtils a.bx a.flag a.vfrac a.ccc
              (K.MakeITracker a.bx a.apx a.apy a.vfrac l.itracker a.lev_geom a.target_volfrac)
              l.nrs_fab l.alpha_fab l.nbhd_vol_fab l.cent_hat_fab a.lev_geom
              a.target_volfrac).2.2.2
            a.lev_geom
          U_in := s.U_in }) := by
  refine ⟨⟨?_, ?_⟩, ?_, ?_, ?_, ?_⟩
  · rintro ⟨v, hv⟩
    by_contra h
    have h1 : ¬ a.redistribution_type = "StateRedist" := fun e => h (Or.inl e)
    have h2 : ¬ a.redistribution_type = "NewStateRedist" := fun e => h (Or.inr e)
    simp [ApplyToInitialData, h1, h2] at hv
  · rintro (h | h) <;> simp [ApplyToInitialData, initTracker, h]
  · intro h
    have h1 : ¬ a.redistribution_type = "StateRedist" := fun e => h (Or.inl e)
    have h2 : ¬ a.redistribution_type = "NewStateRedist" := fun e => h (Or.inr e)
    simp [ApplyToInitialData, h1, h2]
  · rintro (h | h) <;> simp [ApplyToInitialData, h]
  · intro h
    simp [ApplyToInitialData, initTracker, h]
  · intro h
    simp [ApplyToInitialData, initTracker, h]

/-- Witness for C11: `"FluxRedist"` is refused, `"NewStateRedist"` returns the
kernel value `5` at the cell `(1,1)` without any conversion. -/
theorem applyToInitialData_policy_witness :
    ApplyToInitialData demoKernels (demoInputs "FluxRedist").toInit demoLocals
        ⟨demoState.dUdt_out, demoState.dUdt_in⟩ =
      .error "Redistribution::ApplyToInitialData: Shouldn't be here with this redist type" ∧
    ∃ v, ApplyToInitialData demoKernels (demoInputs "NewStateRedist").toInit demoLocals
        ⟨demoState.dUdt_out, demoState.dUdt_in⟩ = .ok v ∧ v.U_out 1 1 0 0 = 5 := by
  refine ⟨(applyToInitialData_policy demoKernels (demoInputs "FluxRedist").toInit demoLocals
      ⟨demoState.dUdt_out, demoState.dUdt_in⟩).2.2.1 (Or.inr rfl), _,
    (applyToInitialData_policy demoKernels (demoInputs "NewStateRedist").toInit demoLocals
      ⟨demoState.dUdt_out, demoState.dUdt_in⟩).2.2.2.2 rfl, ?_⟩
  simp [demoKernels]

/-- C12: with policy `"FluxRedist"` the driver returns normally, `dUdt_out` is the
first result of `apply_flux_redistribution(bx, dUdt_out, dUdt_in, scratch, 0, ncomp,
flag, vfrac, geom)` for `dUdt_out` zero-filled on `bx`, the caller's `dUdt_in` and
the caller's scratch, and `dUdt_in` is returned as passed. A second run in which
`dt`, `U_in`, the area fractions, the centroids and `target_volfrac`, the local
arrays and all tracker, weight and state kernels are replaced by any others gives
the same arrays. -/
theorem apply_fluxredist_direct (K K' : Kernels) (a : Inputs) (l l' : Locals) (s : State)
    (dt' : ℚ) (U_in' apx' apy' fcx' fcy' ccc' : Array4 ℚ) (target_volfrac' : ℚ)
    (hrt : a.redistribution_type = "FluxRedist")
    (hK : K'.apply_flux_redistribution = K.apply_flux_redistribution) :
    ∃ r r', Apply K a l s = .ok r ∧
      Apply K' { a with dt := dt', U_in := U_in', apx := apx', apy := apy', fcx := fcx',
                        fcy := fcy', ccc := ccc', target_volfrac := target_volfrac' }
        l' s = .ok r' ∧
      r.dUdt_out = (K.apply_flux_redistribution a.bx
          (ParallelFor a.bx a.ncomp (fun _ _ _ _ => (0 : ℚ)) s.dUdt_out) s.dUdt_in s.scratch
          0 a.ncomp a.flag a.vfrac a.lev_geom).1 ∧
      r.dUdt_in = s.dUdt_in ∧ r'.dUdt_out = r.dUdt_out ∧ r'.dUdt_in = r.dUdt_in ∧
      r'.scratch = r.scratch := by
  refine ⟨_, _, Apply_FluxRedist K a l s hrt, Apply_FluxRedist K' _ l' s hrt, rfl, rfl, ?_, rfl,
    ?_⟩
  · simp only [hK]
  · simp only [hK]

/-- Witness for C12: second run with `dt = 0`, `U_in = 100`, other area fractions and
the kernels with a non-empty tracker. -/
theorem apply_fluxredist_direct_witness :
    ∃ r r', Apply demoKernels (demoInputs "FluxRedist") demoLocals demoState = .ok r ∧
      Apply demoKernelsTouched
        { demoInputs "FluxRedist" with
          dt := 0, U_in := fun _ _ _ _ => 100, apx := fun _ _ _ _ => 1 / 2,
          apy := fun _ _ _ _ => 1 / 3, fcx := fun _ _ _ _ => 1, fcy := fun _ _ _ _ => 1,
          ccc := fun _ _ _ _ => 1, target_volfrac := 1 }
        demoLocals demoState = .ok r' ∧
      r.dUdt_out = (demoKernels.apply_flux_redistribution (demoInputs "FluxRedist").bx
          (ParallelFor (demoInputs "FluxRedist").bx (demoInputs "FluxRedist").ncomp
            (fun _ _ _ _ => (0 : ℚ)) demoState.dUdt_out) demoState.dUdt_in demoState.scratch
          0 (demoInputs "FluxRedist").ncomp (demoInputs "FluxRedist").flag
          (demoInputs "FluxRedist").vfrac (demoInputs "FluxRedist").lev_geom).1 ∧
      r.dUdt_in = demoState.dUdt_in ∧ r'.dUdt_out = r.dUdt_out ∧ r'.dUdt_in = r.dUdt_in ∧
      r'.scratch = r.scratch :=
  apply_fluxredist_direct demoKernels demoKernelsTouched (demoInputs "FluxRedist")
    demoLocals demoLocals demoState 0 (fun _ _ _ _ => 100) (fun _ _ _ _ => 1 / 2)
    (fun _ _ _ _ => 1 / 3) (fun _ _ _ _ => 1) (fun _ _ _ _ => 1) (fun _ _ _ _ => 1) 1 rfl rfl


/-- A cell of `grow(bx,1)` outside `domain_per_grown` is zeroed by the ghost-cell loop. -/
lemma zeroFill_ghost (a : Inputs) (d : Array4 ℚ) (i j k n : Int)
    (hg : (a.bx.grow 1).contains i j k) (hn0 : 0 ≤ n) (hn : n < a.ncomp)
    (h : ¬ (domain_per_grown a.lev_geom).contains i j k) : zeroFill a d i j k n = 0 := by
  have hnb : ¬ (domain_per_grown a.lev_geom).containsBox (a.bx.grow 1) := by
    intro hb
    apply h
    simp only [Box.contains, Box.containsBox] at hb hg ⊢
    omega
  simp [zeroFill, ParallelFor, hnb, hg, hn0, hn, h]

/-- Membership in `domain_per_grown`, spelled out: the domain bounds widened by one
cell in each periodic direction. -/
lemma domain_per_grown_contains (g : Geometry) (i j k : Int) :
    (domain_per_grown g).contains i j k ↔
      (g.Domain.smallend.x - (if g.isPeriodic 0 then 1 else 0) ≤ i ∧
        i ≤ g.Domain.bigend.x + (if g.isPeriodic 0 then 1 else 0) ∧
        g.Domain.smallend.y - (if g.isPeriodic 1 then 1 else 0) ≤ j ∧
        j ≤ g.Domain.bigend.y + (if g.isPeriodic 1 then 1 else 0) ∧ k = 0) := by
  unfold domain_per_grown
  cases h0 : g.isPeriodic 0 <;> cases h1 : g.isPeriodic 1 <;>
    simp [Box.contains, Box.growDir]

/-- C14: with policy `"StateRedist"` or `"NewStateRedist"` the scratch array handed to
the tracker and the kernels holds, at every cell of `Box(scratch)` and component
`0 ≤ n < ncomp`, the value `U_in + dt * dUdt_in` with `dUdt_in` as it stands after
the ghost-cell zero-fill; in particular it holds `U_in` at such a cell when the cell
lies in `grow(bx,1)` and outside the domain grown in the periodic directions. The
driver returns this array as `scratch`. -/
theorem apply_provisional_state (K : Kernels) (a : Inputs) (l : Locals) (s : State)
    (i j k n : Int)
    (hrt : a.redistribution_type = "StateRedist" ∨ a.redistribution_type = "NewStateRedist")
    (hc : a.scratch_box.contains i j k) (hn0 : 0 ≤ n) (hn : n < a.ncomp) :
    ∃ r, Apply K a l s = .ok r ∧ r.scratch = provisional a s.dUdt_in s.scratch ∧
      r.dUdt_in = zeroFill a s.dUdt_in ∧
      provisional a s.dUdt_in s.scratch i j k n =
        a.U_in i j k n + a.dt * zeroFill a s.dUdt_in i j k n ∧
      ((a.bx.grow 1).contains i j k → ¬ (domain_per_grown a.lev_geom).contains i j k →
        provisional a s.dUdt_in s.scratch i j k n = a.U_in i j k n) := by
  have key : provisional a s.dUdt_in s.scratch i j k n =
      a.U_in i j k n + a.dt * zeroFill a s.dUdt_in i j k n := by
    simp only [provisional, ParallelFor]
    rw [if_pos ⟨hc, hn0, hn⟩]
  refine ⟨_, Apply_StateRedist K a l s hrt, rfl, rfl, key, ?_⟩
  intro hg hd
  rw [key, zeroFill_ghost a s.dUdt_in i j k n hg hn0 hn hd]
  simp

/-- Witness for C14 on the box `[2,3] x [2,3]`: the ghost cell `(4,2)` of `grow(bx,1)`
lies outside the domain `[0,3] x [0,3]` and inside `Box(scratch)`; the provisional
state there is `U_in = 3`, and at the interior cell `(2,2)` it is `3 + 2 * 7`. -/
theorem apply_provisional_state_witness :
    provisional { demoInputs "StateRedist" with bx := ⟨⟨2, 2⟩, ⟨3, 3⟩⟩ }
      demoState.dUdt_in demoState.scratch 4 2 0 0 = 3 ∧
    provisional { demoInputs "StateRedist" with bx := ⟨⟨2, 2⟩, ⟨3, 3⟩⟩ }
      demoState.dUdt_in demoState.scratch 2 2 0 0 = 3 + 2 * 7 := by
  obtain ⟨r, _, _, _, _, h2⟩ := apply_provisional_state demoKernels
    { demoInputs "StateRedist" with bx := ⟨⟨2, 2⟩, ⟨3, 3⟩⟩ }
    demoLocals demoState 4 2 0 0 (Or.inl rfl) (by decide) (by decide) (by decide)
  obtain ⟨r', _, _, _, h3, _⟩ := apply_provisional_state demoKernels
    { demoInputs "StateRedist" with bx := ⟨⟨2, 2⟩, ⟨3, 3⟩⟩ }
    demoLocals demoState 2 2 0 0 (Or.inl rfl) (by decide) (by decide) (by decide)
  refine ⟨h2 (by decide) (by decide), ?_⟩
  rw [h3, zeroFill_inside _ _ _ _ _ _ (by decide)]
  rfl

/-- C15: with policy `"StateRedist"` or `"NewStateRedist"`, let `D` be the domain grown
by one cell in each periodic direction. At a cell of `grow(bx,1)` and a component
`0 ≤ n < ncomp`, the array `dUdt_in` from which the provisional state is formed,
and which the driver returns, is `0` when the cell is not in `D` and keeps the
caller's value when the cell is in `D`. -/
theorem apply_ghost_zero_fill (K : Kernels) (a : Inputs) (l : Locals) (s : State)
    (i j k n : Int)
    (hrt : a.redistribution_type = "StateRedist" ∨ a.redistribution_type = "NewStateRedist")
    (hg : (a.bx.grow 1).contains i j k) (hn0 : 0 ≤ n) (hn : n < a.ncomp) :
    ∃ r, Apply K a l s = .ok r ∧ r.dUdt_in = zeroFill a s.dUdt_in ∧
      (¬ (a.lev_geom.Domain.smallend.x - (if a.lev_geom.isPeriodic 0 then 1 else 0) ≤ i ∧
          i ≤ a.lev_geom.Domain.bigend.x + (if a.lev_geom.isPeriodic 0 then 1 else 0) ∧
          a.lev_geom.Domain.smallend.y - (if a.lev_geom.isPeriodic 1 then 1 else 0) ≤ j ∧
          j ≤ a.lev_geom.Domain.bigend.y + (if a.lev_geom.isPeriodic 1 then 1 else 0) ∧
          k = 0) →
        r.dUdt_in i j k n = 0) ∧
      ((a.lev_geom.Domain.smallend.x - (if a.lev_geom.isPeriodic 0 then 1 else 0) ≤ i ∧
          i ≤ a.lev_geom.Domain.bigend.x + (if a.lev_geom.isPeriodic 0 then 1 else 0) ∧
          a.lev_geom.Domain.smallend.y - (if a.lev_geom.isPeriodic 1 then 1 else 0) ≤ j ∧
          j ≤ a.lev_geom.Domain.bigend.y + (if a.lev_geom.isPeriodic 1 then 1 else 0) ∧
          k = 0) →
        r.dUdt_in i j k n = s.dUdt_in i j k n) ∧
      (a.scratch_box.contains i j k →
        provisional a s.dUdt_in s.scratch i j k n =
          a.U_in i j k n + a.dt * r.dUdt_in i j k n) := by
  refine ⟨_, Apply_StateRedist K a l s hrt, rfl, ?_, ?_, ?_⟩
  · intro hd
    exact zeroFill_ghost a s.dUdt_in i j k n hg hn0 hn
      (fun h => hd ((domain_per_grown_contains a.lev_geom i j k).mp h))
  · intro hd
    exact zeroFill_inside a s.dUdt_in i j k n
      ((domain_per_grown_contains a.lev_geom i j k).mpr hd)
  · intro hc
    simp only [provisional, ParallelFor]
    rw [if_pos ⟨hc, hn0, hn⟩]


/-- Witness for C15 on the box `[2,3] x [2,3]` of the non-periodic domain
`[0,3] x [0,3]`: the ghost cell `(4,2)` is zeroed, the cell `(3,2)` keeps `7`. -/
theorem apply_ghost_zero_fill_witness :
    zeroFill { demoInputs "NewStateRedist" with bx := ⟨⟨2, 2⟩, ⟨3, 3⟩⟩ }
      demoState.dUdt_in 4 2 0 0 = 0 ∧
    zeroFill { demoInputs "NewStateRedist" with bx := ⟨⟨2, 2⟩, ⟨3, 3⟩⟩ }
      demoState.dUdt_in 3 2 0 0 = 7 := by
  obtain ⟨r, hr, hz, h0, _, _⟩ := apply_ghost_zero_fill demoKernels
    { demoInputs "NewStateRedist" with bx := ⟨⟨2, 2⟩, ⟨3, 3⟩⟩ }
    demoLocals demoState 4 2 0 0 (Or.inr rfl) (by decide) (by decide) (by decide)
  obtain ⟨r', hr', hz', _, h1, _⟩ := apply_ghost_zero_fill demoKernels
    { demoInputs "NewStateRedist" with bx := ⟨⟨2, 2⟩, ⟨3, 3⟩⟩ }
    demoLocals demoState 3 2 0 0 (Or.inr rfl) (by decide) (by decide) (by decide)
  rw [hz] at h0
  rw [hz'] at h1
  exact ⟨h0 (by decide), h1 (by decide)⟩

/-- C20: for policy `"StateRedist"` or `"NewStateRedist"` and `dt ≠ 0`, let `S` be the
provisional state the driver forms in scratch (`U_in + dt * dUdt_in` on
`Box(scratch)`, `dUdt_in` after the ghost-cell zero-fill) and `V` the `U_out` that
`ApplyToInitialData` with the same policy, box, geometry fields, boundary records
and `target_volfrac` returns for the state `S` (its output array agreeing with
`dUdt_out` off `bx`). Both calls return normally with the same tracker, `V` is the
array the kernel returned inside `Apply`, and at every touched cell of `bx` and
component `0 ≤ n < ncomp`, `Apply` returns `dUdt_out = (V - U_in) / dt`. -/
theorem apply_matches_initial_data (K : Kernels) (a : Inputs) (l : Locals) (s : State)
    (u0 : Array4 ℚ) (i j k n : Int)
    (hrt : a.redistribution_type = "StateRedist" ∨ a.redistribution_type = "NewStateRedist")
    (hdt : a.dt ≠ 0)
    (hu : ∀ i j k n, ¬ (a.bx.contains i j k ∧ 0 ≤ n ∧ n < a.ncomp) →
      u0 i j k n = s.dUdt_out i j k n)
    (hc : a.bx.contains i j k) (hn0 : 0 ≤ n) (hn : n < a.ncomp)
    (ht : tracker K a l i j k 0 > 0 ∨ nrsOf K a l i j k 0 > 1) :
    ∃ r v, Apply K a l s = .ok r ∧
      ApplyToInitialData K a.toInit l ⟨u0, provisional a s.dUdt_in s.scratch⟩ = .ok v ∧
      initTracker K a.toInit l = tracker K a l ∧
      v.U_out = redistributed K a l s ∧
      r.dUdt_out i j k n = (v.U_out i j k n - a.U_in i j k n) / a.dt ∧
      a.U_in i j k n + a.dt * r.dUdt_out i j k n = v.U_out i j k n := by
  have hz : ParallelFor a.bx a.ncomp (fun _ _ _ _ => (0 : ℚ)) u0 =
      ParallelFor a.bx a.ncomp (fun _ _ _ _ => (0 : ℚ)) s.dUdt_out := by
    funext i j k n
    simp only [ParallelFor]
    split_ifs with h
    · rfl
    · exact hu i j k n h
  have hv : ApplyToInitialData K a.toInit l ⟨u0, provisional a s.dUdt_in s.scratch⟩ =
      .ok ⟨redistributed K a l s, provisional a s.dUdt_in s.scratch⟩ := by
    rcases hrt with h | h
    · simp [ApplyToInitialData, initTracker, Inputs.toInit, redistributed, tracker, h, hz]
    · simp [ApplyToInitialData, initTracker, Inputs.toInit, redistributed, tracker, h, hz]
  have key : (ParallelFor a.bx a.ncomp
      (fun i j k n =>
        if tracker K a l i j k 0 > 0 ∨ nrsOf K a l i j k 0 > 1 then
          (redistributed K a l s i j k n - a.U_in i j k n) / a.dt
        else zeroFill a s.dUdt_in i j k n)
      (redistributed K a l s)) i j k n
        = (redistributed K a l s i j k n - a.U_in i j k n) / a.dt := by
    simp only [ParallelFor]
    rw [if_pos ⟨hc, hn0, hn⟩, if_pos ht]
  refine ⟨_, _, Apply_StateRedist K a l s hrt, hv, rfl, rfl, key, ?_⟩
  dsimp only
  rw [key]
  field_simp

/-- Witness for C20: tracker count `1`, kernel value `5`, `U_in = 3`, `dt = 2`; the
driver returns `(5 - 3) / 2` at the cell `(1,1)`. -/
theorem apply_matches_initial_data_witness :
    ∃ r v, Apply demoKernelsTouched (demoInputs "StateRedist") demoLocals demoState = .ok r ∧
      ApplyToInitialData demoKernelsTouched (demoInputs "StateRedist").toInit demoLocals
        ⟨demoState.dUdt_out,
          provisional (demoInputs "StateRedist") demoState.dUdt_in demoState.scratch⟩ = .ok v ∧
      initTracker demoKernelsTouched (demoInputs "StateRedist").toInit demoLocals =
        tracker demoKernelsTouched (demoInputs "StateRedist") demoLocals ∧
      v.U_out = redistributed demoKernelsTouched (demoInputs "StateRedist") demoLocals
        demoState ∧
      r.dUdt_out 1 1 0 0 = (v.U_out 1 1 0 0 - (demoInputs "StateRedist").U_in 1 1 0 0) /
        (demoInputs "StateRedist").dt ∧
      (demoInputs "StateRedist").U_in 1 1 0 0 +
        (demoInputs "StateRedist").dt * r.dUdt_out 1 1 0 0 = v.U_out 1 1 0 0 :=
  apply_matches_initial_data demoKernelsTouched (demoInputs "StateRedist") demoLocals demoState
    demoState.dUdt_out 1 1 0 0 (Or.inl rfl) (by simp [demoInputs]) (fun _ _ _ _ _ => rfl)
    (by decide) (by decide) (by decide) (by simp [tracker, demoKernelsTouched, demoKernels])


/-- An unrecognised policy stops at `amrex::Error`. -/
lemma Apply_unknown (K : Kernels) (a : Inputs) (l : Locals) (s : State)
    (h1 : a.redistribution_type ≠ "FluxRedist") (h2 : a.redistribution_type ≠ "StateRedist")
    (h3 : a.redistribution_type ≠ "NewStateRedist") (h4 : a.redistribution_type ≠ "NoRedist") :
    Apply K a l s = .error "Not a legit redist_type" := by
  simp [Apply, h1, h2, h3, h4]

/-- The ghost-cell loop changes an element only in `grow(bx,1)`, outside
`domain_per_grown` and in the component range. -/
lemma zeroFill_frame (a : Inputs) (d : Array4 ℚ) (i j k n : Int)
    (hg : ¬ ((a.bx.grow 1).contains i j k ∧
      ¬ (domain_per_grown a.lev_geom).contains i j k ∧ 0 ≤ n ∧ n < a.ncomp)) :
    zeroFill a d i j k n = d i j k n := by
  by_cases hx : (a.bx.grow 1).contains i j k ∧ 0 ≤ n ∧ n < a.ncomp
  · have hy : (domain_per_grown a.lev_geom).contains i j k := by
      by_contra hy
      exact hg ⟨hx.1, hy, hx.2⟩
    exact zeroFill_inside a d i j k n hy
  · unfold zeroFill
    by_cases hcb : (domain_per_grown a.lev_geom).containsBox (a.bx.grow 1)
    · rw [if_neg (not_not.mpr hcb)]
    · rw [if_pos hcb]
      unfold ParallelFor
      exact if_neg hx

/-- C24 (frame of `Apply` on `dUdt_in`). With policy `"NoRedist"`, and with a policy
that is none of the four names, `dUdt_in` is at every cell and component what the
caller passed when control leaves `Apply`. With `"StateRedist"` or
`"NewStateRedist"` an element of `dUdt_in` that differs from the caller's value
lies in `grow(bx,1)`, outside the domain grown by one cell in the periodic
directions, has a component `0 ≤ n < ncomp`, and is `0`; every such element is `0`.
The state `U_in` is a read-only input of the driver (`Array4<Real const>`). -/
theorem apply_input_rate_frame (K : Kernels) (a : Inputs) (l : Locals) (s : State)
    (i j k n : Int) :
    (a.redistribution_type = "NoRedist" →
      Apply K a l s = .ok (ApplyArrays K a l s) ∧
      (ApplyArrays K a l s).dUdt_in i j k n = s.dUdt_in i j k n) ∧
    (a.redistribution_type ≠ "FluxRedist" → a.redistribution_type ≠ "StateRedist" →
      a.redistribution_type ≠ "NewStateRedist" → a.redistribution_type ≠ "NoRedist" →
      Apply K a l s = .error "Not a legit redist_type" ∧
      (ApplyArrays K a l s).dUdt_in i j k n = s.dUdt_in i j k n) ∧
    (a.redistribution_type = "StateRedist" ∨ a.redistribution_type = "NewStateRedist" →
      Apply K a l s = .ok (ApplyArrays K a l s) ∧
      ((ApplyArrays K a l s).dUdt_in i j k n = s.dUdt_in i j k n ∨
        ((a.bx.grow 1).contains i j k ∧ ¬ (domain_per_grown a.lev_geom).contains i j k ∧
          0 ≤ n ∧ n < a.ncomp ∧ (ApplyArrays K a l s).dUdt_in i j k n = 0)) ∧
      ((a.bx.grow 1).contains i j k → ¬ (domain_per_grown a.lev_geom).contains i j k →
        0 ≤ n → n < a.ncomp → (ApplyArrays K a l s).dUdt_in i j k n = 0)) := by
  refine ⟨?_, ?_, ?_⟩
  · intro h
    have hr := Apply_NoRedist K a l s h
    constructor
    · simp only [ApplyArrays, hr]
    · simp only [ApplyArrays, hr]
  · intro h1 h2 h3 h4
    have hr := Apply_unknown K a l s h1 h2 h3 h4
    refine ⟨hr, ?_⟩
    simp only [ApplyArrays, hr]
  · intro h
    have hr := Apply_StateRedist K a l s h
    have hin : (ApplyArrays K a l s).dUdt_in = zeroFill a s.dUdt_in := by
      simp only [ApplyArrays, hr]
    refine ⟨by simp only [ApplyArrays, hr], ?_, ?_⟩
    swap
    · intro hg hd h0 h1
      rw [hin]
      exact zeroFill_ghost a s.dUdt_in i j k n hg h0 h1 hd
    rw [hin]
    by_cases hg : (a.bx.grow 1).contains i j k ∧
        ¬ (domain_per_grown a.lev_geom).contains i j k ∧ 0 ≤ n ∧ n < a.ncomp
    · right
      exact ⟨hg.1, hg.2.1, hg.2.2.1, hg.2.2.2,
        zeroFill_ghost a s.dUdt_in i j k n hg.1 hg.2.2.1 hg.2.2.2 hg.2.1⟩
    · left
      exact zeroFill_frame a s.dUdt_in i j k n hg

/-- Witness for C24 on the box `[2,3] x [2,3]` of the domain `[0,3] x [0,3]`
(`dUdt_in = 7` on entry): `"NoRedist"` and the unknown name `"Redist"` leave the
ghost cell `(4,2)` at `7`; `"StateRedist"` zeroes it and leaves the cells `(3,2)`
of the domain and `(5,2)` outside `grow(bx,1)` at `7`. -/
theorem apply_input_rate_frame_witness :
    (ApplyArrays demoKernels { demoInputs "NoRedist" with bx := ⟨⟨2, 2⟩, ⟨3, 3⟩⟩ }
        demoLocals demoState).dUdt_in 4 2 0 0 = 7 ∧
    (Apply demoKernels { demoInputs "Redist" with bx := ⟨⟨2, 2⟩, ⟨3, 3⟩⟩ }
        demoLocals demoState = .error "Not a legit redist_type" ∧
      (ApplyArrays demoKernels { demoInputs "Redist" with bx := ⟨⟨2, 2⟩, ⟨3, 3⟩⟩ }
        demoLocals demoState).dUdt_in 4 2 0 0 = 7) ∧
    (ApplyArrays demoKernels { demoInputs "StateRedist" with bx := ⟨⟨2, 2⟩, ⟨3, 3⟩⟩ }
        demoLocals demoState).dUdt_in 4 2 0 0 = 0 ∧
    (ApplyArrays demoKernels { demoInputs "StateRedist" with bx := ⟨⟨2, 2⟩, ⟨3, 3⟩⟩ }
        demoLocals demoState).dUdt_in 3 2 0 0 = 7 ∧
    (ApplyArrays demoKernels { demoInputs "StateRedist" with bx := ⟨⟨2, 2⟩, ⟨3, 3⟩⟩ }
        demoLocals demoState).dUdt_in 5 2 0 0 = 7 := by
  refine ⟨((apply_input_rate_frame demoKernels
      { demoInputs "NoRedist" with bx := ⟨⟨2, 2⟩, ⟨3, 3⟩⟩ } demoLocals demoState 4 2 0 0).1
      rfl).2,
    (apply_input_rate_frame demoKernels
      { demoInputs "Redist" with bx := ⟨⟨2, 2⟩, ⟨3, 3⟩⟩ } demoLocals demoState 4 2 0 0).2.1
      (by decide) (by decide) (by decide) (by decide), ?_, ?_, ?_⟩
  · rcases ((apply_input_rate_frame demoKernels
      { demoInputs "StateRedist" with bx := ⟨⟨2, 2⟩, ⟨3, 3⟩⟩ } demoLocals demoState 4 2 0 0).2.2
      (Or.inl rfl)).2.1 with h | h
    · exfalso
      revert h
      simp [ApplyArrays, Apply, zeroFill, ParallelFor, domain_per_grown, demoInputs, demoGeom,
        demoState, Box.contains, Box.containsBox, Box.grow]
    · exact h.2.2.2.2
  · rcases ((apply_input_rate_frame demoKernels
      { demoInputs "StateRedist" with bx := ⟨⟨2, 2⟩, ⟨3, 3⟩⟩ } demoLocals demoState 3 2 0 0).2.2
      (Or.inl rfl)).2.1 with h | h
    · exact h
    · exact absurd h.2.1 (by decide)
  · rcases ((apply_input_rate_frame demoKernels
      { demoInputs "StateRedist" with bx := ⟨⟨2, 2⟩, ⟨3, 3⟩⟩ } demoLocals demoState 5 2 0 0).2.2
      (Or.inl rfl)).2.1 with h | h
    · exact h
    · exact absurd h.1 (by decide)


end Redistribution

/-! ## Godunov edge-state predictor: theorems -/

namespace Godunov

/-- Value written to `xedge` at a face of `xbx` (line 227). -/
lemma xedge_eq (P : Primitives) (a : Inputs) (t : Scratch) (e : Edges) (i j k n : Int)
    (hc : (xbx a).contains i j k) (hn0 : 0 ≤ n) (hn : n < a.ncomp) :
    (ComputeEdgeState P a t e).xedge i j k n =
      edgeUpwind P.small_vel (a.umac i j k 0) (xFinal P a t i j k n).1 (xFinal P a t i j k n).2 := by
  simp only [ComputeEdgeState, ParallelFor]
  rw [if_pos ⟨hc, hn0, hn⟩]

/-- Value written to `yedge` at a face of `ybx` (line 299). -/
lemma yedge_eq (P : Primitives) (a : Inputs) (t : Scratch) (e : Edges) (i j k n : Int)
    (hc : (ybx a).contains i j k) (hn0 : 0 ≤ n) (hn : n < a.ncomp) :
    (ComputeEdgeState P a t e).yedge i j k n =
      edgeUpwind P.small_vel (a.vmac i j k 0) (yFinal P a t i j k n).1 (yFinal P a t i j k n).2 := by
  simp only [ComputeEdgeState, ParallelFor]
  rw [if_pos ⟨hc, hn0, hn⟩]

/-- Velocity at or above the threshold selects the low-side state. -/
lemma edgeUpwind_pos (sv vel stl sth : ℚ) (hsv : 0 < sv) (hv : sv ≤ vel) :
    edgeUpwind sv vel stl sth = stl := by
  have h0 : 0 ≤ vel := le_trans hsv.le hv
  have h1 : ¬ |vel| < sv := by
    rw [abs_of_nonneg h0]
    exact not_lt.mpr hv
  simp [edgeUpwind, h0, h1]

/-- Velocity at or below minus the threshold selects the high-side state. -/
lemma edgeUpwind_neg (sv vel stl sth : ℚ) (hsv : 0 < sv) (hv : vel ≤ -sv) :
    edgeUpwind sv vel stl sth = sth := by
  have h0 : vel < 0 := by linarith
  have h1 : ¬ |vel| < sv := by
    rw [abs_of_neg h0]
    intro h
    linarith
  simp [edgeUpwind, not_le.mpr h0, h1]

/-- Velocity magnitude below the threshold gives the mean of the two states. -/
lemma edgeUpwind_small (sv vel stl sth : ℚ) (hv : |vel| < sv) :
    edgeUpwind sv vel stl sth = 0.5 * (stl + sth) := by
  simp [edgeUpwind, hv]

/-- The selected value lies between the two states. -/
lemma edgeUpwind_between (sv vel stl sth : ℚ) :
    min stl sth ≤ edgeUpwind sv vel stl sth ∧ edgeUpwind sv vel stl sth ≤ max stl sth := by
  unfold edgeUpwind
  by_cases h1 : |vel| < sv
  · simp only [h1, if_true]
    constructor
    · rcases le_total stl sth with h | h
      · rw [min_eq_left h]; norm_num; linarith
      · rw [min_eq_right h]; norm_num; linarith
    · rcases le_total stl sth with h | h
      · rw [max_eq_right h]; norm_num; linarith
      · rw [max_eq_left h]; norm_num; linarith
  · simp only [h1, if_false]
    by_cases h0 : vel ≥ 0
    · simp only [h0, if_true]
      exact ⟨min_le_left _ _, le_max_left _ _⟩
    · simp only [h0, if_false]
      exact ⟨min_le_right _ _, le_max_right _ _⟩

/-- C6 (upwind consistency): with `small_vel > 0`, at every x-face of
`surroundingNodes(bx,0)` and component `0 ≤ n < ncomp`, `umac ≥ small_vel` gives
`xedge` equal to the final low-side state `stl` and `umac ≤ -small_vel` gives the
final high-side state `sth`; the same on the y-faces of `surroundingNodes(bx,1)`
with `vmac`. -/
theorem edge_upwind_consistency (P : Primitives) (a : Inputs) (t : Scratch) (e : Edges)
    (i j k n : Int) (hsv : 0 < P.small_vel) (hn0 : 0 ≤ n) (hn : n < a.ncomp) :
    ((xbx a).contains i j k → a.umac i j k 0 ≥ P.small_vel →
      (ComputeEdgeState P a t e).xedge i j k n = (xFinal P a t i j k n).1) ∧
    ((xbx a).contains i j k → a.umac i j k 0 ≤ -P.small_vel →
      (ComputeEdgeState P a t e).xedge i j k n = (xFinal P a t i j k n).2) ∧
    ((ybx a).contains i j k → a.vmac i j k 0 ≥ P.small_vel →
      (ComputeEdgeState P a t e).yedge i j k n = (yFinal P a t i j k n).1) ∧
    ((ybx a).contains i j k → a.vmac i j k 0 ≤ -P.small_vel →
      (ComputeEdgeState P a t e).yedge i j k n = (yFinal P a t i j k n).2) := by
  refine ⟨?_, ?_, ?_, ?_⟩
  · intro hc hv
    rw [xedge_eq P a t e i j k n hc hn0 hn]
    exact edgeUpwind_pos _ _ _ _ hsv hv
  · intro hc hv
    rw [xedge_eq P a t e i j k n hc hn0 hn]
    exact edgeUpwind_neg _ _ _ _ hsv hv
  · intro hc hv
    rw [yedge_eq P a t e i j k n hc hn0 hn]
    exact edgeUpwind_pos _ _ _ _ hsv hv
  · intro hc hv
    rw [yedge_eq P a t e i j k n hc hn0 hn]
    exact edgeUpwind_neg _ _ _ _ hsv hv

/-- C7 (zero-velocity averaging): at every x-face of `surroundingNodes(bx,0)` and
component `0 ≤ n < ncomp`, `|umac| < small_vel` gives `xedge = 0.5 * (stl + sth)`
for the final states of the face; likewise `yedge` with `vmac` on the y-faces. -/
theorem edge_small_velocity_mean (P : Primitives) (a : Inputs) (t : Scratch) (e : Edges)
    (i j k n : Int) (hn0 : 0 ≤ n) (hn : n < a.ncomp) :
    ((xbx a).contains i j k → |a.umac i j k 0| < P.small_vel →
      (ComputeEdgeState P a t e).xedge i j k n =
        0.5 * ((xFinal P a t i j k n).1 + (xFinal P a t i j k n).2)) ∧
    ((ybx a).contains i j k → |a.vmac i j k 0| < P.small_vel →
      (ComputeEdgeState P a t e).yedge i j k n =
        0.5 * ((yFinal P a t i j k n).1 + (yFinal P a t i j k n).2)) := by
  refine ⟨?_, ?_⟩
  · intro hc hv
    rw [xedge_eq P a t e i j k n hc hn0 hn]
    exact edgeUpwind_small _ _ _ _ hv
  · intro hc hv
    rw [yedge_eq P a t e i j k n hc hn0 hn]
    exact edgeUpwind_small _ _ _ _ hv

/-- C9 (edge-state boundedness, I3): at every x-face of `surroundingNodes(bx,0)`,
every y-face of `surroundingNodes(bx,1)`, component `0 ≤ n < ncomp` and for every
face velocity, `min(stl, sth) ≤ edge ≤ max(stl, sth)` for the final states of the
face. -/
theorem edge_between_donors (P : Primitives) (a : Inputs) (t : Scratch) (e : Edges)
    (i j k n : Int) (hn0 : 0 ≤ n) (hn : n < a.ncomp) :
    ((xbx a).contains i j k →
      min (xFinal P a t i j k n).1 (xFinal P a t i j k n).2 ≤
          (ComputeEdgeState P a t e).xedge i j k n ∧
        (ComputeEdgeState P a t e).xedge i j k n ≤
          max (xFinal P a t i j k n).1 (xFinal P a t i j k n).2) ∧
    ((ybx a).contains i j k →
      min (yFinal P a t i j k n).1 (yFinal P a t i j k n).2 ≤
          (ComputeEdgeState P a t e).yedge i j k n ∧
        (ComputeEdgeState P a t e).yedge i j k n ≤
          max (yFinal P a t i j k n).1 (yFinal P a t i j k n).2) := by
  refine ⟨?_, ?_⟩
  · intro hc
    rw [xedge_eq P a t e i j k n hc hn0 hn]
    exact edgeUpwind_between _ _ _ _
  · intro hc
    rw [yedge_eq P a t e i j k n hc hn0 hn]
    exact edgeUpwind_between _ _ _ _

/-- Witness for C6: uniform `umac = 1`, `vmac = -1`; the x-face `(1,0)` takes its
low-side state and the y-face `(1,0)` its high-side state. -/
theorem edge_upwind_consistency_witness :
    (ComputeEdgeState demoPrimitives (demoEdgeInputs 1 (-1) BCType.int_dir) demoScratch
        demoEdges).xedge 1 0 0 0 =
      (xFinal demoPrimitives (demoEdgeInputs 1 (-1) BCType.int_dir) demoScratch 1 0 0 0).1 ∧
    (ComputeEdgeState demoPrimitives (demoEdgeInputs 1 (-1) BCType.int_dir) demoScratch
        demoEdges).yedge 1 0 0 0 =
      (yFinal demoPrimitives (demoEdgeInputs 1 (-1) BCType.int_dir) demoScratch 1 0 0 0).2 :=
  ⟨(edge_upwind_consistency demoPrimitives (demoEdgeInputs 1 (-1) BCType.int_dir) demoScratch
      demoEdges 1 0 0 0 (by norm_num [demoPrimitives]) (by decide) (by decide)).1
      (by decide) (by norm_num [demoPrimitives, demoEdgeInputs]),
    (edge_upwind_consistency demoPrimitives (demoEdgeInputs 1 (-1) BCType.int_dir) demoScratch
      demoEdges 1 0 0 0 (by norm_num [demoPrimitives]) (by decide) (by decide)).2.2.2
      (by decide) (by norm_num [demoPrimitives, demoEdgeInputs])⟩

/-- Witness for C7: face velocities `0` and `1e-9`, both below `small_vel = 1e-8`. -/
theorem edge_small_velocity_mean_witness :
    (ComputeEdgeState demoPrimitives (demoEdgeInputs 0 (1 / 1000000000) BCType.int_dir)
        demoScratch demoEdges).xedge 2 1 0 1 =
      0.5 * ((xFinal demoPrimitives (demoEdgeInputs 0 (1 / 1000000000) BCType.int_dir)
          demoScratch 2 1 0 1).1 +
        (xFinal demoPrimitives (demoEdgeInputs 0 (1 / 1000000000) BCType.int_dir)
          demoScratch 2 1 0 1).2) ∧
    (ComputeEdgeState demoPrimitives (demoEdgeInputs 0 (1 / 1000000000) BCType.int_dir)
        demoScratch demoEdges).yedge 0 2 0 1 =
      0.5 * ((yFinal demoPrimitives (demoEdgeInputs 0 (1 / 1000000000) BCType.int_dir)
          demoScratch 0 2 0 1).1 +
        (yFinal demoPrimitives (demoEdgeInputs 0 (1 / 1000000000) BCType.int_dir)
          demoScratch 0 2 0 1).2) :=
  ⟨(edge_small_velocity_mean demoPrimitives (demoEdgeInputs 0 (1 / 1000000000) BCType.int_dir)
      demoScratch demoEdges 2 1 0 1 (by decide) (by decide)).1
      (by decide) (by norm_num [demoPrimitives, demoEdgeInputs]),
    (edge_small_velocity_mean demoPrimitives (demoEdgeInputs 0 (1 / 1000000000) BCType.int_dir)
      demoScratch demoEdges 0 2 0 1 (by decide) (by decide)).2
      (by decide) (by norm_num [demoPrimitives, demoEdgeInputs, abs_of_pos])⟩

/-- Witness for C9 at the x-face `(1,0)` and the y-face `(0,1)`, `umac = 1`, `vmac = -1`. -/
theorem edge_between_donors_witness :
    (min (xFinal demoPrimitives (demoEdgeInputs 1 (-1) BCType.int_dir) demoScratch 1 0 0 0).1
          (xFinal demoPrimitives (demoEdgeInputs 1 (-1) BCType.int_dir) demoScratch 1 0 0 0).2 ≤
        (ComputeEdgeState demoPrimitives (demoEdgeInputs 1 (-1) BCType.int_dir) demoScratch
          demoEdges).xedge 1 0 0 0 ∧
      (ComputeEdgeState demoPrimitives (demoEdgeInputs 1 (-1) BCType.int_dir) demoScratch
          demoEdges).xedge 1 0 0 0 ≤
        max (xFinal demoPrimitives (demoEdgeInputs 1 (-1) BCType.int_dir) demoScratch 1 0 0 0).1
          (xFinal demoPrimitives (demoEdgeInputs 1 (-1) BCType.int_dir) demoScratch 1 0 0 0).2) ∧
    (xFinal demoPrimitives (demoEdgeInputs 1 (-1) BCType.int_dir) demoScratch 1 0 0 0).1 = 2 ∧
    (xFinal demoPrimitives (demoEdgeInputs 1 (-1) BCType.int_dir) demoScratch 1 0 0 0).2 = 1 := by
  refine ⟨(edge_between_donors demoPrimitives (demoEdgeInputs 1 (-1) BCType.int_dir) demoScratch
      demoEdges 1 0 0 0 (by decide) (by decide)).1 (by decide), ?_, ?_⟩
  · simp [ParallelFor, xFinal, extrapBlocks, xBC, xPre, xlo, xhi,
      yzlo, ylo, yhi, xTrans, yTrans, Imx1, Ipx1, Imy1, Ipy1, transUpwind, xbx, ybx, xebox,
      yebox, bxg1, yzloBox, dtdy, dy, dlo, dhi, demoPrimitives, demoEdgeInputs, demoScratch,
      Box.contains, Box.surroundingNodes, Box.growDir, Box.grow]
    norm_num
  · simp [ParallelFor, xFinal, extrapBlocks, xBC, xPre, xlo, xhi,
      yzlo, ylo, yhi, xTrans, yTrans, Imx1, Ipx1, Imy1, Ipy1, transUpwind, xbx, ybx, xebox,
      yebox, bxg1, yzloBox, dtdy, dy, dlo, dhi, demoPrimitives, demoEdgeInputs, demoScratch,
      Box.contains, Box.surroundingNodes, Box.growDir, Box.grow]
    norm_num

/-- Equal states are selected unchanged, whatever the velocity. -/
lemma edgeUpwind_same (sv vel s : ℚ) : edgeUpwind sv vel s s = s := by
  unfold edgeUpwind
  split_ifs <;> norm_num <;> ring

/-- Low block alone, directional velocity component, non-negative face velocity. -/
lemma extrapBlocks_lo (vel : ℚ) (st : ℚ × ℚ) (hv : vel ≥ 0) :
    extrapBlocks true false true vel st = (min st.2 0, min st.2 0) := by
  simp [extrapBlocks, hv]

/-- High block alone, directional velocity component, non-positive face velocity. -/
lemma extrapBlocks_hi (vel : ℚ) (st : ℚ × ℚ) (hv : vel ≤ 0) :
    extrapBlocks false true true vel st = (max st.1 0, max st.1 0) := by
  simp [extrapBlocks, hv]

/-- C10 (outward-characteristic clamp), for a non-empty domain and `is_velocity = true`.
At a face of `xbx` with `i = dlo.x`, low x policy `foextrap` or `hoextrap`,
`umac ≥ 0` and `n = XVEL`: the final high-side state is `min(sth, 0)`, the final
low-side state equals it, and `xedge = min(sth, 0) ≤ 0`. At `i = dhi.x + 1` with
`foextrap`/`hoextrap` high policy and `umac ≤ 0`: both final states are
`max(stl, 0)` and `xedge = max(stl, 0) ≥ 0`. The same two rules hold for `yedge`
at `j = dlo.y` and `j = dhi.y + 1` with `vmac` and `n = YVEL`. Here `stl`, `sth`
are the states returned by the edge boundary function. -/
theorem outward_characteristic_clamp (P : Primitives) (a : Inputs) (t : Scratch) (e : Edges)
    (i j k n : Int) (hok : a.geom.Domain.ok) (hn0 : 0 ≤ n) (hn : n < a.ncomp)
    (hvel : a.is_velocity = true) :
    ((xbx a).contains i j k → i = (dlo a).x →
      ((a.pbc n).lo 0 = BCType.foextrap ∨ (a.pbc n).lo 0 = BCType.hoextrap) →
      a.umac i j k 0 ≥ 0 → n = P.XVEL →
        (xFinal P a t i j k n).2 = min (xBC P a t i j k n).2 0 ∧
        (xFinal P a t i j k n).1 = (xFinal P a t i j k n).2 ∧
        (ComputeEdgeState P a t e).xedge i j k n = min (xBC P a t i j k n).2 0 ∧
        (ComputeEdgeState P a t e).xedge i j k n ≤ 0) ∧
    ((xbx a).contains i j k → i = (dhi a).x + 1 →
      ((a.pbc n).hi 0 = BCType.foextrap ∨ (a.pbc n).hi 0 = BCType.hoextrap) →
      a.umac i j k 0 ≤ 0 → n = P.XVEL →
        (xFinal P a t i j k n).1 = max (xBC P a t i j k n).1 0 ∧
        (xFinal P a t i j k n).2 = (xFinal P a t i j k n).1 ∧
        (ComputeEdgeState P a t e).xedge i j k n = max (xBC P a t i j k n).1 0 ∧
        0 ≤ (ComputeEdgeState P a t e).xedge i j k n) ∧
    ((ybx a).contains i j k → j = (dlo a).y →
      ((a.pbc n).lo 1 = BCType.foextrap ∨ (a.pbc n).lo 1 = BCType.hoextrap) →
      a.vmac i j k 0 ≥ 0 → n = P.YVEL →
        (yFinal P a t i j k n).2 = min (yBC P a t i j k n).2 0 ∧
        (yFinal P a t i j k n).1 = (yFinal P a t i j k n).2 ∧
        (ComputeEdgeState P a t e).yedge i j k n = min (yBC P a t i j k n).2 0 ∧
        (ComputeEdgeState P a t e).yedge i j k n ≤ 0) ∧
    ((ybx a).contains i j k → j = (dhi a).y + 1 →
      ((a.pbc n).hi 1 = BCType.foextrap ∨ (a.pbc n).hi 1 = BCType.hoextrap) →
      a.vmac i j k 0 ≤ 0 → n = P.YVEL →
        (yFinal P a t i j k n).1 = max (yBC P a t i j k n).1 0 ∧
        (yFinal P a t i j k n).2 = (yFinal P a t i j k n).1 ∧
        (ComputeEdgeState P a t e).yedge i j k n = max (yBC P a t i j k n).1 0 ∧
        0 ≤ (ComputeEdgeState P a t e).yedge i j k n) := by
  have hx : (dlo a).x ≤ (dhi a).x := hok.1
  have hy : (dlo a).y ≤ (dhi a).y := hok.2
  refine ⟨?_, ?_, ?_, ?_⟩
  · intro hc hi hbc hu hnv
    have hne : ¬ (i = (dhi a).x + 1) := by omega
    have hF : xFinal P a t i j k n = (min (xBC P a t i j k n).2 0, min (xBC P a t i j k n).2 0) := by
      have h1 : decide (i = (dlo a).x ∧
          ((a.pbc n).lo 0 = BCType.foextrap ∨ (a.pbc n).lo 0 = BCType.hoextrap)) = true :=
        decide_eq_true ⟨hi, hbc⟩
      have h2 : decide (i = (dhi a).x + 1 ∧
          ((a.pbc n).hi 0 = BCType.foextrap ∨ (a.pbc n).hi 0 = BCType.hoextrap)) = false :=
        decide_eq_false (fun h => hne h.1)
      have h3 : (decide (n = P.XVEL) && a.is_velocity) = true := by simp [hnv, hvel]
      unfold xFinal
      rw [h1, h2, h3]
      exact extrapBlocks_lo _ _ hu
    rw [xedge_eq P a t e i j k n hc hn0 hn, hF, edgeUpwind_same]
    exact ⟨rfl, rfl, rfl, min_le_right _ _⟩
  · intro hc hi hbc hu hnv
    have hne : ¬ (i = (dlo a).x) := by omega
    have hF : xFinal P a t i j k n = (max (xBC P a t i j k n).1 0, max (xBC P a t i j k n).1 0) := by
      have h1 : decide (i = (dlo a).x ∧
          ((a.pbc n).lo 0 = BCType.foextrap ∨ (a.pbc n).lo 0 = BCType.hoextrap)) = false :=
        decide_eq_false (fun h => hne h.1)
      have h2 : decide (i = (dhi a).x + 1 ∧
          ((a.pbc n).hi 0 = BCType.foextrap ∨ (a.pbc n).hi 0 = BCType.hoextrap)) = true :=
        decide_eq_true ⟨hi, hbc⟩
      have h3 : (decide (n = P.XVEL) && a.is_velocity) = true := by simp [hnv, hvel]
      unfold xFinal
      rw [h1, h2, h3]
      exact extrapBlocks_hi _ _ hu
    rw [xedge_eq P a t e i j k n hc hn0 hn, hF, edgeUpwind_same]
    exact ⟨rfl, rfl, rfl, le_max_right _ _⟩
  · intro hc hj hbc hu hnv
    have hne : ¬ (j = (dhi a).y + 1) := by omega
    have hF : yFinal P a t i j k n = (min (yBC P a t i j k n).2 0, min (yBC P a t i j k n).2 0) := by
      have h1 : decide (j = (dlo a).y ∧
          ((a.pbc n).lo 1 = BCType.foextrap ∨ (a.pbc n).lo 1 = BCType.hoextrap)) = true :=
        decide_eq_true ⟨hj, hbc⟩
      have h2 : decide (j = (dhi a).y + 1 ∧
          ((a.pbc n).hi 1 = BCType.foextrap ∨ (a.pbc n).hi 1 = BCType.hoextrap)) = false :=
        decide_eq_false (fun h => hne h.1)
      have h3 : (decide (n = P.YVEL) && a.is_velocity) = true := by simp [hnv, hvel]
      unfold yFinal
      rw [h1, h2, h3]
      exact extrapBlocks_lo _ _ hu
    rw [yedge_eq P a t e i j k n hc hn0 hn, hF, edgeUpwind_same]
    exact ⟨rfl, rfl, rfl, min_le_right _ _⟩
  · intro hc hj hbc hu hnv
    have hne : ¬ (j = (dlo a).y) := by omega
    have hF : yFinal P a t i j k n = (max (yBC P a t i j k n).1 0, max (yBC P a t i j k n).1 0) := by
      have h1 : decide (j = (dlo a).y ∧
          ((a.pbc n).lo 1 = BCType.foextrap ∨ (a.pbc n).lo 1 = BCType.hoextrap)) = false :=
        decide_eq_false (fun h => hne h.1)
      have h2 : decide (j = (dhi a).y + 1 ∧
          ((a.pbc n).hi 1 = BCType.foextrap ∨ (a.pbc n).hi 1 = BCType.hoextrap)) = true :=
        decide_eq_true ⟨hj, hbc⟩
      have h3 : (decide (n = P.YVEL) && a.is_velocity) = true := by simp [hnv, hvel]
      unfold yFinal
      rw [h1, h2, h3]
      exact extrapBlocks_hi _ _ hu
    rw [yedge_eq P a t e i j k n hc hn0 hn, hF, edgeUpwind_same]
    exact ⟨rfl, rfl, rfl, le_max_right _ _⟩

/-- Witness for C10 with `foextrap` on every side: at the low face `(0,0)` with
`umac = 1` the boundary function returned `sth = -1` and `xedge = min(-1, 0) = -1`;
at the high face `(2,0)` with `umac = -1` it returned `stl = 2` and
`xedge = max(2, 0) = 2`. -/
theorem outward_characteristic_clamp_witness :
    ((ComputeEdgeState demoPrimitives (demoEdgeInputs 1 0 BCType.foextrap) demoScratch
        demoEdges).xedge 0 0 0 0 =
      min (xBC demoPrimitives (demoEdgeInputs 1 0 BCType.foextrap) demoScratch 0 0 0 0).2 0 ∧
      (xBC demoPrimitives (demoEdgeInputs 1 0 BCType.foextrap) demoScratch 0 0 0 0).2 = -1) ∧
    ((ComputeEdgeState demoPrimitives (demoEdgeInputs (-1) 0 BCType.foextrap) demoScratch
        demoEdges).xedge 2 0 0 0 =
      max (xBC demoPrimitives (demoEdgeInputs (-1) 0 BCType.foextrap) demoScratch 2 0 0 0).1 0 ∧
      (xBC demoPrimitives (demoEdgeInputs (-1) 0 BCType.foextrap) demoScratch 2 0 0 0).1 = 2) := by
  refine ⟨⟨((outward_characteristic_clamp demoPrimitives (demoEdgeInputs 1 0 BCType.foextrap)
      demoScratch demoEdges 0 0 0 0 (by decide) (by decide) (by decide) rfl).1
      (by decide) rfl (Or.inl rfl) (by norm_num [demoEdgeInputs]) rfl).2.2.1, ?_⟩,
    ⟨((outward_characteristic_clamp demoPrimitives (demoEdgeInputs (-1) 0 BCType.foextrap)
      demoScratch demoEdges 2 0 0 0 (by decide) (by decide) (by decide) rfl).2.1
      (by decide) rfl (Or.inl rfl) (by norm_num [demoEdgeInputs]) rfl).2.2.1, ?_⟩⟩
  · simp [ParallelFor, xBC, xPre, xlo, xhi,
      yzlo, ylo, yhi, xTrans, yTrans, Imx1, Ipx1, Imy1, Ipy1, transUpwind, xbx, ybx, xebox,
      yebox, bxg1, yzloBox, dtdy, dy, dlo, dhi, demoPrimitives, demoEdgeInputs, demoScratch,
      Box.contains, Box.surroundingNodes, Box.growDir, Box.grow]
  · simp [ParallelFor, xBC, xPre, xlo, xhi,
      yzlo, ylo, yhi, xTrans, yTrans, Imx1, Ipx1, Imy1, Ipy1, transUpwind, xbx, ybx, xebox,
      yebox, bxg1, yzloBox, dtdy, dy, dlo, dhi, demoPrimitives, demoEdgeInputs, demoScratch,
      Box.contains, Box.surroundingNodes, Box.growDir, Box.grow]
    norm_num


/-- The value `yzlo` is the upwinding of the states of lines 171-174. -/
lemma yzlo_eq (P : Primitives) (a : Inputs) (t : Scratch) (i j k n : Int)
    (hc : (yzloBox a).contains i j k) (hn0 : 0 ≤ n) (hn : n < a.ncomp) :
    yzlo P a t i j k n =
      transUpwind P.small_vel (a.vmac i j k 0) (yzStates P a t i j k n).1
        (yzStates P a t i j k n).2 := by
  simp only [yzlo, ParallelFor, yzStates]
  rw [if_pos ⟨hc, hn0, hn⟩]

/-- The value `xzlo` is the upwinding of the states of lines 242-246. -/
lemma xzlo_eq (P : Primitives) (a : Inputs) (t : Scratch) (i j k n : Int)
    (hc : (xzloBox a).contains i j k) (hn0 : 0 ≤ n) (hn : n < a.ncomp) :
    xzlo P a t i j k n =
      transUpwind P.small_vel (a.umac i j k 0) (xzStates P a t i j k n).1
        (xzStates P a t i j k n).2 := by
  simp only [xzlo, ParallelFor, xzStates]
  rw [if_pos ⟨hc, hn0, hn⟩]

/-- Magnitude at or above the threshold: the transverse value is the upwind state. -/
lemma transUpwind_large (sv vel lo hi : ℚ) (h : ¬ |vel| < sv) :
    transUpwind sv vel lo hi = if vel ≥ 0 then lo else hi := by
  simp [transUpwind, h]

/-- Magnitude below the threshold: the transverse value is the mean. -/
lemma transUpwind_small (sv vel lo hi : ℚ) (h : |vel| < sv) :
    transUpwind sv vel lo hi = 0.5 * (lo + hi) := by
  simp only [transUpwind, h, if_true]
  ring

/-- The states before the edge boundary function are the states after the
conservative term plus the forcing of lines 205-209. -/
lemma xPre_eq (P : Primitives) (a : Inputs) (t : Scratch) (i j k n : Int) :
    xPre P a t i j k n =
      match a.fq with
      | some fq =>
        if ¬ a.use_forces_in_trans then
          ((xCons P a t i j k n).1 + 0.5 * a.l_dt * fq (i - 1) j k n,
            (xCons P a t i j k n).2 + 0.5 * a.l_dt * fq i j k n)
        else xCons P a t i j k n
      | none => xCons P a t i j k n := by
  rfl

/-- The states before the edge boundary function are the states after the
conservative term plus the forcing of lines 277-281. -/
lemma yPre_eq (P : Primitives) (a : Inputs) (t : Scratch) (i j k n : Int) :
    yPre P a t i j k n =
      match a.fq with
      | some fq =>
        if ¬ a.use_forces_in_trans then
          ((yCons P a t i j k n).1 + 0.5 * a.l_dt * fq i (j - 1) k n,
            (yCons P a t i j k n).2 + 0.5 * a.l_dt * fq i j k n)
        else yCons P a t i j k n
      | none => yCons P a t i j k n := by
  rfl


/-- C13 (as stated, refuted): uniform `umac = small_vel = 1e-8`, so the magnitude does
not exceed the threshold; at the face `(1,0)` of `Box(xzlo)` the two half-states
after the transverse boundary function are `lo = 1`, `hi = 0`, their mean is `1/2`,
and the code stores the upwind state `xzlo = 1`. -/
theorem transverse_upwind_counterexample :
    |(demoEdgeInputs (1 / 100000000) 0 BCType.int_dir).umac 1 0 0 0| ≤
      demoPrimitives.small_vel ∧
    (xzloBox (demoEdgeInputs (1 / 100000000) 0 BCType.int_dir)).contains 1 0 0 ∧
    (xzStates demoPrimitives (demoEdgeInputs (1 / 100000000) 0 BCType.int_dir)
      demoScratch 1 0 0 0).1 = 1 ∧
    (xzStates demoPrimitives (demoEdgeInputs (1 / 100000000) 0 BCType.int_dir)
      demoScratch 1 0 0 0).2 = 0 ∧
    xzlo demoPrimitives (demoEdgeInputs (1 / 100000000) 0 BCType.int_dir)
      demoScratch 1 0 0 0 = 1 ∧
    xzlo demoPrimitives (demoEdgeInputs (1 / 100000000) 0 BCType.int_dir)
        demoScratch 1 0 0 0 ≠
      0.5 * ((xzStates demoPrimitives (demoEdgeInputs (1 / 100000000) 0 BCType.int_dir)
          demoScratch 1 0 0 0).1 +
        (xzStates demoPrimitives (demoEdgeInputs (1 / 100000000) 0 BCType.int_dir)
          demoScratch 1 0 0 0).2) := by
  have h1 : (xzStates demoPrimitives (demoEdgeInputs (1 / 100000000) 0 BCType.int_dir)
      demoScratch 1 0 0 0).1 = 1 := by
    simp [xzStates, xlo, xhi, xTrans, Imx1, Ipx1, ParallelFor, xbx, xebox, bxg1,
      demoPrimitives, demoEdgeInputs, demoScratch, Box.contains, Box.surroundingNodes,
      Box.growDir, Box.grow]
  have h2 : (xzStates demoPrimitives (demoEdgeInputs (1 / 100000000) 0 BCType.int_dir)
      demoScratch 1 0 0 0).2 = 0 := by
    simp [xzStates, xlo, xhi, xTrans, Imx1, Ipx1, ParallelFor, xbx, xebox, bxg1,
      demoPrimitives, demoEdgeInputs, demoScratch, Box.contains, Box.surroundingNodes,
      Box.growDir, Box.grow]
  have h3 : xzlo demoPrimitives (demoEdgeInputs (1 / 100000000) 0 BCType.int_dir)
      demoScratch 1 0 0 0 = 1 := by
    have habs : |(1 / 100000000 : ℚ)| = 1 / 100000000 := abs_of_pos (by norm_num)
    rw [xzlo_eq _ _ _ _ _ _ _ (by decide) (by decide) (by decide), h1, h2]
    norm_num [transUpwind, demoPrimitives, demoEdgeInputs, habs]
  refine ⟨?_, by decide, h1, h2, h3, ?_⟩
  · norm_num [demoPrimitives, demoEdgeInputs, abs_of_pos]
  · rw [h3, h1, h2]
    norm_num

/-- C13 (amended): in `Godunov::ComputeEdgeState`, for every transverse face and
component `0 ≤ n < ncomp`, with `lo`, `hi` the two half-states after the transverse
boundary function, the upwinded transverse value (`yzlo` with `vmac`, `xzlo` with
`umac`, and the values stored back into `Imx`, `Imy` in the first pass) equals the
upwind half-state (`lo` if the face velocity is `≥ 0`, `hi` otherwise) when the
velocity magnitude is at least `small_vel`, and the mean `0.5 * (lo + hi)` when the
magnitude is strictly below `small_vel`. -/
theorem transverse_upwind_rule (P : Primitives) (a : Inputs) (t : Scratch)
    (i j k n : Int) (hn0 : 0 ≤ n) (hn : n < a.ncomp) :
    ((yzloBox a).contains i j k →
      (¬ |a.vmac i j k 0| < P.small_vel →
        yzlo P a t i j k n = if a.vmac i j k 0 ≥ 0 then (yzStates P a t i j k n).1
          else (yzStates P a t i j k n).2) ∧
      (|a.vmac i j k 0| < P.small_vel →
        yzlo P a t i j k n =
          0.5 * ((yzStates P a t i j k n).1 + (yzStates P a t i j k n).2))) ∧
    ((xzloBox a).contains i j k →
      (¬ |a.umac i j k 0| < P.small_vel →
        xzlo P a t i j k n = if a.umac i j k 0 ≥ 0 then (xzStates P a t i j k n).1
          else (xzStates P a t i j k n).2) ∧
      (|a.umac i j k 0| < P.small_vel →
        xzlo P a t i j k n =
          0.5 * ((xzStates P a t i j k n).1 + (xzStates P a t i j k n).2))) ∧
    ((xebox a).contains i j k →
      (¬ |a.umac i j k 0| < P.small_vel →
        Imx2 P a t i j k n = if a.umac i j k 0 ≥ 0 then (xTrans P a t i j k n).1
          else (xTrans P a t i j k n).2) ∧
      (|a.umac i j k 0| < P.small_vel →
        Imx2 P a t i j k n =
          0.5 * ((xTrans P a t i j k n).1 + (xTrans P a t i j k n).2))) ∧
    ((yebox a).contains i j k →
      (¬ |a.vmac i j k 0| < P.small_vel →
        Imy2 P a t i j k n = if a.vmac i j k 0 ≥ 0 then (yTrans P a t i j k n).1
          else (yTrans P a t i j k n).2) ∧
      (|a.vmac i j k 0| < P.small_vel →
        Imy2 P a t i j k n =
          0.5 * ((yTrans P a t i j k n).1 + (yTrans P a t i j k n).2))) := by
  refine ⟨?_, ?_, ?_, ?_⟩
  · intro hc
    rw [yzlo_eq P a t i j k n hc hn0 hn]
    exact ⟨transUpwind_large _ _ _ _, transUpwind_small _ _ _ _⟩
  · intro hc
    rw [xzlo_eq P a t i j k n hc hn0 hn]
    exact ⟨transUpwind_large _ _ _ _, transUpwind_small _ _ _ _⟩
  · intro hc
    have h : Imx2 P a t i j k n = transUpwind P.small_vel (a.umac i j k 0)
        (xTrans P a t i j k n).1 (xTrans P a t i j k n).2 := by
      simp only [Imx2, ParallelFor]
      rw [if_pos ⟨hc, hn0, hn⟩]
    rw [h]
    exact ⟨transUpwind_large _ _ _ _, transUpwind_small _ _ _ _⟩
  · intro hc
    have h : Imy2 P a t i j k n = transUpwind P.small_vel (a.vmac i j k 0)
        (yTrans P a t i j k n).1 (yTrans P a t i j k n).2 := by
      simp only [Imy2, ParallelFor]
      rw [if_pos ⟨hc, hn0, hn⟩]
    rw [h]
    exact ⟨transUpwind_large _ _ _ _, transUpwind_small _ _ _ _⟩

/-- Witness for C13 (amended): `umac = 1e-8 = small_vel` upwinds to `lo` at the face
`(1,0)` of `Box(xzlo)`. -/
theorem transverse_upwind_rule_witness :
    xzlo demoPrimitives (demoEdgeInputs (1 / 100000000) 0 BCType.int_dir) demoScratch 1 0 0 0 =
      if (demoEdgeInputs (1 / 100000000) 0 BCType.int_dir).umac 1 0 0 0 ≥ 0 then
        (xzStates demoPrimitives (demoEdgeInputs (1 / 100000000) 0 BCType.int_dir)
          demoScratch 1 0 0 0).1
      else
        (xzStates demoPrimitives (demoEdgeInputs (1 / 100000000) 0 BCType.int_dir)
          demoScratch 1 0 0 0).2 :=
  ((transverse_upwind_rule demoPrimitives (demoEdgeInputs (1 / 100000000) 0 BCType.int_dir)
    demoScratch 1 0 0 0 (by decide) (by decide)).2.1 (by decide)).1
    (by norm_num [demoPrimitives, demoEdgeInputs, abs_of_pos])


/-- Without the conservative flag the states before the edge boundary function do
not depend on `divu` (x-faces). -/
lemma xPre_divu (P : Primitives) (a : Inputs) (t : Scratch) (d : Array4 ℚ) (i j k n : Int)
    (h : a.iconserv n = 0) : xPre P { a with divu := d } t i j k n = xPre P a t i j k n := by
  have e1 : xAdv P { a with divu := d } t i j k n = xAdv P a t i j k n := rfl
  rw [xPre_eq, xPre_eq]
  simp only [xCons, e1, h, ne_eq, not_true_eq_false, if_false]

/-- Without the conservative flag the states before the edge boundary function do
not depend on `divu` (y-faces). -/
lemma yPre_divu (P : Primitives) (a : Inputs) (t : Scratch) (d : Array4 ℚ) (i j k n : Int)
    (h : a.iconserv n = 0) : yPre P { a with divu := d } t i j k n = yPre P a t i j k n := by
  have e1 : yAdv P { a with divu := d } t i j k n = yAdv P a t i j k n := rfl
  rw [yPre_eq, yPre_eq]
  simp only [yCons, e1, h, ne_eq, not_true_eq_false, if_false]

/-- C16: in `Godunov::ComputeEdgeState` the conservative-form step adds to the low-side
state of a normal face `-0.5 * dt * q(donor-low, n) * divu(donor-low)` if
`iconserv[n] != 0` and `0` otherwise, likewise to the high-side state with the high
donor cell, and the states handed to the edge boundary function are these plus the
forcing step; for a component with `iconserv[n] = 0`, `xedge(., n)` and
`yedge(., n)` are the same for any two `divu` fields. -/
theorem conservative_correction (P : Primitives) (a : Inputs) (t : Scratch) (e : Edges)
    (i j k n : Int) :
    ((xCons P a t i j k n).1 - (xAdv P a t i j k n).1 =
        (if a.iconserv n ≠ 0 then -0.5 * a.l_dt * a.q (i - 1) j k n * a.divu (i - 1) j k 0
          else 0) ∧
      (xCons P a t i j k n).2 - (xAdv P a t i j k n).2 =
        (if a.iconserv n ≠ 0 then -0.5 * a.l_dt * a.q i j k n * a.divu i j k 0 else 0) ∧
      (yCons P a t i j k n).1 - (yAdv P a t i j k n).1 =
        (if a.iconserv n ≠ 0 then -0.5 * a.l_dt * a.q i (j - 1) k n * a.divu i (j - 1) k 0
          else 0) ∧
      (yCons P a t i j k n).2 - (yAdv P a t i j k n).2 =
        (if a.iconserv n ≠ 0 then -0.5 * a.l_dt * a.q i j k n * a.divu i j k 0 else 0)) ∧
    (xPre P a t i j k n =
        (match a.fq with
        | some fq =>
          if ¬ a.use_forces_in_trans then
            ((xCons P a t i j k n).1 + 0.5 * a.l_dt * fq (i - 1) j k n,
              (xCons P a t i j k n).2 + 0.5 * a.l_dt * fq i j k n)
          else xCons P a t i j k n
        | none => xCons P a t i j k n) ∧
      yPre P a t i j k n =
        (match a.fq with
        | some fq =>
          if ¬ a.use_forces_in_trans then
            ((yCons P a t i j k n).1 + 0.5 * a.l_dt * fq i (j - 1) k n,
              (yCons P a t i j k n).2 + 0.5 * a.l_dt * fq i j k n)
          else yCons P a t i j k n
        | none => yCons P a t i j k n)) ∧
    (a.iconserv n = 0 → ∀ d1 d2 : Array4 ℚ,
      (ComputeEdgeState P { a with divu := d1 } t e).xedge i j k n =
          (ComputeEdgeState P { a with divu := d2 } t e).xedge i j k n ∧
        (ComputeEdgeState P { a with divu := d1 } t e).yedge i j k n =
          (ComputeEdgeState P { a with divu := d2 } t e).yedge i j k n) := by
  refine ⟨⟨?_, ?_, ?_, ?_⟩, ⟨xPre_eq P a t i j k n, yPre_eq P a t i j k n⟩, ?_⟩
  · simp [xCons]
  · simp [xCons]
  · simp [yCons]
  · simp [yCons]
  · intro h d1 d2
    have hx : ∀ d : Array4 ℚ,
        xFinal P { a with divu := d } t i j k n = xFinal P a t i j k n := by
      intro d
      have := xPre_divu P a t d i j k n h
      simp only [xFinal, xBC, this]
      rfl
    have hy : ∀ d : Array4 ℚ,
        yFinal P { a with divu := d } t i j k n = yFinal P a t i j k n := by
      intro d
      have := yPre_divu P a t d i j k n h
      simp only [yFinal, yBC, this]
      rfl
    constructor
    · simp only [ComputeEdgeState, ParallelFor, hx]
      rfl
    · simp only [ComputeEdgeState, ParallelFor, hy]
      rfl


/-- Witness for C16: component `0` is not conservative in the demonstration inputs,
and the edge states for `divu = 5` and `divu = -3` agree at the face `(1,1)`. -/
theorem conservative_correction_witness :
    (ComputeEdgeState demoPrimitives
        { demoEdgeInputs 1 (-1) BCType.int_dir with divu := fun _ _ _ _ => 5 }
        demoScratch demoEdges).xedge 1 1 0 0 =
      (ComputeEdgeState demoPrimitives
        { demoEdgeInputs 1 (-1) BCType.int_dir with divu := fun _ _ _ _ => -3 }
        demoScratch demoEdges).xedge 1 1 0 0 :=
  ((conservative_correction demoPrimitives (demoEdgeInputs 1 (-1) BCType.int_dir) demoScratch
    demoEdges 1 1 0 0).2.2 rfl (fun _ _ _ _ => 5) (fun _ _ _ _ => -3)).1

/-- A face of `xbx` is a face of `xebox`. -/
lemma xbx_sub_xebox (a : Inputs) (i j k : Int) (h : (xbx a).contains i j k) :
    (xebox a).contains i j k := by
  simp only [xebox, xbx, Box.contains, Box.surroundingNodes, Box.growDir] at h ⊢
  simp only [if_true] at h ⊢
  norm_num at h ⊢
  omega

/-- A face of `ybx` is a face of `yebox`. -/
lemma ybx_sub_yebox (a : Inputs) (i j k : Int) (h : (ybx a).contains i j k) :
    (yebox a).contains i j k := by
  simp only [yebox, ybx, Box.contains, Box.surroundingNodes, Box.growDir] at h ⊢
  norm_num at h ⊢
  omega


/-- The x half-states of the transverse pass when a forcing array is supplied and
the transverse boundary function changes nothing. -/
lemma xTrans_of_id (P : Primitives) (a : Inputs) (t : Scratch) (f : Array4 ℚ)
    (i j k n : Int)
    (hX : ∀ i j k n q lo hi bl bh dl dh v,
      P.SetTransTermXBCs i j k n q lo hi bl bh dl dh v = (lo, hi))
    (hfq : a.fq = some f) :
    xTrans P a t i j k n =
      if a.use_forces_in_trans then
        (Ipx1 P a t (i - 1) j k n + 0.5 * a.l_dt * f (i - 1) j k n,
          Imx1 P a t i j k n + 0.5 * a.l_dt * f i j k n)
      else (Ipx1 P a t (i - 1) j k n, Imx1 P a t i j k n) := by
  simp only [xTrans, hfq, hX]

/-- The y half-states of the transverse pass when a forcing array is supplied and
the transverse boundary function changes nothing. -/
lemma yTrans_of_id (P : Primitives) (a : Inputs) (t : Scratch) (f : Array4 ℚ)
    (i j k n : Int)
    (hY : ∀ i j k n q lo hi bl bh dl dh v,
      P.SetTransTermYBCs i j k n q lo hi bl bh dl dh v = (lo, hi))
    (hfq : a.fq = some f) :
    yTrans P a t i j k n =
      if a.use_forces_in_trans then
        (Ipy1 P a t i (j - 1) k n + 0.5 * a.l_dt * f i (j - 1) k n,
          Imy1 P a t i j k n + 0.5 * a.l_dt * f i j k n)
      else (Ipy1 P a t i (j - 1) k n, Imy1 P a t i j k n) := by
  simp only [yTrans, hfq, hY]

/-- C17: when `fq` is supplied and the transverse boundary functions leave the states
unchanged, then for `use_forces_in_trans` true and false alike the low-side state of
an x-face of `xbx` before the edge boundary function is
`Ipx(i-1,j,k,n) + 0.5*dt*fq(i-1,j,k,n) - (0.5*dt/dy)*(yzlo(i-1,j+1,k,n)*vmac(i-1,j+1,k)
- yzlo(i-1,j,k,n)*vmac(i-1,j,k)) + (0.5*dt/dy)*q(i-1,j,k,n)*(vmac(i-1,j+1,k) -
vmac(i-1,j,k))` plus the conservative term, the high-side state is the same
expression with `Imx(i,j,k,n)` and the donor cell `i`, and the symmetric equations
hold on the y-faces of `ybx`: the forcing enters each state exactly once. -/
theorem forcing_enters_once (P : Primitives) (a : Inputs) (t : Scratch) (f : Array4 ℚ)
    (i j k n : Int)
    (hX : ∀ i j k n q lo hi bl bh dl dh v,
      P.SetTransTermXBCs i j k n q lo hi bl bh dl dh v = (lo, hi))
    (hY : ∀ i j k n q lo hi bl bh dl dh v,
      P.SetTransTermYBCs i j k n q lo hi bl bh dl dh v = (lo, hi))
    (hfq : a.fq = some f) (hn0 : 0 ≤ n) (hn : n < a.ncomp) :
    ((xbx a).contains i j k →
      (xPre P a t i j k n).1 =
          Ipx1 P a t (i - 1) j k n + 0.5 * a.l_dt * f (i - 1) j k n
            - (0.5 * a.l_dt / dy a) *
                (yzlo P a t (i - 1) (j + 1) k n * a.vmac (i - 1) (j + 1) k 0
                  - yzlo P a t (i - 1) j k n * a.vmac (i - 1) j k 0)
            + (0.5 * a.l_dt / dy a) * a.q (i - 1) j k n *
                (a.vmac (i - 1) (j + 1) k 0 - a.vmac (i - 1) j k 0)
            + (if a.iconserv n ≠ 0 then
                -0.5 * a.l_dt * a.q (i - 1) j k n * a.divu (i - 1) j k 0 else 0) ∧
        (xPre P a t i j k n).2 =
          Imx1 P a t i j k n + 0.5 * a.l_dt * f i j k n
            - (0.5 * a.l_dt / dy a) *
                (yzlo P a t i (j + 1) k n * a.vmac i (j + 1) k 0
                  - yzlo P a t i j k n * a.vmac i j k 0)
            + (0.5 * a.l_dt / dy a) * a.q i j k n *
                (a.vmac i (j + 1) k 0 - a.vmac i j k 0)
            + (if a.iconserv n ≠ 0 then
                -0.5 * a.l_dt * a.q i j k n * a.divu i j k 0 else 0)) ∧
    ((ybx a).contains i j k →
      (yPre P a t i j k n).1 =
          Ipy1 P a t i (j - 1) k n + 0.5 * a.l_dt * f i (j - 1) k n
            - (0.5 * a.l_dt / dx a) *
                (xzlo P a t (i + 1) (j - 1) k n * a.umac (i + 1) (j - 1) k 0
                  - xzlo P a t i (j - 1) k n * a.umac i (j - 1) k 0)
            + (0.5 * a.l_dt / dx a) * a.q i (j - 1) k n *
                (a.umac (i + 1) (j - 1) k 0 - a.umac i (j - 1) k 0)
            + (if a.iconserv n ≠ 0 then
                -0.5 * a.l_dt * a.q i (j - 1) k n * a.divu i (j - 1) k 0 else 0) ∧
        (yPre P a t i j k n).2 =
          Imy1 P a t i j k n + 0.5 * a.l_dt * f i j k n
            - (0.5 * a.l_dt / dx a) *
                (xzlo P a t (i + 1) j k n * a.umac (i + 1) j k 0
                  - xzlo P a t i j k n * a.umac i j k 0)
            + (0.5 * a.l_dt / dx a) * a.q i j k n *
                (a.umac (i + 1) j k 0 - a.umac i j k 0)
            + (if a.iconserv n ≠ 0 then
                -0.5 * a.l_dt * a.q i j k n * a.divu i j k 0 else 0)) := by
  constructor
  · intro hc
    have hl : xlo P a t i j k n = (xTrans P a t i j k n).1 := by
      simp only [xlo, ParallelFor]
      rw [if_pos ⟨xbx_sub_xebox a i j k hc, hn0, hn⟩]
    have hh : xhi P a t i j k n = (xTrans P a t i j k n).2 := by
      simp only [xhi, ParallelFor]
      rw [if_pos ⟨xbx_sub_xebox a i j k hc, hn0, hn⟩]
    rw [xPre_eq, hfq]
    simp only [xCons, xAdv, hl, hh, xTrans_of_id P a t f i j k n hX hfq, dtdy]
    cases a.use_forces_in_trans <;> simp <;> constructor <;> ring
  · intro hc
    have hl : ylo P a t i j k n = (yTrans P a t i j k n).1 := by
      simp only [ylo, ParallelFor]
      rw [if_pos ⟨ybx_sub_yebox a i j k hc, hn0, hn⟩]
    have hh : yhi P a t i j k n = (yTrans P a t i j k n).2 := by
      simp only [yhi, ParallelFor]
      rw [if_pos ⟨ybx_sub_yebox a i j k hc, hn0, hn⟩]
    rw [yPre_eq, hfq]
    simp only [yCons, yAdv, hl, hh, yTrans_of_id P a t f i j k n hY hfq, dtdx]
    cases a.use_forces_in_trans <;> simp <;> constructor <;> ring


/-- Witness for C17: forcing `fq = 4`, `dt = 1`, `vmac = 0`, at the x-face `(1,0)`
where `Ipx(0,0) = 1`; with the forcing applied in the transverse pass or in the
normal pass the low-side state before the edge boundary function is `1 + 2`. -/
theorem forcing_enters_once_witness :
    (xPre demoPrimitives
        { demoEdgeInputs 1 0 BCType.int_dir with
          fq := some (fun _ _ _ _ => 4), use_forces_in_trans := true }
        demoScratch 1 0 0 0).1 = 3 ∧
    (xPre demoPrimitives
        { demoEdgeInputs 1 0 BCType.int_dir with
          fq := some (fun _ _ _ _ => 4), use_forces_in_trans := false }
        demoScratch 1 0 0 0).1 = 3 := by
  have h1 := ((forcing_enters_once demoPrimitives
    { demoEdgeInputs 1 0 BCType.int_dir with
      fq := some (fun _ _ _ _ => 4), use_forces_in_trans := true }
    demoScratch (fun _ _ _ _ => 4) 1 0 0 0 (fun _ _ _ _ _ _ _ _ _ _ _ _ => rfl)
    (fun _ _ _ _ _ _ _ _ _ _ _ _ => rfl) rfl (by decide) (by decide)).1 (by decide)).1
  have h2 := ((forcing_enters_once demoPrimitives
    { demoEdgeInputs 1 0 BCType.int_dir with
      fq := some (fun _ _ _ _ => 4), use_forces_in_trans := false }
    demoScratch (fun _ _ _ _ => 4) 1 0 0 0 (fun _ _ _ _ _ _ _ _ _ _ _ _ => rfl)
    (fun _ _ _ _ _ _ _ _ _ _ _ _ => rfl) rfl (by decide) (by decide)).1 (by decide)).1
  constructor
  · rw [h1]
    simp [Ipx1, ParallelFor, bxg1, demoPrimitives, demoEdgeInputs, Box.contains, Box.grow]
    norm_num
  · rw [h2]
    simp [Ipx1, ParallelFor, bxg1, demoPrimitives, demoEdgeInputs, Box.contains, Box.grow]
    norm_num


/-- A forcing array of zeros leaves the x half-states of the transverse pass as
they are without forcing. -/
lemma xTrans_fq_zero (P : Primitives) (a : Inputs) (t : Scratch) :
    xTrans P { a with fq := some (fun _ _ _ _ => 0) } t = xTrans P { a with fq := none } t := by
  funext i j k n
  have e1 : Ipx1 P { a with fq := some (fun _ _ _ _ => 0) } t = Ipx1 P { a with fq := none } t :=
    rfl
  have e2 : Imx1 P { a with fq := some (fun _ _ _ _ => 0) } t = Imx1 P { a with fq := none } t :=
    rfl
  simp only [xTrans, e1, e2, mul_zero, add_zero, ite_self]
  rfl

/-- A forcing array of zeros leaves the y half-states of the transverse pass as
they are without forcing. -/
lemma yTrans_fq_zero (P : Primitives) (a : Inputs) (t : Scratch) :
    yTrans P { a with fq := some (fun _ _ _ _ => 0) } t = yTrans P { a with fq := none } t := by
  funext i j k n
  have e1 : Ipy1 P { a with fq := some (fun _ _ _ _ => 0) } t = Ipy1 P { a with fq := none } t :=
    rfl
  have e2 : Imy1 P { a with fq := some (fun _ _ _ _ => 0) } t = Imy1 P { a with fq := none } t :=
    rfl
  simp only [yTrans, e1, e2, mul_zero, add_zero, ite_self]
  rfl

/-- With a forcing array of zeros the states before the edge boundary function are
those without forcing. -/
lemma pre_fq_zero (P : Primitives) (a : Inputs) (t : Scratch) :
    xPre P { a with fq := some (fun _ _ _ _ => 0) } t = xPre P { a with fq := none } t ∧
    yPre P { a with fq := some (fun _ _ _ _ => 0) } t = yPre P { a with fq := none } t := by
  have hx := xTrans_fq_zero P a t
  have hy := yTrans_fq_zero P a t
  have e1 : xlo P { a with fq := some (fun _ _ _ _ => 0) } t = xlo P { a with fq := none } t := by
    simp only [xlo, hx]
    rfl
  have e2 : xhi P { a with fq := some (fun _ _ _ _ => 0) } t = xhi P { a with fq := none } t := by
    simp only [xhi, hx]
    rfl
  have e3 : ylo P { a with fq := some (fun _ _ _ _ => 0) } t = ylo P { a with fq := none } t := by
    simp only [ylo, hy]
    rfl
  have e4 : yhi P { a with fq := some (fun _ _ _ _ => 0) } t = yhi P { a with fq := none } t := by
    simp only [yhi, hy]
    rfl
  have e5 : yzlo P { a with fq := some (fun _ _ _ _ => 0) } t =
      yzlo P { a with fq := none } t := by
    simp only [yzlo, e3, e4]
    rfl
  have e6 : xzlo P { a with fq := some (fun _ _ _ _ => 0) } t =
      xzlo P { a with fq := none } t := by
    simp only [xzlo, e1, e2]
    rfl
  constructor
  · funext i j k n
    simp only [xPre, e1, e2, e5, mul_zero, add_zero, ite_self]
    rfl
  · funext i j k n
    simp only [yPre, e3, e4, e6, mul_zero, add_zero, ite_self]
    rfl

/-- C18: `Godunov::ComputeEdgeState` called without a forcing array (`fq` null)
returns the same `xedge` and `yedge` as when called with a forcing array that is
identically `0`, all other inputs being equal, for either value of
`use_forces_in_trans`. -/
theorem absent_forcing_is_zero (P : Primitives) (a : Inputs) (t : Scratch) (e : Edges) :
    ComputeEdgeState P { a with fq := none } t e =
      ComputeEdgeState P { a with fq := some (fun _ _ _ _ => 0) } t e := by
  obtain ⟨hx, hy⟩ := pre_fq_zero P a t
  have fx : xFinal P { a with fq := some (fun _ _ _ _ => 0) } t =
      xFinal P { a with fq := none } t := by
    funext i j k n
    simp only [xFinal, xBC, hx]
    rfl
  have fy : yFinal P { a with fq := some (fun _ _ _ _ => 0) } t =
      yFinal P { a with fq := none } t := by
    funext i j k n
    simp only [yFinal, yBC, hy]
    rfl
  simp only [ComputeEdgeState, fx, fy]
  rfl


/-- The directional box operations at the directions `0` and `1`. -/
lemma box_dir_ops (b : Box) (n : Int) :
    b.growDir 0 n = ⟨⟨b.smallend.x - n, b.smallend.y⟩, ⟨b.bigend.x + n, b.bigend.y⟩⟩ ∧
    b.growDir 1 n = ⟨⟨b.smallend.x, b.smallend.y - n⟩, ⟨b.bigend.x, b.bigend.y + n⟩⟩ ∧
    b.surroundingNodes 0 = ⟨b.smallend, ⟨b.bigend.x + 1, b.bigend.y⟩⟩ ∧
    b.surroundingNodes 1 = ⟨b.smallend, ⟨b.bigend.x, b.bigend.y + 1⟩⟩ := by
  simp [Box.growDir, Box.surroundingNodes]

/-- Membership in the boxes of the transposed problem. -/
lemma transposed_boxes (σ : Int → Int) (a : Inputs) (i j k : Int) :
    ((bxg1 (transposeInputs σ a)).contains i j k ↔ (bxg1 a).contains j i k) ∧
    ((xbx (transposeInputs σ a)).contains i j k ↔ (ybx a).contains j i k) ∧
    ((ybx (transposeInputs σ a)).contains i j k ↔ (xbx a).contains j i k) ∧
    ((xebox (transposeInputs σ a)).contains i j k ↔ (yebox a).contains j i k) ∧
    ((yebox (transposeInputs σ a)).contains i j k ↔ (xebox a).contains j i k) ∧
    ((yzloBox (transposeInputs σ a)).contains i j k ↔ (xzloBox a).contains j i k) ∧
    ((xzloBox (transposeInputs σ a)).contains i j k ↔ (yzloBox a).contains j i k) := by
  simp only [bxg1, xbx, ybx, xebox, yebox, yzloBox, xzloBox, transposeInputs, transposeBox,
    Box.contains, Box.grow, (box_dir_ops _ _).1, (box_dir_ops _ _).2.1,
    (box_dir_ops _ 0).2.2.1, (box_dir_ops _ 0).2.2.2]
  omega

/-- The boxes of the passes are nested as the reads require. -/
lemma box_nesting (a : Inputs) (i j k : Int) :
    ((xebox a).contains i j k → (bxg1 a).contains i j k ∧ (bxg1 a).contains (i - 1) j k) ∧
    ((yebox a).contains i j k → (bxg1 a).contains i j k ∧ (bxg1 a).contains i (j - 1) k) ∧
    ((yzloBox a).contains i j k → (yebox a).contains i j k) ∧
    ((xzloBox a).contains i j k → (xebox a).contains i j k) ∧
    ((xbx a).contains i j k →
      (xebox a).contains i j k ∧ (yzloBox a).contains (i - 1) (j + 1) k ∧
        (yzloBox a).contains (i - 1) j k ∧ (yzloBox a).contains i (j + 1) k ∧
        (yzloBox a).contains i j k) ∧
    ((ybx a).contains i j k →
      (yebox a).contains i j k ∧ (xzloBox a).contains (i + 1) (j - 1) k ∧
        (xzloBox a).contains i (j - 1) k ∧ (xzloBox a).contains (i + 1) j k ∧
        (xzloBox a).contains i j k) := by
  simp only [bxg1, xbx, ybx, xebox, yebox, yzloBox, xzloBox,
    Box.contains, Box.grow, (box_dir_ops _ _).1, (box_dir_ops _ _).2.1,
    (box_dir_ops _ 0).2.2.1, (box_dir_ops _ 0).2.2.2]
  omega


/-- Values of the reconstruction arrays on the parabolic branch. -/
lemma recon_ppm (P : Primitives) (b : Inputs) (t : Scratch) (i j k n : Int)
    (h : b.use_ppm = true) (hc : (bxg1 b).contains i j k) (hn0 : 0 ≤ n) (hn : n < b.ncomp) :
    Imx1 P b t i j k n = (P.PPM_PredictStateOnXFace i j k n b.l_dt (dx b) b.q b.umac (b.pbc n)
      (dlo b).x (dhi b).x).1 ∧
    Ipx1 P b t i j k n = (P.PPM_PredictStateOnXFace i j k n b.l_dt (dx b) b.q b.umac (b.pbc n)
      (dlo b).x (dhi b).x).2 ∧
    Imy1 P b t i j k n = (P.PPM_PredictStateOnYFace i j k n b.l_dt (dy b) b.q b.vmac (b.pbc n)
      (dlo b).y (dhi b).y).1 ∧
    Ipy1 P b t i j k n = (P.PPM_PredictStateOnYFace i j k n b.l_dt (dy b) b.q b.vmac (b.pbc n)
      (dlo b).y (dhi b).y).2 := by
  simp [Imx1, Ipx1, Imy1, Ipy1, h, ParallelFor, hc, hn0, hn]

/-- Values of the x reconstruction arrays on the linear branch, written from the
face `(i,j,k)` of `xebox`. -/
lemma recon_plm_x (P : Primitives) (b : Inputs) (t : Scratch) (i j k n : Int)
    (h : b.use_ppm = false) (hc : (xebox b).contains i j k) (hn0 : 0 ≤ n) (hn : n < b.ncomp) :
    Imx1 P b t i j k n = (P.PLM_PredictStateOnXFace i j k n b.l_dt (dx b) b.q (b.umac i j k 0)
      (b.pbc n) (dlo b).x (dhi b).x b.is_velocity).1 ∧
    Ipx1 P b t (i - 1) j k n = (P.PLM_PredictStateOnXFace i j k n b.l_dt (dx b) b.q
      (b.umac i j k 0) (b.pbc n) (dlo b).x (dhi b).x b.is_velocity).2 := by
  simp [Imx1, Ipx1, h, ParallelFor, hc, hn0, hn]

/-- Values of the y reconstruction arrays on the linear branch, written from the
face `(i,j,k)` of `yebox`. -/
lemma recon_plm_y (P : Primitives) (b : Inputs) (t : Scratch) (i j k n : Int)
    (h : b.use_ppm = false) (hc : (yebox b).contains i j k) (hn0 : 0 ≤ n) (hn : n < b.ncomp) :
    Imy1 P b t i j k n = (P.PLM_PredictStateOnYFace i j k n b.l_dt (dy b) b.q (b.vmac i j k 0)
      (b.pbc n) (dlo b).y (dhi b).y b.is_velocity).1 ∧
    Ipy1 P b t i (j - 1) k n = (P.PLM_PredictStateOnYFace i j k n b.l_dt (dy b) b.q
      (b.vmac i j k 0) (b.pbc n) (dlo b).y (dhi b).y b.is_velocity).2 := by
  simp [Imy1, Ipy1, h, ParallelFor, hc, hn0, hn]

/-- Transposition of the reconstruction stage: on the faces the transverse pass
reads, the x arrays of the transposed problem are the y arrays of the original, and
conversely. -/
lemma recon_transposed (σ : Int → Int) (P P' : Primitives) (a : Inputs) (t t' : Scratch)
    (hP : Transposed σ P P')
    (hr : ∀ n, 0 ≤ n → n < a.ncomp → 0 ≤ σ n ∧ σ n < a.ncomp)
    (i j k n : Int) (hn0 : 0 ≤ n) (hn : n < a.ncomp) :
    ((xebox (transposeInputs σ a)).contains i j k →
      Imx1 P' (transposeInputs σ a) t' i j k n = Imy1 P a t j i k (σ n) ∧
      Ipx1 P' (transposeInputs σ a) t' (i - 1) j k n = Ipy1 P a t j (i - 1) k (σ n)) ∧
    ((yebox (transposeInputs σ a)).contains i j k →
      Imy1 P' (transposeInputs σ a) t' i j k n = Imx1 P a t j i k (σ n) ∧
      Ipy1 P' (transposeInputs σ a) t' i (j - 1) k n = Ipx1 P a t (j - 1) i k (σ n)) := by
  obtain ⟨hs0, hs1⟩ := hr n hn0 hn
  have hn' : n < (transposeInputs σ a).ncomp := hn
  constructor
  · intro hc
    have hc2 : (yebox a).contains j i k := (transposed_boxes σ a i j k).2.2.2.1.mp hc
    obtain ⟨hb1, hb2⟩ := (box_nesting (transposeInputs σ a) i j k).1 hc
    have hb1' : (bxg1 a).contains j i k := (transposed_boxes σ a i j k).1.mp hb1
    have hb2' : (bxg1 a).contains j (i - 1) k := (transposed_boxes σ a (i - 1) j k).1.mp hb2
    cases hppm : a.use_ppm
    · have hppm' : (transposeInputs σ a).use_ppm = false := hppm
      rw [(recon_plm_x P' _ t' i j k n hppm' hc hn0 hn').1,
        (recon_plm_x P' _ t' i j k n hppm' hc hn0 hn').2,
        (recon_plm_y P a t j i k (σ n) hppm hc2 hs0 hs1).1,
        (recon_plm_y P a t j i k (σ n) hppm hc2 hs0 hs1).2]
      have := hP.plm_x i j k n a.l_dt (dy a) a.q (a.vmac j i k 0) (a.pbc (σ n)) (dlo a).y
        (dhi a).y a.is_velocity
      exact ⟨congrArg Prod.fst this, congrArg Prod.snd this⟩
    · have hppm' : (transposeInputs σ a).use_ppm = true := hppm
      rw [(recon_ppm P' _ t' i j k n hppm' hb1 hn0 hn').1,
        (recon_ppm P' _ t' (i - 1) j k n hppm' hb2 hn0 hn').2.1,
        (recon_ppm P a t j i k (σ n) hppm hb1' hs0 hs1).2.2.1,
        (recon_ppm P a t j (i - 1) k (σ n) hppm hb2' hs0 hs1).2.2.2]
      exact ⟨congrArg Prod.fst (hP.ppm_x i j k n a.l_dt (dy a) a.q a.vmac (a.pbc (σ n))
          (dlo a).y (dhi a).y),
        congrArg Prod.snd (hP.ppm_x (i - 1) j k n a.l_dt (dy a) a.q a.vmac (a.pbc (σ n))
          (dlo a).y (dhi a).y)⟩
  · intro hc
    have hc2 : (xebox a).contains j i k := (transposed_boxes σ a i j k).2.2.2.2.1.mp hc
    obtain ⟨hb1, hb2⟩ := (box_nesting (transposeInputs σ a) i j k).2.1 hc
    have hb1' : (bxg1 a).contains j i k := (transposed_boxes σ a i j k).1.mp hb1
    have hb2' : (bxg1 a).contains (j - 1) i k := (transposed_boxes σ a i (j - 1) k).1.mp hb2
    cases hppm : a.use_ppm
    · have hppm' : (transposeInputs σ a).use_ppm = false := hppm
      rw [(recon_plm_y P' _ t' i j k n hppm' hc hn0 hn').1,
        (recon_plm_y P' _ t' i j k n hppm' hc hn0 hn').2,
        (recon_plm_x P a t j i k (σ n) hppm hc2 hs0 hs1).1,
        (recon_plm_x P a t j i k (σ n) hppm hc2 hs0 hs1).2]
      have := hP.plm_y i j k n a.l_dt (dx a) a.q (a.umac j i k 0) (a.pbc (σ n)) (dlo a).x
        (dhi a).x a.is_velocity
      exact ⟨congrArg Prod.fst this, congrArg Prod.snd this⟩
    · have hppm' : (transposeInputs σ a).use_ppm = true := hppm
      rw [(recon_ppm P' _ t' i j k n hppm' hb1 hn0 hn').2.2.1,
        (recon_ppm P' _ t' i (j - 1) k n hppm' hb2 hn0 hn').2.2.2,
        (recon_ppm P a t j i k (σ n) hppm hb1' hs0 hs1).1,
        (recon_ppm P a t (j - 1) i k (σ n) hppm hb2' hs0 hs1).2.1]
      exact ⟨congrArg Prod.fst (hP.ppm_y i j k n a.l_dt (dx a) a.q a.umac (a.pbc (σ n))
          (dlo a).x (dhi a).x),
        congrArg Prod.snd (hP.ppm_y i (j - 1) k n a.l_dt (dx a) a.q a.umac (a.pbc (σ n))
          (dlo a).x (dhi a).x)⟩


/-- Transposition of the transverse pass: the half-states after the forcing term and
the transverse boundary function. -/
lemma trans_transposed (σ : Int → Int) (P P' : Primitives) (a : Inputs) (t t' : Scratch)
    (hP : Transposed σ P P')
    (hr : ∀ n, 0 ≤ n → n < a.ncomp → 0 ≤ σ n ∧ σ n < a.ncomp)
    (i j k n : Int) (hn0 : 0 ≤ n) (hn : n < a.ncomp) :
    ((xebox (transposeInputs σ a)).contains i j k →
      xTrans P' (transposeInputs σ a) t' i j k n = yTrans P a t j i k (σ n)) ∧
    ((yebox (transposeInputs σ a)).contains i j k →
      yTrans P' (transposeInputs σ a) t' i j k n = xTrans P a t j i k (σ n)) := by
  constructor
  · intro hc
    obtain ⟨h1, h2⟩ := (recon_transposed σ P P' a t t' hP hr i j k n hn0 hn).1 hc
    unfold xTrans yTrans
    simp only []
    rw [h1, h2]
    cases hfq : a.fq with
    | none =>
      have e : (transposeInputs σ a).fq = none := by
        show Option.map _ a.fq = none
        rw [hfq]; rfl
      rw [e]
      exact hP.trans_x i j k n a.q _ _ _ _ _ _ _
    | some f =>
      have e : (transposeInputs σ a).fq = some (transposeArr σ f) := by
        show Option.map _ a.fq = _
        rw [hfq]; rfl
      rw [e]
      exact hP.trans_x i j k n a.q _ _ _ _ _ _ _
  · intro hc
    obtain ⟨h1, h2⟩ := (recon_transposed σ P P' a t t' hP hr i j k n hn0 hn).2 hc
    unfold xTrans yTrans
    simp only []
    rw [h1, h2]
    cases hfq : a.fq with
    | none =>
      have e : (transposeInputs σ a).fq = none := by
        show Option.map _ a.fq = none
        rw [hfq]; rfl
      rw [e]
      exact hP.trans_y i j k n a.q _ _ _ _ _ _ _
    | some f =>
      have e : (transposeInputs σ a).fq = some (transposeArr σ f) := by
        show Option.map _ a.fq = _
        rw [hfq]; rfl
      rw [e]
      exact hP.trans_y i j k n a.q _ _ _ _ _ _ _


/-- Transposition of the arrays `xlo`, `xhi`, `ylo`, `yhi`. -/
lemma lohi_transposed (σ : Int → Int) (P P' : Primitives) (a : Inputs) (t t' : Scratch)
    (hP : Transposed σ P P')
    (hr : ∀ n, 0 ≤ n → n < a.ncomp → 0 ≤ σ n ∧ σ n < a.ncomp)
    (i j k n : Int) (hn0 : 0 ≤ n) (hn : n < a.ncomp) :
    ((xebox (transposeInputs σ a)).contains i j k →
      xlo P' (transposeInputs σ a) t' i j k n = ylo P a t j i k (σ n) ∧
      xhi P' (transposeInputs σ a) t' i j k n = yhi P a t j i k (σ n)) ∧
    ((yebox (transposeInputs σ a)).contains i j k →
      ylo P' (transposeInputs σ a) t' i j k n = xlo P a t j i k (σ n) ∧
      yhi P' (transposeInputs σ a) t' i j k n = xhi P a t j i k (σ n)) := by
  obtain ⟨hs0, hs1⟩ := hr n hn0 hn
  have hn' : n < (transposeInputs σ a).ncomp := hn
  constructor
  · intro hc
    have hc2 : (yebox a).contains j i k := (transposed_boxes σ a i j k).2.2.2.1.mp hc
    have h := (trans_transposed σ P P' a t t' hP hr i j k n hn0 hn).1 hc
    simp only [xlo, xhi, ylo, yhi, ParallelFor]
    constructor
    · rw [if_pos ⟨hc, hn0, hn'⟩, if_pos ⟨hc2, hs0, hs1⟩, h]
    · rw [if_pos ⟨hc, hn0, hn'⟩, if_pos ⟨hc2, hs0, hs1⟩, h]
  · intro hc
    have hc2 : (xebox a).contains j i k := (transposed_boxes σ a i j k).2.2.2.2.1.mp hc
    have h := (trans_transposed σ P P' a t t' hP hr i j k n hn0 hn).2 hc
    simp only [xlo, xhi, ylo, yhi, ParallelFor]
    constructor
    · rw [if_pos ⟨hc, hn0, hn'⟩, if_pos ⟨hc2, hs0, hs1⟩, h]
    · rw [if_pos ⟨hc, hn0, hn'⟩, if_pos ⟨hc2, hs0, hs1⟩, h]

/-- Transposition of the upwinded transverse values `yzlo` and `xzlo`. -/
lemma zlo_transposed (σ : Int → Int) (P P' : Primitives) (a : Inputs) (t t' : Scratch)
    (hP : Transposed σ P P')
    (hr : ∀ n, 0 ≤ n → n < a.ncomp → 0 ≤ σ n ∧ σ n < a.ncomp)
    (i j k n : Int) (hn0 : 0 ≤ n) (hn : n < a.ncomp) :
    ((yzloBox (transposeInputs σ a)).contains i j k →
      yzlo P' (transposeInputs σ a) t' i j k n = xzlo P a t j i k (σ n)) ∧
    ((xzloBox (transposeInputs σ a)).contains i j k →
      xzlo P' (transposeInputs σ a) t' i j k n = yzlo P a t j i k (σ n)) := by
  obtain ⟨hs0, hs1⟩ := hr n hn0 hn
  have hn' : n < (transposeInputs σ a).ncomp := hn
  constructor
  · intro hc
    have hc2 : (xzloBox a).contains j i k := (transposed_boxes σ a i j k).2.2.2.2.2.1.mp hc
    have he := (box_nesting (transposeInputs σ a) i j k).2.2.1 hc
    obtain ⟨h1, h2⟩ := (lohi_transposed σ P P' a t t' hP hr i j k n hn0 hn).2 he
    rw [yzlo_eq P' _ t' i j k n hc hn0 hn', xzlo_eq P a t j i k (σ n) hc2 hs0 hs1, hP.small_vel]
    have hS : yzStates P' (transposeInputs σ a) t' i j k n = xzStates P a t j i k (σ n) := by
      unfold yzStates xzStates
      rw [h1, h2]
      exact hP.trans_y i j k n a.q _ _ _ _ _ _ _
    rw [hS]
    rfl
  · intro hc
    have hc2 : (yzloBox a).contains j i k := (transposed_boxes σ a i j k).2.2.2.2.2.2.mp hc
    have he := (box_nesting (transposeInputs σ a) i j k).2.2.2.1 hc
    obtain ⟨h1, h2⟩ := (lohi_transposed σ P P' a t t' hP hr i j k n hn0 hn).1 he
    rw [xzlo_eq P' _ t' i j k n hc hn0 hn', yzlo_eq P a t j i k (σ n) hc2 hs0 hs1, hP.small_vel]
    have hS : xzStates P' (transposeInputs σ a) t' i j k n = yzStates P a t j i k (σ n) := by
      unfold yzStates xzStates
      rw [h1, h2]
      exact hP.trans_x i j k n a.q _ _ _ _ _ _ _
    rw [hS]
    rfl


/-- Transposition of the states handed to the edge boundary function. -/
lemma pre_transposed (σ : Int → Int) (P P' : Primitives) (a : Inputs) (t t' : Scratch)
    (hP : Transposed σ P P')
    (hr : ∀ n, 0 ≤ n → n < a.ncomp → 0 ≤ σ n ∧ σ n < a.ncomp)
    (i j k n : Int) (hn0 : 0 ≤ n) (hn : n < a.ncomp) :
    ((xbx (transposeInputs σ a)).contains i j k →
      xPre P' (transposeInputs σ a) t' i j k n = yPre P a t j i k (σ n)) ∧
    ((ybx (transposeInputs σ a)).contains i j k →
      yPre P' (transposeInputs σ a) t' i j k n = xPre P a t j i k (σ n)) := by
  constructor
  · intro hc
    obtain ⟨he, z1, z2, z3, z4⟩ := (box_nesting (transposeInputs σ a) i j k).2.2.2.2.1 hc
    obtain ⟨l1, l2⟩ := (lohi_transposed σ P P' a t t' hP hr i j k n hn0 hn).1 he
    have y1 := (zlo_transposed σ P P' a t t' hP hr (i - 1) (j + 1) k n hn0 hn).1 z1
    have y2 := (zlo_transposed σ P P' a t t' hP hr (i - 1) j k n hn0 hn).1 z2
    have y3 := (zlo_transposed σ P P' a t t' hP hr i (j + 1) k n hn0 hn).1 z3
    have y4 := (zlo_transposed σ P P' a t t' hP hr i j k n hn0 hn).1 z4
    rw [xPre_eq, yPre_eq]
    simp only [xCons, xAdv, yCons, yAdv]
    rw [l1, l2, y1, y2, y3, y4]
    cases hfq : a.fq with
    | none =>
      have e : (transposeInputs σ a).fq = none := by
        show Option.map _ a.fq = none
        rw [hfq]; rfl
      rw [e]
      rfl
    | some f =>
      have e : (transposeInputs σ a).fq = some (transposeArr σ f) := by
        show Option.map _ a.fq = _
        rw [hfq]; rfl
      rw [e]
      rfl
  · intro hc
    obtain ⟨he, z1, z2, z3, z4⟩ := (box_nesting (transposeInputs σ a) i j k).2.2.2.2.2 hc
    obtain ⟨l1, l2⟩ := (lohi_transposed σ P P' a t t' hP hr i j k n hn0 hn).2 he
    have y1 := (zlo_transposed σ P P' a t t' hP hr (i + 1) (j - 1) k n hn0 hn).2 z1
    have y2 := (zlo_transposed σ P P' a t t' hP hr i (j - 1) k n hn0 hn).2 z2
    have y3 := (zlo_transposed σ P P' a t t' hP hr (i + 1) j k n hn0 hn).2 z3
    have y4 := (zlo_transposed σ P P' a t t' hP hr i j k n hn0 hn).2 z4
    rw [xPre_eq, yPre_eq]
    simp only [xCons, xAdv, yCons, yAdv]
    rw [l1, l2, y1, y2, y3, y4]
    cases hfq : a.fq with
    | none =>
      have e : (transposeInputs σ a).fq = none := by
        show Option.map _ a.fq = none
        rw [hfq]; rfl
      rw [e]
      rfl
    | some f =>
      have e : (transposeInputs σ a).fq = some (transposeArr σ f) := by
        show Option.map _ a.fq = _
        rw [hfq]; rfl
      rw [e]
      rfl


/-- Transposition of the final states of a normal face. -/
lemma final_transposed (σ : Int → Int) (P P' : Primitives) (a : Inputs) (t t' : Scratch)
    (hP : Transposed σ P P')
    (hr : ∀ n, 0 ≤ n → n < a.ncomp → 0 ≤ σ n ∧ σ n < a.ncomp)
    (hvel : a.is_velocity = true →
      ∀ n, (n = P'.XVEL ↔ σ n = P.YVEL) ∧ (n = P'.YVEL ↔ σ n = P.XVEL))
    (i j k n : Int) (hn0 : 0 ≤ n) (hn : n < a.ncomp) :
    ((xbx (transposeInputs σ a)).contains i j k →
      xFinal P' (transposeInputs σ a) t' i j k n = yFinal P a t j i k (σ n)) ∧
    ((ybx (transposeInputs σ a)).contains i j k →
      yFinal P' (transposeInputs σ a) t' i j k n = xFinal P a t j i k (σ n)) := by
  have hdx : (decide (n = P'.XVEL) && (transposeInputs σ a).is_velocity) =
      (decide (σ n = P.YVEL) && a.is_velocity) := by
    show (decide (n = P'.XVEL) && a.is_velocity) = (decide (σ n = P.YVEL) && a.is_velocity)
    cases hv : a.is_velocity
    · simp
    · simp [(hvel hv n).1]
  have hdy : (decide (n = P'.YVEL) && (transposeInputs σ a).is_velocity) =
      (decide (σ n = P.XVEL) && a.is_velocity) := by
    show (decide (n = P'.YVEL) && a.is_velocity) = (decide (σ n = P.XVEL) && a.is_velocity)
    cases hv : a.is_velocity
    · simp
    · simp [(hvel hv n).2]
  constructor
  · intro hc
    have hp := (pre_transposed σ P P' a t t' hP hr i j k n hn0 hn).1 hc
    have hB : xBC P' (transposeInputs σ a) t' i j k n = yBC P a t j i k (σ n) := by
      unfold xBC yBC
      rw [hp]
      exact hP.edge_x i j k n a.q _ _ _ _ _ _ _
    unfold xFinal yFinal
    rw [hB, hdx]
    rfl
  · intro hc
    have hp := (pre_transposed σ P P' a t t' hP hr i j k n hn0 hn).2 hc
    have hB : yBC P' (transposeInputs σ a) t' i j k n = xBC P a t j i k (σ n) := by
      unfold xBC yBC
      rw [hp]
      exact hP.edge_y i j k n a.q _ _ _ _ _ _ _
    unfold xFinal yFinal
    rw [hB, hdy]
    rfl

/-- C19 (direction symmetry): let the primitives `P'` be the transposes of the
primitives `P`, and let the transposed problem exchange the roles of x and y (box
and domain bounds transposed, `q`, `divu`, `fq` transposed, `umac` and `vmac`
exchanged, `dx` and `dy` exchanged, boundary policies of the two directions
exchanged, components relabelled by `σ`, where either `is_velocity = false` or `σ`
exchanges the x- and y-velocity components). Then on the x-faces of the transposed
problem `xedge'(i,j,n) = yedge(j,i,σ n)` and on its y-faces
`yedge'(i,j,n) = xedge(j,i,σ n)`, whatever the scratch and edge arrays held
before; with `σ` the identity this is `xedge'(i,j,n) = yedge(j,i,n)`. -/
theorem direction_symmetry (σ : Int → Int) (P P' : Primitives) (a : Inputs)
    (t t' : Scratch) (e e' : Edges)
    (hP : Transposed σ P P')
    (hr : ∀ n, 0 ≤ n → n < a.ncomp → 0 ≤ σ n ∧ σ n < a.ncomp)
    (hvel : a.is_velocity = true →
      ∀ n, (n = P'.XVEL ↔ σ n = P.YVEL) ∧ (n = P'.YVEL ↔ σ n = P.XVEL))
    (i j k n : Int) (hn0 : 0 ≤ n) (hn : n < a.ncomp) :
    ((xbx (transposeInputs σ a)).contains i j k →
      (ComputeEdgeState P' (transposeInputs σ a) t' e').xedge i j k n =
        (ComputeEdgeState P a t e).yedge j i k (σ n)) ∧
    ((ybx (transposeInputs σ a)).contains i j k →
      (ComputeEdgeState P' (transposeInputs σ a) t' e').yedge i j k n =
        (ComputeEdgeState P a t e).xedge j i k (σ n)) := by
  obtain ⟨hs0, hs1⟩ := hr n hn0 hn
  have hn' : n < (transposeInputs σ a).ncomp := hn
  constructor
  · intro hc
    have hc2 : (ybx a).contains j i k := (transposed_boxes σ a i j k).2.1.mp hc
    rw [xedge_eq P' _ t' e' i j k n hc hn0 hn', yedge_eq P a t e j i k (σ n) hc2 hs0 hs1,
      (final_transposed σ P P' a t t' hP hr hvel i j k n hn0 hn).1 hc, hP.small_vel]
    rfl
  · intro hc
    have hc2 : (xbx a).contains j i k := (transposed_boxes σ a i j k).2.2.1.mp hc
    rw [yedge_eq P' _ t' e' i j k n hc hn0 hn', xedge_eq P a t e j i k (σ n) hc2 hs0 hs1,
      (final_transposed σ P P' a t t' hP hr hvel i j k n hn0 hn).2 hc, hP.small_vel]
    rfl

/-- The demonstration primitives are their own transposes under any relabelling. -/
lemma demoPrimitives_transposed (σ : Int → Int) : Transposed σ demoPrimitives demoPrimitives where
  small_vel := rfl
  ppm_x := fun _ _ _ _ _ _ _ _ _ _ _ => rfl
  ppm_y := fun _ _ _ _ _ _ _ _ _ _ _ => rfl
  plm_x := fun _ _ _ _ _ _ _ _ _ _ _ _ => rfl
  plm_y := fun _ _ _ _ _ _ _ _ _ _ _ _ => rfl
  trans_x := fun _ _ _ _ _ _ _ _ _ _ _ _ => rfl
  trans_y := fun _ _ _ _ _ _ _ _ _ _ _ _ => rfl
  edge_x := fun _ _ _ _ _ _ _ _ _ _ _ _ => rfl
  edge_y := fun _ _ _ _ _ _ _ _ _ _ _ _ => rfl

/-- Witness for C19: a velocity field (`is_velocity = true`, `XVEL = 0`, `YVEL = 1`)
with the two components exchanged by `σ n = 1 - n`, `umac = 1`, `vmac = -1`; the
x-edge of the transposed problem at the face `(0,1)`, component `0`, is the y-edge
of the original at the face `(1,0)`, component `1`. -/
theorem direction_symmetry_witness :
    (ComputeEdgeState demoPrimitives
        (transposeInputs (fun n => 1 - n) (demoEdgeInputs 1 (-1) BCType.foextrap))
        demoScratch demoEdges).xedge 0 1 0 0 =
      (ComputeEdgeState demoPrimitives (demoEdgeInputs 1 (-1) BCType.foextrap)
        demoScratch demoEdges).yedge 1 0 0 1 :=
  (direction_symmetry (fun n => 1 - n) demoPrimitives demoPrimitives
    (demoEdgeInputs 1 (-1) BCType.foextrap) demoScratch demoScratch demoEdges demoEdges
    (demoPrimitives_transposed _)
    (by
      intro n h0 h1
      have h2 : n < 2 := h1
      show 0 ≤ 1 - n ∧ 1 - n < 2
      omega)
    (by
      intro _ n
      show (n = 0 ↔ 1 - n = 1) ∧ (n = 1 ↔ 1 - n = 0)
      omega)
    0 1 0 0 (by decide) (by decide)).1 (by decide)


/-- When one of the two blocks of lines 214-223 runs, the two states leave equal. -/
lemma extrapBlocks_equal (atLo atHi dirvel : Bool) (vel : ℚ) (st : ℚ × ℚ)
    (h : atLo = true ∨ atHi = true) :
    (extrapBlocks atLo atHi dirvel vel st).1 = (extrapBlocks atLo atHi dirvel vel st).2 := by
  unfold extrapBlocks
  cases atLo <;> cases atHi <;> simp at h ⊢

/-- Low block alone on a component that is not the clamped one: both states become
the incoming high-side state. -/
lemma extrapBlocks_lo_plain (vel : ℚ) (st : ℚ × ℚ) :
    extrapBlocks true false false vel st = (st.2, st.2) := by
  simp [extrapBlocks]

/-- High block alone on a component that is not the clamped one: both states become
the incoming low-side state. -/
lemma extrapBlocks_hi_plain (vel : ℚ) (st : ℚ × ℚ) :
    extrapBlocks false true false vel st = (st.1, st.1) := by
  simp [extrapBlocks]

/-- C25: at a face of `xbx` with `i = dlo.x` and low x policy `foextrap` or
`hoextrap`, for every component `0 ≤ n < ncomp`, every `is_velocity` and every
`umac`, the final `stl` equals the final `sth` and `xedge` is that `sth`; at
`i = dhi.x + 1` with `foextrap`/`hoextrap` high policy the final states are equal
and `xedge` is that `stl`; the same on the faces of `ybx` at `j = dlo.y` and
`j = dhi.y + 1`. On a component that is not the normal velocity of a velocity
call, in a non-empty domain, that common value is the `sth` (resp. `stl`) the edge
boundary function returned. -/
theorem extrapolating_boundary_states_equal (P : Primitives) (a : Inputs) (t : Scratch)
    (e : Edges) (i j k n : Int) (hn0 : 0 ≤ n) (hn : n < a.ncomp) :
    ((xbx a).contains i j k → i = (dlo a).x →
      ((a.pbc n).lo 0 = BCType.foextrap ∨ (a.pbc n).lo 0 = BCType.hoextrap) →
        (xFinal P a t i j k n).1 = (xFinal P a t i j k n).2 ∧
        (ComputeEdgeState P a t e).xedge i j k n = (xFinal P a t i j k n).2 ∧
        (a.geom.Domain.ok → ¬ (n = P.XVEL ∧ a.is_velocity = true) →
          (ComputeEdgeState P a t e).xedge i j k n = (xBC P a t i j k n).2)) ∧
    ((xbx a).contains i j k → i = (dhi a).x + 1 →
      ((a.pbc n).hi 0 = BCType.foextrap ∨ (a.pbc n).hi 0 = BCType.hoextrap) →
        (xFinal P a t i j k n).1 = (xFinal P a t i j k n).2 ∧
        (ComputeEdgeState P a t e).xedge i j k n = (xFinal P a t i j k n).1 ∧
        (a.geom.Domain.ok → ¬ (n = P.XVEL ∧ a.is_velocity = true) →
          (ComputeEdgeState P a t e).xedge i j k n = (xBC P a t i j k n).1)) ∧
    ((ybx a).contains i j k → j = (dlo a).y →
      ((a.pbc n).lo 1 = BCType.foextrap ∨ (a.pbc n).lo 1 = BCType.hoextrap) →
        (yFinal P a t i j k n).1 = (yFinal P a t i j k n).2 ∧
        (ComputeEdgeState P a t e).yedge i j k n = (yFinal P a t i j k n).2 ∧
        (a.geom.Domain.ok → ¬ (n = P.YVEL ∧ a.is_velocity = true) →
          (ComputeEdgeState P a t e).yedge i j k n = (yBC P a t i j k n).2)) ∧
    ((ybx a).contains i j k → j = (dhi a).y + 1 →
      ((a.pbc n).hi 1 = BCType.foextrap ∨ (a.pbc n).hi 1 = BCType.hoextrap) →
        (yFinal P a t i j k n).1 = (yFinal P a t i j k n).2 ∧
        (ComputeEdgeState P a t e).yedge i j k n = (yFinal P a t i j k n).1 ∧
        (a.geom.Domain.ok → ¬ (n = P.YVEL ∧ a.is_velocity = true) →
          (ComputeEdgeState P a t e).yedge i j k n = (yBC P a t i j k n).1)) := by
  refine ⟨?_, ?_, ?_, ?_⟩
  · intro hc hi hbc
    have h1 : decide (i = (dlo a).x ∧
        ((a.pbc n).lo 0 = BCType.foextrap ∨ (a.pbc n).lo 0 = BCType.hoextrap)) = true :=
      decide_eq_true ⟨hi, hbc⟩
    have heq : (xFinal P a t i j k n).1 = (xFinal P a t i j k n).2 :=
      extrapBlocks_equal _ _ _ _ _ (Or.inl h1)
    have hedge : (ComputeEdgeState P a t e).xedge i j k n = (xFinal P a t i j k n).2 := by
      rw [xedge_eq P a t e i j k n hc hn0 hn, heq, edgeUpwind_same]
    refine ⟨heq, hedge, ?_⟩
    intro hok hnv
    have hne : ¬ (i = (dhi a).x + 1) := by
      have hx : (dlo a).x ≤ (dhi a).x := hok.1
      omega
    have h2 : decide (i = (dhi a).x + 1 ∧
        ((a.pbc n).hi 0 = BCType.foextrap ∨ (a.pbc n).hi 0 = BCType.hoextrap)) = false :=
      decide_eq_false (fun h => hne h.1)
    have h3 : (decide (n = P.XVEL) && a.is_velocity) = false := by
      by_cases hx : n = P.XVEL
      · cases hv : a.is_velocity
        · simp
        · exact absurd ⟨hx, hv⟩ hnv
      · simp [hx]
    rw [hedge]
    unfold xFinal
    rw [h1, h2, h3, extrapBlocks_lo_plain]
  · intro hc hi hbc
    have h2 : decide (i = (dhi a).x + 1 ∧
        ((a.pbc n).hi 0 = BCType.foextrap ∨ (a.pbc n).hi 0 = BCType.hoextrap)) = true :=
      decide_eq_true ⟨hi, hbc⟩
    have heq : (xFinal P a t i j k n).1 = (xFinal P a t i j k n).2 :=
      extrapBlocks_equal _ _ _ _ _ (Or.inr h2)
    have hedge : (ComputeEdgeState P a t e).xedge i j k n = (xFinal P a t i j k n).1 := by
      rw [xedge_eq P a t e i j k n hc hn0 hn, ← heq, edgeUpwind_same]
    refine ⟨heq, hedge, ?_⟩
    intro hok hnv
    have hne : ¬ (i = (dlo a).x) := by
      have hx : (dlo a).x ≤ (dhi a).x := hok.1
      omega
    have h1 : decide (i = (dlo a).x ∧
        ((a.pbc n).lo 0 = BCType.foextrap ∨ (a.pbc n).lo 0 = BCType.hoextrap)) = false :=
      decide_eq_false (fun h => hne h.1)
    have h3 : (decide (n = P.XVEL) && a.is_velocity) = false := by
      by_cases hx : n = P.XVEL
      · cases hv : a.is_velocity
        · simp
        · exact absurd ⟨hx, hv⟩ hnv
      · simp [hx]
    rw [hedge]
    unfold xFinal
    rw [h1, h2, h3, extrapBlocks_hi_plain]
  · intro hc hj hbc
    have h1 : decide (j = (dlo a).y ∧
        ((a.pbc n).lo 1 = BCType.foextrap ∨ (a.pbc n).lo 1 = BCType.hoextrap)) = true :=
      decide_eq_true ⟨hj, hbc⟩
    have heq : (yFinal P a t i j k n).1 = (yFinal P a t i j k n).2 :=
      extrapBlocks_equal _ _ _ _ _ (Or.inl h1)
    have hedge : (ComputeEdgeState P a t e).yedge i j k n = (yFinal P a t i j k n).2 := by
      rw [yedge_eq P a t e i j k n hc hn0 hn, heq, edgeUpwind_same]
    refine ⟨heq, hedge, ?_⟩
    intro hok hnv
    have hne : ¬ (j = (dhi a).y + 1) := by
      have hy : (dlo a).y ≤ (dhi a).y := hok.2
      omega
    have h2 : decide (j = (dhi a).y + 1 ∧
        ((a.pbc n).hi 1 = BCType.foextrap ∨ (a.pbc n).hi 1 = BCType.hoextrap)) = false :=
      decide_eq_false (fun h => hne h.1)
    have h3 : (decide (n = P.YVEL) && a.is_velocity) = false := by
      by_cases hx : n = P.YVEL
      · cases hv : a.is_velocity
        · simp
        · exact absurd ⟨hx, hv⟩ hnv
      · simp [hx]
    rw [hedge]
    unfold yFinal
    rw [h1, h2, h3, extrapBlocks_lo_plain]
  · intro hc hj hbc
    have h2 : decide (j = (dhi a).y + 1 ∧
        ((a.pbc n).hi 1 = BCType.foextrap ∨ (a.pbc n).hi 1 = BCType.hoextrap)) = true :=
      decide_eq_true ⟨hj, hbc⟩
    have heq : (yFinal P a t i j k n).1 = (yFinal P a t i j k n).2 :=
      extrapBlocks_equal _ _ _ _ _ (Or.inr h2)
    have hedge : (ComputeEdgeState P a t e).yedge i j k n = (yFinal P a t i j k n).1 := by
      rw [yedge_eq P a t e i j k n hc hn0 hn, ← heq, edgeUpwind_same]
    refine ⟨heq, hedge, ?_⟩
    intro hok hnv
    have hne : ¬ (j = (dlo a).y) := by
      have hy : (dlo a).y ≤ (dhi a).y := hok.2
      omega
    have h1 : decide (j = (dlo a).y ∧
        ((a.pbc n).lo 1 = BCType.foextrap ∨ (a.pbc n).lo 1 = BCType.hoextrap)) = false :=
      decide_eq_false (fun h => hne h.1)
    have h3 : (decide (n = P.YVEL) && a.is_velocity) = false := by
      by_cases hx : n = P.YVEL
      · cases hv : a.is_velocity
        · simp
        · exact absurd ⟨hx, hv⟩ hnv
      · simp [hx]
    rw [hedge]
    unfold yFinal
    rw [h1, h2, h3, extrapBlocks_hi_plain]

/-- Witness for C25 with `foextrap` on every side, component `1` (not the x
velocity) and `umac = 1`: at the low face `(0,1)` upwinding alone would take `stl`,
yet `xedge` is the `sth` the edge boundary function returned; at the high face
`(2,1)` with `umac = -1` it is the returned `stl`. -/
theorem extrapolating_boundary_states_equal_witness :
    ((ComputeEdgeState demoPrimitives (demoEdgeInputs 1 0 BCType.foextrap) demoScratch
        demoEdges).xedge 0 1 0 1 =
      (xBC demoPrimitives (demoEdgeInputs 1 0 BCType.foextrap) demoScratch 0 1 0 1).2 ∧
      (xBC demoPrimitives (demoEdgeInputs 1 0 BCType.foextrap) demoScratch 0 1 0 1).2 = 2 ∧
      (xBC demoPrimitives (demoEdgeInputs 1 0 BCType.foextrap) demoScratch 0 1 0 1).1 = 3) ∧
    ((ComputeEdgeState demoPrimitives (demoEdgeInputs (-1) 0 BCType.foextrap) demoScratch
        demoEdges).xedge 2 1 0 1 =
      (xBC demoPrimitives (demoEdgeInputs (-1) 0 BCType.foextrap) demoScratch 2 1 0 1).1) := by
  refine ⟨⟨((extrapolating_boundary_states_equal demoPrimitives
      (demoEdgeInputs 1 0 BCType.foextrap) demoScratch demoEdges 0 1 0 1 (by decide)
      (by decide)).1 (by decide) rfl (Or.inl rfl)).2.2 (by decide) (by decide), ?_, ?_⟩,
    ((extrapolating_boundary_states_equal demoPrimitives
      (demoEdgeInputs (-1) 0 BCType.foextrap) demoScratch demoEdges 2 1 0 1 (by decide)
      (by decide)).2.1 (by decide) rfl (Or.inl rfl)).2.2 (by decide) (by decide)⟩
  · simp [ParallelFor, xBC, xPre, xlo, xhi,
      yzlo, ylo, yhi, xTrans, yTrans, Imx1, Ipx1, Imy1, Ipy1, transUpwind, xbx, ybx, xebox,
      yebox, bxg1, yzloBox, dtdy, dy, dlo, dhi, demoPrimitives, demoEdgeInputs, demoScratch,
      Box.contains, Box.surroundingNodes, Box.growDir, Box.grow]
  · simp [ParallelFor, xBC, xPre, xlo, xhi,
      yzlo, ylo, yhi, xTrans, yTrans, Imx1, Ipx1, Imy1, Ipy1, transUpwind, xbx, ybx, xebox,
      yebox, bxg1, yzloBox, dtdy, dy, dlo, dhi, demoPrimitives, demoEdgeInputs, demoScratch,
      Box.contains, Box.surroundingNodes, Box.growDir, Box.grow]
    norm_num


/-- The x half-states of the transverse pass without forcing array, when the
transverse boundary function changes nothing. -/
lemma xTrans_none (P : Primitives) (a : Inputs) (t : Scratch) (i j k n : Int)
    (hX : ∀ i j k n q lo hi bl bh dl dh v,
      P.SetTransTermXBCs i j k n q lo hi bl bh dl dh v = (lo, hi))
    (hfq : a.fq = none) :
    xTrans P a t i j k n = (Ipx1 P a t (i - 1) j k n, Imx1 P a t i j k n) := by
  simp only [xTrans, hfq, hX]

/-- The y half-states of the transverse pass without forcing array, when the
transverse boundary function changes nothing. -/
lemma yTrans_none (P : Primitives) (a : Inputs) (t : Scratch) (i j k n : Int)
    (hY : ∀ i j k n q lo hi bl bh dl dh v,
      P.SetTransTermYBCs i j k n q lo hi bl bh dl dh v = (lo, hi))
    (hfq : a.fq = none) :
    yTrans P a t i j k n = (Ipy1 P a t i (j - 1) k n, Imy1 P a t i j k n) := by
  simp only [yTrans, hfq, hY]

/-- Neither block of lines 214-223 runs: the states pass unchanged. -/
lemma extrapBlocks_off (dirvel : Bool) (vel : ℚ) (st : ℚ × ℚ) :
    extrapBlocks false false dirvel vel st = st := by
  simp [extrapBlocks]

/-- At an x-face that is not an extrapolating domain-boundary face the final states
are those the edge boundary function returned. -/
lemma xFinal_interior (P : Primitives) (a : Inputs) (t : Scratch) (i j k n : Int)
    (h1 : ¬ (i = (dlo a).x ∧
      ((a.pbc n).lo 0 = BCType.foextrap ∨ (a.pbc n).lo 0 = BCType.hoextrap)))
    (h2 : ¬ (i = (dhi a).x + 1 ∧
      ((a.pbc n).hi 0 = BCType.foextrap ∨ (a.pbc n).hi 0 = BCType.hoextrap))) :
    xFinal P a t i j k n = xBC P a t i j k n := by
  unfold xFinal
  rw [decide_eq_false h1, decide_eq_false h2]
  exact extrapBlocks_off _ _ _

/-- At a y-face that is not an extrapolating domain-boundary face the final states
are those the edge boundary function returned. -/
lemma yFinal_interior (P : Primitives) (a : Inputs) (t : Scratch) (i j k n : Int)
    (h1 : ¬ (j = (dlo a).y ∧
      ((a.pbc n).lo 1 = BCType.foextrap ∨ (a.pbc n).lo 1 = BCType.hoextrap)))
    (h2 : ¬ (j = (dhi a).y + 1 ∧
      ((a.pbc n).hi 1 = BCType.foextrap ∨ (a.pbc n).hi 1 = BCType.hoextrap))) :
    yFinal P a t i j k n = yBC P a t i j k n := by
  unfold yFinal
  rw [decide_eq_false h1, decide_eq_false h2]
  exact extrapBlocks_off _ _ _

/-- On a face of `xebox` the arrays `xlo`, `xhi` hold the pair of the transverse pass. -/
lemma xlohi_eq (P : Primitives) (a : Inputs) (t : Scratch) (i j k n : Int)
    (hc : (xebox a).contains i j k) (hn0 : 0 ≤ n) (hn : n < a.ncomp) :
    xlo P a t i j k n = (xTrans P a t i j k n).1 ∧ xhi P a t i j k n = (xTrans P a t i j k n).2 := by
  simp only [xlo, xhi, ParallelFor]
  rw [if_pos ⟨hc, hn0, hn⟩, if_pos ⟨hc, hn0, hn⟩]
  exact ⟨rfl, rfl⟩

/-- On a face of `yebox` the arrays `ylo`, `yhi` hold the pair of the transverse pass. -/
lemma ylohi_eq (P : Primitives) (a : Inputs) (t : Scratch) (i j k n : Int)
    (hc : (yebox a).contains i j k) (hn0 : 0 ≤ n) (hn : n < a.ncomp) :
    ylo P a t i j k n = (yTrans P a t i j k n).1 ∧ yhi P a t i j k n = (yTrans P a t i j k n).2 := by
  simp only [ylo, yhi, ParallelFor]
  rw [if_pos ⟨hc, hn0, hn⟩, if_pos ⟨hc, hn0, hn⟩]
  exact ⟨rfl, rfl⟩

/-- What the reconstruction stage left for the two donors of a face of `xebox`, on
either branch: the plus state of the cell `i-1` and the minus state of the cell `i`. -/
lemma recon_x_donors (P : Primitives) (a : Inputs) (t : Scratch) (i j k n : Int)
    (hc : (xebox a).contains i j k) (hn0 : 0 ≤ n) (hn : n < a.ncomp) :
    Ipx1 P a t (i - 1) j k n =
      (if a.use_ppm then
        (P.PPM_PredictStateOnXFace (i - 1) j k n a.l_dt (dx a) a.q a.umac (a.pbc n)
          (dlo a).x (dhi a).x).2
      else
        (P.PLM_PredictStateOnXFace i j k n a.l_dt (dx a) a.q (a.umac i j k 0) (a.pbc n)
          (dlo a).x (dhi a).x a.is_velocity).2) ∧
    Imx1 P a t i j k n =
      (if a.use_ppm then
        (P.PPM_PredictStateOnXFace i j k n a.l_dt (dx a) a.q a.umac (a.pbc n)
          (dlo a).x (dhi a).x).1
      else
        (P.PLM_PredictStateOnXFace i j k n a.l_dt (dx a) a.q (a.umac i j k 0) (a.pbc n)
          (dlo a).x (dhi a).x a.is_velocity).1) := by
  have hb := (box_nesting a i j k).1 hc
  cases h : a.use_ppm
  · simp only [Bool.false_eq_true, if_false]
    exact ⟨(recon_plm_x P a t i j k n h hc hn0 hn).2, (recon_plm_x P a t i j k n h hc hn0 hn).1⟩
  · simp only [if_true]
    exact ⟨(recon_ppm P a t (i - 1) j k n h hb.2 hn0 hn).2.1,
      (recon_ppm P a t i j k n h hb.1 hn0 hn).1⟩

/-- What the reconstruction stage left for the two donors of a face of `yebox`, on
either branch: the plus state of the cell `j-1` and the minus state of the cell `j`. -/
lemma recon_y_donors (P : Primitives) (a : Inputs) (t : Scratch) (i j k n : Int)
    (hc : (yebox a).contains i j k) (hn0 : 0 ≤ n) (hn : n < a.ncomp) :
    Ipy1 P a t i (j - 1) k n =
      (if a.use_ppm then
        (P.PPM_PredictStateOnYFace i (j - 1) k n a.l_dt (dy a) a.q a.vmac (a.pbc n)
          (dlo a).y (dhi a).y).2
      else
        (P.PLM_PredictStateOnYFace i j k n a.l_dt (dy a) a.q (a.vmac i j k 0) (a.pbc n)
          (dlo a).y (dhi a).y a.is_velocity).2) ∧
    Imy1 P a t i j k n =
      (if a.use_ppm then
        (P.PPM_PredictStateOnYFace i j k n a.l_dt (dy a) a.q a.vmac (a.pbc n)
          (dlo a).y (dhi a).y).1
      else
        (P.PLM_PredictStateOnYFace i j k n a.l_dt (dy a) a.q (a.vmac i j k 0) (a.pbc n)
          (dlo a).y (dhi a).y a.is_velocity).1) := by
  have hb := (box_nesting a i j k).2.1 hc
  cases h : a.use_ppm
  · simp only [Bool.false_eq_true, if_false]
    exact ⟨(recon_plm_y P a t i j k n h hc hn0 hn).2, (recon_plm_y P a t i j k n h hc hn0 hn).1⟩
  · simp only [if_true]
    exact ⟨(recon_ppm P a t i (j - 1) k n h hb.2 hn0 hn).2.2.2,
      (recon_ppm P a t i j k n h hb.1 hn0 hn).2.2.1⟩

/-- The states of an x-face of `xbx` before the edge boundary function, for a
component with `iconserv = 0`, no forcing array and a transverse boundary function
that changes nothing: the donor states plus the transverse terms. -/
lemma xPre_plain (P : Primitives) (a : Inputs) (t : Scratch) (i j k n : Int)
    (hX : ∀ i j k n q lo hi bl bh dl dh v,
      P.SetTransTermXBCs i j k n q lo hi bl bh dl dh v = (lo, hi))
    (hfq : a.fq = none) (hic : a.iconserv n = 0)
    (hc : (xbx a).contains i j k) (hn0 : 0 ≤ n) (hn : n < a.ncomp) :
    xPre P a t i j k n =
      (Ipx1 P a t (i - 1) j k n
        - (0.5 * dtdy a) * (yzlo P a t (i - 1) (j + 1) k n * a.vmac (i - 1) (j + 1) k 0
                            - yzlo P a t (i - 1) j k n * a.vmac (i - 1) j k 0)
        + (0.5 * dtdy a) * a.q (i - 1) j k n * (a.vmac (i - 1) (j + 1) k 0 - a.vmac (i - 1) j k 0),
       Imx1 P a t i j k n
        - (0.5 * dtdy a) * (yzlo P a t i (j + 1) k n * a.vmac i (j + 1) k 0
                            - yzlo P a t i j k n * a.vmac i j k 0)
        + (0.5 * dtdy a) * a.q i j k n * (a.vmac i (j + 1) k 0 - a.vmac i j k 0)) := by
  obtain ⟨hl, hh⟩ := xlohi_eq P a t i j k n (xbx_sub_xebox a i j k hc) hn0 hn
  rw [xPre_eq, hfq]
  simp only [xCons, xAdv, hl, hh, xTrans_none P a t i j k n hX hfq, hic, ne_eq,
    not_true_eq_false, if_false, add_zero]

/-- The states of a y-face of `ybx` before the edge boundary function, for a
component with `iconserv = 0`, no forcing array and a transverse boundary function
that changes nothing: the donor states plus the transverse terms. -/
lemma yPre_plain (P : Primitives) (a : Inputs) (t : Scratch) (i j k n : Int)
    (hY : ∀ i j k n q lo hi bl bh dl dh v,
      P.SetTransTermYBCs i j k n q lo hi bl bh dl dh v = (lo, hi))
    (hfq : a.fq = none) (hic : a.iconserv n = 0)
    (hc : (ybx a).contains i j k) (hn0 : 0 ≤ n) (hn : n < a.ncomp) :
    yPre P a t i j k n =
      (Ipy1 P a t i (j - 1) k n
        - (0.5 * dtdx a) * (xzlo P a t (i + 1) (j - 1) k n * a.umac (i + 1) (j - 1) k 0
                            - xzlo P a t i (j - 1) k n * a.umac i (j - 1) k 0)
        + (0.5 * dtdx a) * a.q i (j - 1) k n * (a.umac (i + 1) (j - 1) k 0 - a.umac i (j - 1) k 0),
       Imy1 P a t i j k n
        - (0.5 * dtdx a) * (xzlo P a t (i + 1) j k n * a.umac (i + 1) j k 0
                            - xzlo P a t i j k n * a.umac i j k 0)
        + (0.5 * dtdx a) * a.q i j k n * (a.umac (i + 1) j k 0 - a.umac i j k 0)) := by
  obtain ⟨hl, hh⟩ := ylohi_eq P a t i j k n (ybx_sub_yebox a i j k hc) hn0 hn
  rw [yPre_eq, hfq]
  simp only [yCons, yAdv, hl, hh, yTrans_none P a t i j k n hY hfq, hic, ne_eq,
    not_true_eq_false, if_false, add_zero]


/-- C21: for `small_vel > 0`, boundary functions that change nothing, no forcing
array and a component `0 ≤ n < ncomp` with `iconserv[n] = 0`, at a face `(i,j,k)` of
`xbx` that is not an extrapolating domain-boundary face: `umac(i,j,k) ≥ small_vel`
and `vmac(i-1,j,k) = vmac(i-1,j+1,k) = 0` give `xedge(i,j,k,n) = Ipx(i-1,j,k,n)`;
`umac(i,j,k) ≤ -small_vel` and `vmac(i,j,k) = vmac(i,j+1,k) = 0` give
`xedge(i,j,k,n) = Imx(i,j,k,n)`; here `Ipx(i-1,j,k,n)` and `Imx(i,j,k,n)` are the
plus state of the cell `i-1` and the minus state of the cell `i` as the
reconstruction primitive of the branch in use returned them (parabolic: called at
the cell; linear: called at the face). The same holds for `yedge` on the faces of
`ybx` with the roles of the directions exchanged. -/
theorem zero_transverse_exact_donor (P : Primitives) (a : Inputs) (t : Scratch) (e : Edges)
    (i j k n : Int) (hsv : 0 < P.small_vel)
    (hX : ∀ i j k n q lo hi bl bh dl dh v,
      P.SetTransTermXBCs i j k n q lo hi bl bh dl dh v = (lo, hi))
    (hY : ∀ i j k n q lo hi bl bh dl dh v,
      P.SetTransTermYBCs i j k n q lo hi bl bh dl dh v = (lo, hi))
    (hEX : ∀ i j k n q lo hi bl dl bh dh v,
      P.SetXEdgeBCs i j k n q lo hi bl dl bh dh v = (lo, hi))
    (hEY : ∀ i j k n q lo hi bl dl bh dh v,
      P.SetYEdgeBCs i j k n q lo hi bl dl bh dh v = (lo, hi))
    (hfq : a.fq = none) (hic : a.iconserv n = 0) (hn0 : 0 ≤ n) (hn : n < a.ncomp) :
    ((xbx a).contains i j k →
      ¬ (i = (dlo a).x ∧
        ((a.pbc n).lo 0 = BCType.foextrap ∨ (a.pbc n).lo 0 = BCType.hoextrap)) →
      ¬ (i = (dhi a).x + 1 ∧
        ((a.pbc n).hi 0 = BCType.foextrap ∨ (a.pbc n).hi 0 = BCType.hoextrap)) →
      (a.umac i j k 0 ≥ P.small_vel → a.vmac (i - 1) j k 0 = 0 → a.vmac (i - 1) (j + 1) k 0 = 0 →
        (ComputeEdgeState P a t e).xedge i j k n = Ipx1 P a t (i - 1) j k n) ∧
      (a.umac i j k 0 ≤ -P.small_vel → a.vmac i j k 0 = 0 → a.vmac i (j + 1) k 0 = 0 →
        (ComputeEdgeState P a t e).xedge i j k n = Imx1 P a t i j k n) ∧
      Ipx1 P a t (i - 1) j k n =
        (if a.use_ppm then
          (P.PPM_PredictStateOnXFace (i - 1) j k n a.l_dt (dx a) a.q a.umac (a.pbc n)
            (dlo a).x (dhi a).x).2
        else
          (P.PLM_PredictStateOnXFace i j k n a.l_dt (dx a) a.q (a.umac i j k 0) (a.pbc n)
            (dlo a).x (dhi a).x a.is_velocity).2) ∧
      Imx1 P a t i j k n =
        (if a.use_ppm then
          (P.PPM_PredictStateOnXFace i j k n a.l_dt (dx a) a.q a.umac (a.pbc n)
            (dlo a).x (dhi a).x).1
        else
          (P.PLM_PredictStateOnXFace i j k n a.l_dt (dx a) a.q (a.umac i j k 0) (a.pbc n)
            (dlo a).x (dhi a).x a.is_velocity).1)) ∧
    ((ybx a).contains i j k →
      ¬ (j = (dlo a).y ∧
        ((a.pbc n).lo 1 = BCType.foextrap ∨ (a.pbc n).lo 1 = BCType.hoextrap)) →
      ¬ (j = (dhi a).y + 1 ∧
        ((a.pbc n).hi 1 = BCType.foextrap ∨ (a.pbc n).hi 1 = BCType.hoextrap)) →
      (a.vmac i j k 0 ≥ P.small_vel → a.umac i (j - 1) k 0 = 0 → a.umac (i + 1) (j - 1) k 0 = 0 →
        (ComputeEdgeState P a t e).yedge i j k n = Ipy1 P a t i (j - 1) k n) ∧
      (a.vmac i j k 0 ≤ -P.small_vel → a.umac i j k 0 = 0 → a.umac (i + 1) j k 0 = 0 →
        (ComputeEdgeState P a t e).yedge i j k n = Imy1 P a t i j k n) ∧
      Ipy1 P a t i (j - 1) k n =
        (if a.use_ppm then
          (P.PPM_PredictStateOnYFace i (j - 1) k n a.l_dt (dy a) a.q a.vmac (a.pbc n)
            (dlo a).y (dhi a).y).2
        else
          (P.PLM_PredictStateOnYFace i j k n a.l_dt (dy a) a.q (a.vmac i j k 0) (a.pbc n)
            (dlo a).y (dhi a).y a.is_velocity).2) ∧
      Imy1 P a t i j k n =
        (if a.use_ppm then
          (P.PPM_PredictStateOnYFace i j k n a.l_dt (dy a) a.q a.vmac (a.pbc n)
            (dlo a).y (dhi a).y).1
        else
          (P.PLM_PredictStateOnYFace i j k n a.l_dt (dy a) a.q (a.vmac i j k 0) (a.pbc n)
            (dlo a).y (dhi a).y a.is_velocity).1)) := by
  constructor
  · intro hc h1 h2
    have hF : xFinal P a t i j k n = xPre P a t i j k n := by
      rw [xFinal_interior P a t i j k n h1 h2]
      simp only [xBC, hEX]
    have hP := xPre_plain P a t i j k n hX hfq hic hc hn0 hn
    obtain ⟨hd1, hd2⟩ := recon_x_donors P a t i j k n (xbx_sub_xebox a i j k hc) hn0 hn
    refine ⟨?_, ?_, hd1, hd2⟩
    · intro hu hv0 hv1
      rw [xedge_eq P a t e i j k n hc hn0 hn, edgeUpwind_pos _ _ _ _ hsv hu, hF, hP]
      simp only [hv0, hv1, mul_zero, sub_self, sub_zero, add_zero]
    · intro hu hv0 hv1
      rw [xedge_eq P a t e i j k n hc hn0 hn, edgeUpwind_neg _ _ _ _ hsv hu, hF, hP]
      simp only [hv0, hv1, mul_zero, sub_self, sub_zero, add_zero]
  · intro hc h1 h2
    have hF : yFinal P a t i j k n = yPre P a t i j k n := by
      rw [yFinal_interior P a t i j k n h1 h2]
      simp only [yBC, hEY]
    have hP := yPre_plain P a t i j k n hY hfq hic hc hn0 hn
    obtain ⟨hd1, hd2⟩ := recon_y_donors P a t i j k n (ybx_sub_yebox a i j k hc) hn0 hn
    refine ⟨?_, ?_, hd1, hd2⟩
    · intro hu hv0 hv1
      rw [yedge_eq P a t e i j k n hc hn0 hn, edgeUpwind_pos _ _ _ _ hsv hu, hF, hP]
      simp only [hv0, hv1, mul_zero, sub_self, sub_zero, add_zero]
    · intro hu hv0 hv1
      rw [yedge_eq P a t e i j k n hc hn0 hn, edgeUpwind_neg _ _ _ _ hsv hu, hF, hP]
      simp only [hv0, hv1, mul_zero, sub_self, sub_zero, add_zero]

/-- Witness for C21 at the interior x-face `(1,0)`, component `0`, `vmac = 0`: with
`umac = 1` on the parabolic branch `xedge = Ipx(0,0) = q(0,0) + 1 = 1`, and with
`umac = -1` on the linear branch `xedge = Imx(1,0) = q(1,0) - 1 = 0`. -/
theorem zero_transverse_exact_donor_witness :
    ((ComputeEdgeState demoPrimitives (demoEdgeInputs 1 0 BCType.int_dir) demoScratch
        demoEdges).xedge 1 0 0 0 =
      Ipx1 demoPrimitives (demoEdgeInputs 1 0 BCType.int_dir) demoScratch 0 0 0 0 ∧
      Ipx1 demoPrimitives (demoEdgeInputs 1 0 BCType.int_dir) demoScratch 0 0 0 0 = 1) ∧
    ((ComputeEdgeState demoPrimitives
        { demoEdgeInputs (-1) 0 BCType.int_dir with use_ppm := false } demoScratch
        demoEdges).xedge 1 0 0 0 =
      Imx1 demoPrimitives { demoEdgeInputs (-1) 0 BCType.int_dir with use_ppm := false }
        demoScratch 1 0 0 0 ∧
      Imx1 demoPrimitives { demoEdgeInputs (-1) 0 BCType.int_dir with use_ppm := false }
        demoScratch 1 0 0 0 = 0) := by
  refine ⟨⟨((zero_transverse_exact_donor demoPrimitives (demoEdgeInputs 1 0 BCType.int_dir)
      demoScratch demoEdges 1 0 0 0 (by norm_num [demoPrimitives])
      (fun _ _ _ _ _ _ _ _ _ _ _ _ => rfl) (fun _ _ _ _ _ _ _ _ _ _ _ _ => rfl)
      (fun _ _ _ _ _ _ _ _ _ _ _ _ => rfl) (fun _ _ _ _ _ _ _ _ _ _ _ _ => rfl)
      rfl rfl (by decide) (by decide)).1 (by decide) (by decide) (by decide)).1
      (by norm_num [demoPrimitives, demoEdgeInputs]) rfl rfl, ?_⟩,
    ⟨((zero_transverse_exact_donor demoPrimitives
      { demoEdgeInputs (-1) 0 BCType.int_dir with use_ppm := false }
      demoScratch demoEdges 1 0 0 0 (by norm_num [demoPrimitives])
      (fun _ _ _ _ _ _ _ _ _ _ _ _ => rfl) (fun _ _ _ _ _ _ _ _ _ _ _ _ => rfl)
      (fun _ _ _ _ _ _ _ _ _ _ _ _ => rfl) (fun _ _ _ _ _ _ _ _ _ _ _ _ => rfl)
      rfl rfl (by decide) (by decide)).1 (by decide) (by decide) (by decide)).2.1
      (by norm_num [demoPrimitives, demoEdgeInputs]) rfl rfl, ?_⟩⟩
  · simp [Ipx1, ParallelFor, bxg1, demoPrimitives, demoEdgeInputs, Box.contains, Box.grow]
  · simp [Imx1, ParallelFor, xebox, xbx, demoPrimitives, demoEdgeInputs, Box.contains,
      Box.growDir, Box.surroundingNodes]


/-- Equal states give that state, whatever the transverse velocity. -/
lemma transUpwind_same (sv vel c : ℚ) : transUpwind sv vel c c = c := by
  unfold transUpwind
  split_ifs <;> norm_num <;> ring

/-- C23 (free-stream preservation): let `n` be a component `0 ≤ n < ncomp` with
`iconserv[n] = 0`, `q(.,n) = c` on `grow(bx,1)`, the reconstruction primitive of the
branch in use return `(c, c)` at every cell or face, the forcing array be absent or
`0` for the component, and the boundary functions change nothing. Then `xedge = c`
at every face of `xbx` and `yedge = c` at every face of `ybx` that is not an
extrapolating domain-boundary face, for every `umac`, `vmac`, `dt`, `dx`, `dy`. -/
theorem free_stream_preservation (P : Primitives) (a : Inputs) (t : Scratch) (e : Edges)
    (c : ℚ) (i j k n : Int)
    (hX : ∀ i j k n q lo hi bl bh dl dh v,
      P.SetTransTermXBCs i j k n q lo hi bl bh dl dh v = (lo, hi))
    (hY : ∀ i j k n q lo hi bl bh dl dh v,
      P.SetTransTermYBCs i j k n q lo hi bl bh dl dh v = (lo, hi))
    (hEX : ∀ i j k n q lo hi bl dl bh dh v,
      P.SetXEdgeBCs i j k n q lo hi bl dl bh dh v = (lo, hi))
    (hEY : ∀ i j k n q lo hi bl dl bh dh v,
      P.SetYEdgeBCs i j k n q lo hi bl dl bh dh v = (lo, hi))
    (hic : a.iconserv n = 0)
    (hq : ∀ i j k, (bxg1 a).contains i j k → a.q i j k n = c)
    (hppm : a.use_ppm = true → ∀ i j k,
      P.PPM_PredictStateOnXFace i j k n a.l_dt (dx a) a.q a.umac (a.pbc n)
        (dlo a).x (dhi a).x = (c, c) ∧
      P.PPM_PredictStateOnYFace i j k n a.l_dt (dy a) a.q a.vmac (a.pbc n)
        (dlo a).y (dhi a).y = (c, c))
    (hplm : a.use_ppm = false → ∀ i j k,
      P.PLM_PredictStateOnXFace i j k n a.l_dt (dx a) a.q (a.umac i j k 0) (a.pbc n)
        (dlo a).x (dhi a).x a.is_velocity = (c, c) ∧
      P.PLM_PredictStateOnYFace i j k n a.l_dt (dy a) a.q (a.vmac i j k 0) (a.pbc n)
        (dlo a).y (dhi a).y a.is_velocity = (c, c))
    (hfq : ∀ f, a.fq = some f → ∀ i j k, f i j k n = 0)
    (hn0 : 0 ≤ n) (hn : n < a.ncomp) :
    ((xbx a).contains i j k →
      ¬ (i = (dlo a).x ∧
        ((a.pbc n).lo 0 = BCType.foextrap ∨ (a.pbc n).lo 0 = BCType.hoextrap)) →
      ¬ (i = (dhi a).x + 1 ∧
        ((a.pbc n).hi 0 = BCType.foextrap ∨ (a.pbc n).hi 0 = BCType.hoextrap)) →
      (ComputeEdgeState P a t e).xedge i j k n = c) ∧
    ((ybx a).contains i j k →
      ¬ (j = (dlo a).y ∧
        ((a.pbc n).lo 1 = BCType.foextrap ∨ (a.pbc n).lo 1 = BCType.hoextrap)) →
      ¬ (j = (dhi a).y + 1 ∧
        ((a.pbc n).hi 1 = BCType.foextrap ∨ (a.pbc n).hi 1 = BCType.hoextrap)) →
      (ComputeEdgeState P a t e).yedge i j k n = c) := by
  -- the reconstruction stage leaves `c` for both donors of every face read later
  have hrx : ∀ i j, (xebox a).contains i j k →
      Ipx1 P a t (i - 1) j k n = c ∧ Imx1 P a t i j k n = c := by
    intro i j hc
    obtain ⟨h1, h2⟩ := recon_x_donors P a t i j k n hc hn0 hn
    rw [h1, h2]
    cases h : a.use_ppm
    · simp [(hplm h i j k).1]
    · simp [(hppm h (i - 1) j k).1, (hppm h i j k).1]
  have hry : ∀ i j, (yebox a).contains i j k →
      Ipy1 P a t i (j - 1) k n = c ∧ Imy1 P a t i j k n = c := by
    intro i j hc
    obtain ⟨h1, h2⟩ := recon_y_donors P a t i j k n hc hn0 hn
    rw [h1, h2]
    cases h : a.use_ppm
    · simp [(hplm h i j k).2]
    · simp [(hppm h i (j - 1) k).2, (hppm h i j k).2]
  -- the transverse pass keeps them
  have hxt : ∀ i j, (xebox a).contains i j k → xTrans P a t i j k n = (c, c) := by
    intro i j hc
    obtain ⟨h1, h2⟩ := hrx i j hc
    unfold xTrans
    rw [hX, h1, h2]
    cases hf : a.fq with
    | none => rfl
    | some f => simp [hfq f hf]
  have hyt : ∀ i j, (yebox a).contains i j k → yTrans P a t i j k n = (c, c) := by
    intro i j hc
    obtain ⟨h1, h2⟩ := hry i j hc
    unfold yTrans
    rw [hY, h1, h2]
    cases hf : a.fq with
    | none => rfl
    | some f => simp [hfq f hf]
  have hyz : ∀ i j, (yzloBox a).contains i j k → yzlo P a t i j k n = c := by
    intro i j hc
    have hb := (box_nesting a i j k).2.2.1 hc
    obtain ⟨hl, hh⟩ := ylohi_eq P a t i j k n hb hn0 hn
    rw [yzlo_eq P a t i j k n hc hn0 hn]
    simp only [yzStates, hY, hl, hh, hyt i j hb]
    exact transUpwind_same _ _ _
  have hxz : ∀ i j, (xzloBox a).contains i j k → xzlo P a t i j k n = c := by
    intro i j hc
    have hb := (box_nesting a i j k).2.2.2.1 hc
    obtain ⟨hl, hh⟩ := xlohi_eq P a t i j k n hb hn0 hn
    rw [xzlo_eq P a t i j k n hc hn0 hn]
    simp only [xzStates, hX, hl, hh, hxt i j hb]
    exact transUpwind_same _ _ _
  constructor
  · intro hc h1 h2
    obtain ⟨hb, z1, z2, z3, z4⟩ := (box_nesting a i j k).2.2.2.2.1 hc
    obtain ⟨hl, hh⟩ := xlohi_eq P a t i j k n hb hn0 hn
    obtain ⟨g1, g2⟩ := (box_nesting a i j k).1 hb
    have hA : xAdv P a t i j k n = (c, c) := by
      simp only [xAdv, hl, hh, hxt i j hb, hyz _ _ z1, hyz _ _ z2, hyz _ _ z3, hyz _ _ z4,
        hq _ _ _ g1, hq _ _ _ g2]
      refine Prod.ext ?_ ?_ <;> simp only <;> ring
    have hC : xCons P a t i j k n = (c, c) := by
      simp [xCons, hA, hic]
    have hP : xPre P a t i j k n = (c, c) := by
      rw [xPre_eq]
      cases hf : a.fq with
      | none => exact hC
      | some f => simp [hC, hfq f hf]
    have hF : xFinal P a t i j k n = (c, c) := by
      rw [xFinal_interior P a t i j k n h1 h2]
      simp only [xBC, hEX, hP]
    rw [xedge_eq P a t e i j k n hc hn0 hn, hF]
    exact edgeUpwind_same _ _ _
  · intro hc h1 h2
    obtain ⟨hb, z1, z2, z3, z4⟩ := (box_nesting a i j k).2.2.2.2.2 hc
    obtain ⟨hl, hh⟩ := ylohi_eq P a t i j k n hb hn0 hn
    obtain ⟨g1, g2⟩ := (box_nesting a i j k).2.1 hb
    have hA : yAdv P a t i j k n = (c, c) := by
      simp only [yAdv, hl, hh, hyt i j hb, hxz _ _ z1, hxz _ _ z2, hxz _ _ z3, hxz _ _ z4,
        hq _ _ _ g1, hq _ _ _ g2]
      refine Prod.ext ?_ ?_ <;> simp only <;> ring
    have hC : yCons P a t i j k n = (c, c) := by
      simp [yCons, hA, hic]
    have hP : yPre P a t i j k n = (c, c) := by
      rw [yPre_eq]
      cases hf : a.fq with
      | none => exact hC
      | some f => simp [hC, hfq f hf]
    have hF : yFinal P a t i j k n = (c, c) := by
      rw [yFinal_interior P a t i j k n h1 h2]
      simp only [yBC, hEY, hP]
    rw [yedge_eq P a t e i j k n hc hn0 hn, hF]
    exact edgeUpwind_same _ _ _

/-- Witness for C23: the constant field `q = 3` under the non-uniform,
non-solenoidal velocities of `freeStreamInputs`, on the linear branch at the x-face
`(1,1)` and on the parabolic branch at the y-face `(0,2)`. -/
theorem free_stream_preservation_witness :
    (ComputeEdgeState flatPrimitives (freeStreamInputs false) demoScratch demoEdges).xedge
        1 1 0 0 = 3 ∧
    (ComputeEdgeState flatPrimitives (freeStreamInputs true) demoScratch demoEdges).yedge
        0 2 0 1 = 3 :=
  ⟨(free_stream_preservation flatPrimitives (freeStreamInputs false) demoScratch demoEdges
      3 1 1 0 0
      (fun _ _ _ _ _ _ _ _ _ _ _ _ => rfl) (fun _ _ _ _ _ _ _ _ _ _ _ _ => rfl)
      (fun _ _ _ _ _ _ _ _ _ _ _ _ => rfl) (fun _ _ _ _ _ _ _ _ _ _ _ _ => rfl)
      rfl (fun _ _ _ _ => rfl) (fun h => absurd h (by decide))
      (fun _ _ _ _ => ⟨rfl, rfl⟩) (fun _ h => absurd h (by simp [freeStreamInputs, demoEdgeInputs]))
      (by decide) (by decide)).1 (by decide) (by decide) (by decide),
    (free_stream_preservation flatPrimitives (freeStreamInputs true) demoScratch demoEdges
      3 0 2 0 1
      (fun _ _ _ _ _ _ _ _ _ _ _ _ => rfl) (fun _ _ _ _ _ _ _ _ _ _ _ _ => rfl)
      (fun _ _ _ _ _ _ _ _ _ _ _ _ => rfl) (fun _ _ _ _ _ _ _ _ _ _ _ _ => rfl)
      rfl (fun _ _ _ _ => rfl) (fun _ _ _ _ => ⟨rfl, rfl⟩)
      (fun h => absurd h (by decide)) (fun _ h => absurd h (by simp [freeStreamInputs, demoEdgeInputs]))
      (by decide) (by decide)).2 (by decide) (by decide) (by decide)⟩


/-- Sizes of the carved arrays and of the two views for a box of `nx` by `ny` cells. -/
lemma array_sizes (a : Inputs) :
    arraySize (bxg1 a) a.ncomp =
      (a.bx.bigend.x - a.bx.smallend.x + 1 + 2) * (a.bx.bigend.y - a.bx.smallend.y + 1 + 2) *
        a.ncomp ∧
    arraySize (xebox a) a.ncomp =
      (a.bx.bigend.x - a.bx.smallend.x + 1 + 1) * (a.bx.bigend.y - a.bx.smallend.y + 1 + 2) *
        a.ncomp ∧
    arraySize (yebox a) a.ncomp =
      (a.bx.bigend.x - a.bx.smallend.x + 1 + 2) * (a.bx.bigend.y - a.bx.smallend.y + 1 + 1) *
        a.ncomp ∧
    arraySize (yzloBox a) a.ncomp =
      (a.bx.bigend.x - a.bx.smallend.x + 1 + 2) * (a.bx.bigend.y - a.bx.smallend.y + 1 + 1) *
        a.ncomp ∧
    arraySize (xzloBox a) a.ncomp =
      (a.bx.bigend.x - a.bx.smallend.x + 1 + 1) * (a.bx.bigend.y - a.bx.smallend.y + 1 + 2) *
        a.ncomp := by
  simp only [arraySize, Box.numPts, bxg1, xbx, ybx, xebox, yebox, yzloBox, xzloBox, Box.grow,
    (box_dir_ops _ _).1, (box_dir_ops _ _).2.1, (box_dir_ops _ 0).2.2.1, (box_dir_ops _ 0).2.2.2]
  refine ⟨?_, ?_, ?_, ?_, ?_⟩ <;> ring

/-- C27: for a box of `nx ≥ 1` by `ny ≥ 1` cells and `ncomp ≥ 0`, with
`N = (nx+2)*(ny+2)`: the arrays carved on `grow(bx,1)` have `N*ncomp` elements, those
on `xebox` have `(nx+1)*(ny+2)*ncomp`, those on `yebox` have `(nx+2)*(ny+1)*ncomp`;
`tmpfab` has `(4*2+2)*ncomp*N` elements; the offset after the tenth array does not
exceed it; each of the ten arrays starts at a non-negative offset, ends inside
`tmpfab` and ends where no later array has started; and the views `yzlo`
(`(nx+2)*(ny+1)*ncomp` elements) and `xzlo` (`(nx+1)*(ny+2)*ncomp` elements) are no
larger than `xyzlo`, whose storage they share. -/
theorem scratch_arena_fits (a : Inputs) (nx ny : Int)
    (hx : a.bx.bigend.x - a.bx.smallend.x + 1 = nx)
    (hy : a.bx.bigend.y - a.bx.smallend.y + 1 = ny)
    (hnx : 1 ≤ nx) (hny : 1 ≤ ny) (hnc : 0 ≤ a.ncomp) :
    (arraySize (bxg1 a) a.ncomp = (nx + 2) * (ny + 2) * a.ncomp ∧
      arraySize (xebox a) a.ncomp = (nx + 1) * (ny + 2) * a.ncomp ∧
      arraySize (yebox a) a.ncomp = (nx + 2) * (ny + 1) * a.ncomp) ∧
    tmpfabSize a = (4 * 2 + 2) * a.ncomp * ((nx + 2) * (ny + 2)) ∧
    carvedOffset a 10 ≤ tmpfabSize a ∧
    (∀ m : Nat, m < 10 →
      0 ≤ carvedOffset a m ∧ carvedOffset a m + carvedSize a m ≤ tmpfabSize a) ∧
    (∀ m m' : Nat, m < m' → m' < 10 →
      carvedOffset a m + carvedSize a m ≤ carvedOffset a m') ∧
    (arraySize (yzloBox a) a.ncomp = (nx + 2) * (ny + 1) * a.ncomp ∧
      arraySize (yzloBox a) a.ncomp ≤ carvedSize a 8) ∧
    (arraySize (xzloBox a) a.ncomp = (nx + 1) * (ny + 2) * a.ncomp ∧
      arraySize (xzloBox a) a.ncomp ≤ carvedSize a 8) := by
  obtain ⟨sA, sB, sC, sY, sX⟩ := array_sizes a
  rw [hx, hy] at sA sB sC sY sX
  have hT : tmpfabSize a = 10 * arraySize (bxg1 a) a.ncomp := by
    simp only [tmpfabSize, arraySize, bxg1]
    ring
  have hA0 : 0 ≤ arraySize (bxg1 a) a.ncomp := by
    rw [sA]
    exact mul_nonneg (mul_nonneg (by omega) (by omega)) hnc
  have hB0 : 0 ≤ arraySize (xebox a) a.ncomp := by
    rw [sB]
    exact mul_nonneg (mul_nonneg (by omega) (by omega)) hnc
  have hC0 : 0 ≤ arraySize (yebox a) a.ncomp := by
    rw [sC]
    exact mul_nonneg (mul_nonneg (by omega) (by omega)) hnc
  have hBA : arraySize (xebox a) a.ncomp ≤ arraySize (bxg1 a) a.ncomp := by
    rw [sA, sB]
    have h : 0 ≤ (ny + 2) * a.ncomp := mul_nonneg (by omega) hnc
    nlinarith
  have hCA : arraySize (yebox a) a.ncomp ≤ arraySize (bxg1 a) a.ncomp := by
    rw [sA, sC]
    have h : 0 ≤ (nx + 2) * a.ncomp := mul_nonneg (by omega) hnc
    nlinarith
  have h8 : carvedSize a 8 = arraySize (bxg1 a) a.ncomp := by
    simp [carvedSize, carvedBoxes]
  refine ⟨⟨sA, sB, sC⟩, ?_, ?_, ?_, ?_, ⟨sY, ?_⟩, ⟨sX, ?_⟩⟩
  · rw [hT, sA]
    ring
  · rw [hT]
    simp only [carvedOffset, carvedBoxes, List.take, List.map, List.sum_cons, List.sum_nil]
    linarith
  · intro m hm
    rw [hT]
    interval_cases m <;>
      simp only [carvedOffset, carvedSize, carvedBoxes, List.take, List.map, List.sum_cons,
        List.sum_nil, List.getD_cons_zero, List.getD_cons_succ] <;>
      constructor <;> linarith
  · intro m m' hmm hm'
    interval_cases m' <;> interval_cases m <;>
      simp only [carvedOffset, carvedSize, carvedBoxes, List.take, List.map, List.sum_cons,
        List.sum_nil, List.getD_cons_zero, List.getD_cons_succ] <;>
      linarith
  · rw [h8, sY, sA]
    have h := hCA
    rw [sA, sC] at h
    exact h
  · rw [h8, sX, sA]
    have h := hBA
    rw [sA, sB] at h
    exact h

/-- Witness for C27 on the box `[0,1] x [0,1]` with two components (`nx = ny = 2`,
`N = 16`): the ten arrays take `4*32 + 2*24 + 2*24 + 2*32 = 288` of the `320`
elements of `tmpfab`. -/
theorem scratch_arena_fits_witness :
    carvedOffset (demoEdgeInputs 1 0 BCType.int_dir) 10 ≤
        tmpfabSize (demoEdgeInputs 1 0 BCType.int_dir) ∧
    carvedOffset (demoEdgeInputs 1 0 BCType.int_dir) 10 = 288 ∧
    tmpfabSize (demoEdgeInputs 1 0 BCType.int_dir) = 320 :=
  ⟨(scratch_arena_fits (demoEdgeInputs 1 0 BCType.int_dir) 2 2 (by decide) (by decide)
      (by decide) (by decide) (by decide)).2.2.1, by decide, by decide⟩


/-- The checked reads of the x transverse pass at a face of `xebox` succeed on both
reconstruction branches and return the values of the arrays. -/
lemma recon_reads_x (P : Primitives) (a : Inputs) (t : Scratch) (i j k n : Int)
    (hc : (xebox a).contains i j k) (hn0 : 0 ≤ n) (hn : n < a.ncomp) :
    readAt (bxg1 a) a.ncomp (IpxC P a) (i - 1) j k n = some (Ipx1 P a t (i - 1) j k n) ∧
    readAt (bxg1 a) a.ncomp (ImxC P a) i j k n = some (Imx1 P a t i j k n) := by
  obtain ⟨hb1, hb2⟩ := (box_nesting a i j k).1 hc
  cases h : a.use_ppm <;>
    simp [readAt, IpxC, ImxC, Ipx1, Imx1, h, ParallelFor, hc, hb1, hb2, hn0, hn]

/-- The checked reads of the y transverse pass at a face of `yebox` succeed on both
reconstruction branches and return the values of the arrays. -/
lemma recon_reads_y (P : Primitives) (a : Inputs) (t : Scratch) (i j k n : Int)
    (hc : (yebox a).contains i j k) (hn0 : 0 ≤ n) (hn : n < a.ncomp) :
    readAt (bxg1 a) a.ncomp (IpyC P a) i (j - 1) k n = some (Ipy1 P a t i (j - 1) k n) ∧
    readAt (bxg1 a) a.ncomp (ImyC P a) i j k n = some (Imy1 P a t i j k n) := by
  obtain ⟨hb1, hb2⟩ := (box_nesting a i j k).2.1 hc
  cases h : a.use_ppm <;>
    simp [readAt, IpyC, ImyC, Ipy1, Imy1, h, ParallelFor, hc, hb1, hb2, hn0, hn]

/-- The checked x transverse pass at a face of `xebox` returns the pair of the pass. -/
lemma xTransC_eq (P : Primitives) (a : Inputs) (t : Scratch) (i j k n : Int)
    (hc : (xebox a).contains i j k) (hn0 : 0 ≤ n) (hn : n < a.ncomp) :
    xTransC P a i j k n = some (xTrans P a t i j k n) := by
  obtain ⟨h1, h2⟩ := recon_reads_x P a t i j k n hc hn0 hn
  simp only [xTransC, h1, h2, Option.some_bind]
  rfl

/-- The checked y transverse pass at a face of `yebox` returns the pair of the pass. -/
lemma yTransC_eq (P : Primitives) (a : Inputs) (t : Scratch) (i j k n : Int)
    (hc : (yebox a).contains i j k) (hn0 : 0 ≤ n) (hn : n < a.ncomp) :
    yTransC P a i j k n = some (yTrans P a t i j k n) := by
  obtain ⟨h1, h2⟩ := recon_reads_y P a t i j k n hc hn0 hn
  simp only [yTransC, h1, h2, Option.some_bind]
  rfl

/-- Checked reads of `xlo` and `xhi` at a face of `xebox` succeed. -/
lemma xlohi_reads (P : Primitives) (a : Inputs) (t : Scratch) (i j k n : Int)
    (hc : (xebox a).contains i j k) (hn0 : 0 ≤ n) (hn : n < a.ncomp) :
    readAt (xebox a) a.ncomp (xloC P a) i j k n = some (xlo P a t i j k n) ∧
    readAt (xebox a) a.ncomp (xhiC P a) i j k n = some (xhi P a t i j k n) := by
  simp [readAt, xloC, xhiC, xlo, xhi, ParallelFor, hc, hn0, hn, xTransC_eq P a t i j k n hc hn0 hn]

/-- Checked reads of `ylo` and `yhi` at a face of `yebox` succeed. -/
lemma ylohi_reads (P : Primitives) (a : Inputs) (t : Scratch) (i j k n : Int)
    (hc : (yebox a).contains i j k) (hn0 : 0 ≤ n) (hn : n < a.ncomp) :
    readAt (yebox a) a.ncomp (yloC P a) i j k n = some (ylo P a t i j k n) ∧
    readAt (yebox a) a.ncomp (yhiC P a) i j k n = some (yhi P a t i j k n) := by
  simp [readAt, yloC, yhiC, ylo, yhi, ParallelFor, hc, hn0, hn, yTransC_eq P a t i j k n hc hn0 hn]

/-- Checked reads of `yzlo` on its box succeed. -/
lemma yzlo_reads (P : Primitives) (a : Inputs) (t : Scratch) (i j k n : Int)
    (hc : (yzloBox a).contains i j k) (hn0 : 0 ≤ n) (hn : n < a.ncomp) :
    readAt (yzloBox a) a.ncomp (yzloC P a) i j k n = some (yzlo P a t i j k n) := by
  obtain ⟨h1, h2⟩ := ylohi_reads P a t i j k n ((box_nesting a i j k).2.2.1 hc) hn0 hn
  rw [readAt, if_pos ⟨hc, hn0, hn⟩, yzlo_eq P a t i j k n hc hn0 hn]
  simp only [yzloC, ParallelFor]
  rw [if_pos ⟨hc, hn0, hn⟩, h1, h2]
  rfl

/-- Checked reads of `xzlo` on its box succeed. -/
lemma xzlo_reads (P : Primitives) (a : Inputs) (t : Scratch) (i j k n : Int)
    (hc : (xzloBox a).contains i j k) (hn0 : 0 ≤ n) (hn : n < a.ncomp) :
    readAt (xzloBox a) a.ncomp (xzloC P a) i j k n = some (xzlo P a t i j k n) := by
  obtain ⟨h1, h2⟩ := xlohi_reads P a t i j k n ((box_nesting a i j k).2.2.2.1 hc) hn0 hn
  rw [readAt, if_pos ⟨hc, hn0, hn⟩, xzlo_eq P a t i j k n hc hn0 hn]
  simp only [xzloC, ParallelFor]
  rw [if_pos ⟨hc, hn0, hn⟩, h1, h2]
  rfl

/-- The checked x normal pass at a face of `xbx` returns the states of the pass. -/
lemma xPreC_eq (P : Primitives) (a : Inputs) (t : Scratch) (i j k n : Int)
    (hc : (xbx a).contains i j k) (hn0 : 0 ≤ n) (hn : n < a.ncomp) :
    xPreC P a i j k n = some (xPre P a t i j k n) := by
  obtain ⟨hb, z1, z2, z3, z4⟩ := (box_nesting a i j k).2.2.2.2.1 hc
  obtain ⟨h1, h2⟩ := xlohi_reads P a t i j k n hb hn0 hn
  simp only [xPreC, h1, h2, yzlo_reads P a t _ _ k n z1 hn0 hn, yzlo_reads P a t _ _ k n z2 hn0 hn,
    yzlo_reads P a t _ _ k n z3 hn0 hn, yzlo_reads P a t _ _ k n z4 hn0 hn, Option.some_bind]
  rfl

/-- The checked y normal pass at a face of `ybx` returns the states of the pass. -/
lemma yPreC_eq (P : Primitives) (a : Inputs) (t : Scratch) (i j k n : Int)
    (hc : (ybx a).contains i j k) (hn0 : 0 ≤ n) (hn : n < a.ncomp) :
    yPreC P a i j k n = some (yPre P a t i j k n) := by
  obtain ⟨hb, z1, z2, z3, z4⟩ := (box_nesting a i j k).2.2.2.2.2 hc
  obtain ⟨h1, h2⟩ := ylohi_reads P a t i j k n hb hn0 hn
  simp only [yPreC, h1, h2, xzlo_reads P a t _ _ k n z1 hn0 hn, xzlo_reads P a t _ _ k n z2 hn0 hn,
    xzlo_reads P a t _ _ k n z3 hn0 hn, xzlo_reads P a t _ _ k n z4 hn0 hn, Option.some_bind]
  rfl


/-- C26 (stencil coverage), for every box `bx`, both values of `use_ppm`, every
component `0 ≤ n < ncomp` and whatever the scratch arrays hold on entry: with every
read of a scratch array checked against the box of the array and against what has
been written, each read succeeds and returns the value of the array. The transverse
pass reads `Ipx(i-1,j)`, `Imx(i,j)` at the faces of `xebox` and `Ipy(i,j-1)`,
`Imy(i,j)` at the faces of `yebox`; the `yzlo` pass reads `ylo`, `yhi` on
`Box(yzlo)`, the `xzlo` pass reads `xlo`, `xhi` on `Box(xzlo)`; the x normal pass
reads `xlo`, `xhi` at `(i,j)` and `yzlo` at `(i-1,j+1)`, `(i-1,j)`, `(i,j+1)`,
`(i,j)` at the faces of `xbx`, the y normal pass reads `ylo`, `yhi` at `(i,j)` and
`xzlo` at `(i+1,j-1)`, `(i,j-1)`, `(i+1,j)`, `(i,j)` at the faces of `ybx`; and the
checked run stores to `xedge` and `yedge` what `ComputeEdgeState` stores. -/
theorem stencil_coverage (P : Primitives) (a : Inputs) (t : Scratch) (e : Edges)
    (i j k n : Int) (hn0 : 0 ≤ n) (hn : n < a.ncomp) :
    ((xebox a).contains i j k →
      readAt (bxg1 a) a.ncomp (IpxC P a) (i - 1) j k n = some (Ipx1 P a t (i - 1) j k n) ∧
      readAt (bxg1 a) a.ncomp (ImxC P a) i j k n = some (Imx1 P a t i j k n)) ∧
    ((yebox a).contains i j k →
      readAt (bxg1 a) a.ncomp (IpyC P a) i (j - 1) k n = some (Ipy1 P a t i (j - 1) k n) ∧
      readAt (bxg1 a) a.ncomp (ImyC P a) i j k n = some (Imy1 P a t i j k n)) ∧
    ((yzloBox a).contains i j k →
      readAt (yebox a) a.ncomp (yloC P a) i j k n = some (ylo P a t i j k n) ∧
      readAt (yebox a) a.ncomp (yhiC P a) i j k n = some (yhi P a t i j k n)) ∧
    ((xzloBox a).contains i j k →
      readAt (xebox a) a.ncomp (xloC P a) i j k n = some (xlo P a t i j k n) ∧
      readAt (xebox a) a.ncomp (xhiC P a) i j k n = some (xhi P a t i j k n)) ∧
    ((xbx a).contains i j k →
      readAt (xebox a) a.ncomp (xloC P a) i j k n = some (xlo P a t i j k n) ∧
      readAt (xebox a) a.ncomp (xhiC P a) i j k n = some (xhi P a t i j k n) ∧
      readAt (yzloBox a) a.ncomp (yzloC P a) (i - 1) (j + 1) k n =
        some (yzlo P a t (i - 1) (j + 1) k n) ∧
      readAt (yzloBox a) a.ncomp (yzloC P a) (i - 1) j k n = some (yzlo P a t (i - 1) j k n) ∧
      readAt (yzloBox a) a.ncomp (yzloC P a) i (j + 1) k n = some (yzlo P a t i (j + 1) k n) ∧
      readAt (yzloBox a) a.ncomp (yzloC P a) i j k n = some (yzlo P a t i j k n) ∧
      xedgeC P a i j k n = some ((ComputeEdgeState P a t e).xedge i j k n)) ∧
    ((ybx a).contains i j k →
      readAt (yebox a) a.ncomp (yloC P a) i j k n = some (ylo P a t i j k n) ∧
      readAt (yebox a) a.ncomp (yhiC P a) i j k n = some (yhi P a t i j k n) ∧
      readAt (xzloBox a) a.ncomp (xzloC P a) (i + 1) (j - 1) k n =
        some (xzlo P a t (i + 1) (j - 1) k n) ∧
      readAt (xzloBox a) a.ncomp (xzloC P a) i (j - 1) k n = some (xzlo P a t i (j - 1) k n) ∧
      readAt (xzloBox a) a.ncomp (xzloC P a) (i + 1) j k n = some (xzlo P a t (i + 1) j k n) ∧
      readAt (xzloBox a) a.ncomp (xzloC P a) i j k n = some (xzlo P a t i j k n) ∧
      yedgeC P a i j k n = some ((ComputeEdgeState P a t e).yedge i j k n)) := by
  refine ⟨fun hc => recon_reads_x P a t i j k n hc hn0 hn,
    fun hc => recon_reads_y P a t i j k n hc hn0 hn,
    fun hc => ylohi_reads P a t i j k n ((box_nesting a i j k).2.2.1 hc) hn0 hn,
    fun hc => xlohi_reads P a t i j k n ((box_nesting a i j k).2.2.2.1 hc) hn0 hn, ?_, ?_⟩
  · intro hc
    obtain ⟨hb, z1, z2, z3, z4⟩ := (box_nesting a i j k).2.2.2.2.1 hc
    refine ⟨(xlohi_reads P a t i j k n hb hn0 hn).1, (xlohi_reads P a t i j k n hb hn0 hn).2,
      yzlo_reads P a t _ _ k n z1 hn0 hn, yzlo_reads P a t _ _ k n z2 hn0 hn,
      yzlo_reads P a t _ _ k n z3 hn0 hn, yzlo_reads P a t _ _ k n z4 hn0 hn, ?_⟩
    rw [xedge_eq P a t e i j k n hc hn0 hn]
    simp only [xedgeC, ParallelFor]
    rw [if_pos ⟨hc, hn0, hn⟩, xPreC_eq P a t i j k n hc hn0 hn]
    rfl
  · intro hc
    obtain ⟨hb, z1, z2, z3, z4⟩ := (box_nesting a i j k).2.2.2.2.2 hc
    refine ⟨(ylohi_reads P a t i j k n hb hn0 hn).1, (ylohi_reads P a t i j k n hb hn0 hn).2,
      xzlo_reads P a t _ _ k n z1 hn0 hn, xzlo_reads P a t _ _ k n z2 hn0 hn,
      xzlo_reads P a t _ _ k n z3 hn0 hn, xzlo_reads P a t _ _ k n z4 hn0 hn, ?_⟩
    rw [yedge_eq P a t e i j k n hc hn0 hn]
    simp only [yedgeC, ParallelFor]
    rw [if_pos ⟨hc, hn0, hn⟩, yPreC_eq P a t i j k n hc hn0 hn]
    rfl

/-- Witness for C26 on the box `[0,1] x [0,1]`: on the parabolic branch the checked
run stores `xedge(2,1,0,1) = 6` at the last x-face, on the linear branch it stores
the `yedge(0,2,0,0)` of `ComputeEdgeState` at the last y-face; a read of `xlo` one
face beyond `xebox` fails. -/
theorem stencil_coverage_witness :
    (xedgeC demoPrimitives (demoEdgeInputs 1 (-1) BCType.int_dir) 2 1 0 1 =
        some ((ComputeEdgeState demoPrimitives (demoEdgeInputs 1 (-1) BCType.int_dir)
          demoScratch demoEdges).xedge 2 1 0 1) ∧
      (ComputeEdgeState demoPrimitives (demoEdgeInputs 1 (-1) BCType.int_dir)
        demoScratch demoEdges).xedge 2 1 0 1 = 6) ∧
    yedgeC demoPrimitives { demoEdgeInputs 1 (-1) BCType.int_dir with use_ppm := false } 0 2 0 0 =
      some ((ComputeEdgeState demoPrimitives
        { demoEdgeInputs 1 (-1) BCType.int_dir with use_ppm := false }
        demoScratch demoEdges).yedge 0 2 0 0) ∧
    readAt (xebox (demoEdgeInputs 1 (-1) BCType.int_dir)) 2
      (xloC demoPrimitives (demoEdgeInputs 1 (-1) BCType.int_dir)) 3 1 0 1 = none := by
  refine ⟨⟨((stencil_coverage demoPrimitives (demoEdgeInputs 1 (-1) BCType.int_dir) demoScratch
      demoEdges 2 1 0 1 (by decide) (by decide)).2.2.2.2.1 (by decide)).2.2.2.2.2.2, ?_⟩,
    ((stencil_coverage demoPrimitives
      { demoEdgeInputs 1 (-1) BCType.int_dir with use_ppm := false } demoScratch
      demoEdges 0 2 0 0 (by decide) (by decide)).2.2.2.2.2 (by decide)).2.2.2.2.2.2, ?_⟩
  · simp [ComputeEdgeState, edgeUpwind, ParallelFor, xFinal, extrapBlocks, xBC, xPre, xlo, xhi,
      yzlo, ylo, yhi, xTrans, yTrans, Imx1, Ipx1, Imy1, Ipy1, transUpwind, xbx, ybx, xebox,
      yebox, bxg1, yzloBox, dtdy, dy, dlo, dhi, demoPrimitives, demoEdgeInputs, demoScratch,
      Box.contains, Box.surroundingNodes, Box.growDir, Box.grow]
    norm_num
  · simp [readAt, xebox, xbx, demoEdgeInputs, Box.contains, Box.surroundingNodes, Box.growDir]

end Godunov
